import Mathlib

/-!
# Hospital-Management-System: booking, cancellation, completion and payment flags

A shallow embedding of the request handlers of
`backend/controllers/userController.js` and
`backend/controllers/doctorController.js`.

Modelling conventions.

* The three Mongo collections (doctors, users, appointments) are lists of
  records; `findById` returns the first record with the given `_id` and
  `findByIdAndUpdate` rewrites that same record.
* Object ids are natural numbers. A new appointment receives an id that no
  appointment of the ledger carries (`freshId`), as the database does.
* A JavaScript object used as a map (`slots_booked`) is an association list of
  its stored keys; reading a stored key is `slotGet`, assigning a key is
  `slotSet`. A key that is not stored and names a member of `Object.prototype`
  reads that member (`readsInherited`), on which `bookAppointment` throws.
* A request field that is absent is `none` (ids) or the empty string
  (`slotDate`, `slotTime`), both of which JavaScript treats as falsy.
* A handler is a function from the store and the request to the response and
  the store afterwards. An exception thrown inside `try` is the `catch`
  branch: status 500, with the writes made before the throw kept.
* Fees and amounts are natural numbers, on which `|| 0` acts as written in
  `numOr`. The product `amount * 100` of the payment handlers is rounded as
  JavaScript rounds it, to a double (`toDouble`, `chargeAmount`); the sum of the
  dashboard is taken exactly.
* The Razorpay provider is its list of orders, kept in the store. A handler
  that creates an order or a session takes the answer of the provider as an
  argument and returns, next to its response, the request it sent.
-/

namespace HMS

/-! ## Data model -/

/-- Address sub-document of a doctor. -/
structure Address where
  line1 : String
  line2 : String
deriving DecidableEq, Repr

/-- The object `slots_booked`: date string to the array of reserved times. -/
abbrev SlotMap := List (String × List String)

/-- A document of the doctor collection (the fields the handlers read). -/
structure Doctor where
  _id : Nat
  name : String
  image : String
  speciality : String
  experience : String
  fees : Nat
  address : Option Address
  available : Bool
  slots_booked : SlotMap
deriving DecidableEq, Repr

/-- A document of the user collection (the fields the handlers read). -/
structure User where
  _id : Nat
  name : String
  email : String
  image : String
deriving DecidableEq, Repr

/-- The object `docInfo` copied into an appointment. -/
structure DocInfo where
  _id : Nat
  name : String
  image : String
  speciality : String
  year : String
  fees : Nat
  address : Address
deriving DecidableEq, Repr

/-- The object `userInfo` copied into an appointment. -/
structure UserInfo where
  _id : Nat
  name : String
  email : String
  image : String
deriving DecidableEq, Repr

/-- A document of the appointment collection; `status` is the field the doctor
handlers assign, absent on a new appointment. -/
structure Appointment where
  _id : Nat
  userId : Nat
  docId : Nat
  slotDate : String
  slotTime : String
  amount : Nat
  date : Nat
  docData : DocInfo
  userData : UserInfo
  cancelled : Bool
  payment : Bool
  isCompleted : Bool
  status : Option String
deriving DecidableEq, Repr

/-- An order held by the Razorpay provider; `receipt` is the appointment id and
`amount` the number the handler sent (`none` is `Infinity`). -/
structure Order where
  id : String
  amount : Option Nat
  currency : String
  receipt : Option Nat
deriving DecidableEq, Repr

/-- The persistent state: the three collections and the provider's orders. -/
structure Store where
  doctors : List Doctor
  users : List User
  appointments : List Appointment
  orders : List Order
deriving DecidableEq, Repr

/-- The JSON response of a handler. -/
structure Response where
  status : Nat
  success : Bool
  message : String
  appointment : Option Appointment
deriving DecidableEq, Repr

/-! ## Helpers of the controllers -/

/-- The helper `jsonOk(res, payload)`: status 200 and `success: true`. -/
def jsonOk (message : String) (appointment : Option Appointment) : Response :=
  { status := 200, success := true, message := message, appointment := appointment }

/-- The helper `jsonErr(res, message, code)`. -/
def jsonErr (message : String) (code : Nat) : Response :=
  { status := code, success := false, message := message, appointment := none }

/-- The operator `a || b` on strings: `b` when `a` is empty. -/
def strOr (a b : String) : String := if a = "" then b else a

/-- The operator `a || b` on numbers: `b` when `a` is zero. -/
def numOr (a b : Nat) : Nat := if a = 0 then b else a

/-- Interpolation of a value in a template literal: `undefined` is printed as
the word "undefined". -/
def interpolate : Option String → String
  | none => "undefined"
  | some s => s

/-- The number of low bits by which `n` exceeds the 53 bits of the significand
of a double: the least `e` with `n / 2 ^ e < 2 ^ 53`. The first argument bounds
the search; `n` itself is enough. -/
def excessBits : Nat → Nat → Nat
  | 0, _ => 0
  | fuel + 1, n => if n < 2 ^ 53 then 0 else excessBits fuel (n / 2) + 1

/-- The IEEE 754 double that a whole number `n` is rounded to: the nearest
multiple of `2 ^ e` for `e = excessBits n n`, a tie going to the even
significand; `none` is `Infinity`, from `2 ^ 1024 - 2 ^ 970` on. -/
def toDouble (n : Nat) : Option Nat :=
  let e := excessBits n n
  let q := n / 2 ^ e
  let r := n % 2 ^ e
  let q' := if 2 * r < 2 ^ e then q else if 2 ^ e < 2 * r then q + 1 else q + q % 2
  if e < 971 ∨ (e = 971 ∧ q' < 2 ^ 53) then some (q' * 2 ^ e) else none

/-- The expression `Math.round(amount * 100)` on a whole amount, itself a
double as every stored number is: the exact product is rounded to a double,
which `Math.round` leaves as it is, a whole number or `Infinity`. -/
def chargeAmount (amount : Nat) : Option Nat := toDouble (amount * 100)

/-! ## Collections -/

/-- Rewrite the first element satisfying `p` with `f`. -/
def updateFirst {α : Type} (p : α → Bool) (f : α → α) : List α → List α
  | [] => []
  | x :: xs => if p x then f x :: xs else x :: updateFirst p f xs

/-- The query `Model.findById(id)`: the first record carrying the id. -/
def findById {α : Type} (key : α → Nat) (l : List α) (id : Nat) : Option α :=
  l.find? (fun x => decide (key x = id))

/-- The write `Model.findByIdAndUpdate(id, update)` on that record. -/
def findByIdAndUpdate {α : Type} (key : α → Nat) (l : List α) (id : Nat) (f : α → α) :
    List α :=
  updateFirst (fun x => decide (key x = id)) f l

/-- The id the database gives a created appointment: one no appointment has. -/
def freshId (l : List Appointment) : Nat :=
  (l.map (fun a => a._id)).foldr max 0 + 1

/-- Read `slots_booked[date]` among the stored keys. -/
def slotGet : SlotMap → String → Option (List String)
  | [], _ => none
  | (k, v) :: rest, date => if k = date then some v else slotGet rest date

/-- Assign `slots_booked[date] = v`. -/
def slotSet : SlotMap → String → List String → SlotMap
  | [], date, v => [(date, v)]
  | (k, w) :: rest, date, v =>
      if k = date then (k, v) :: rest else (k, w) :: slotSet rest date v

/-- The names of the members every plain object inherits from
`Object.prototype`. -/
def objectPrototypeKeys : List String :=
  ["constructor", "__defineGetter__", "__defineSetter__", "hasOwnProperty",
    "__lookupGetter__", "__lookupSetter__", "isPrototypeOf", "propertyIsEnumerable",
    "toString", "valueOf", "__proto__", "toLocaleString"]

/-- The read `slots_booked[date]` on the plain object yields an inherited
member, which is truthy and is not an array: `date` is not a stored key and
names a member of `Object.prototype`. -/
def readsInherited (slots_booked : SlotMap) (date : String) : Bool :=
  (slotGet slots_booked date).isNone && decide (date ∈ objectPrototypeKeys)

/-! ## userController.js: bookAppointment -/

/-- The request of `bookAppointment`: `req.user?.id`, `req.body?.userId` and
the body fields. -/
structure BookReq where
  authId : Option Nat
  bodyUserId : Option Nat
  docId : Option Nat
  slotDate : String
  slotTime : String
deriving DecidableEq, Repr

/-- The object `docInfo` built by `bookAppointment`. -/
def mkDocInfo (docData : Doctor) : DocInfo :=
  { _id := docData._id
    name := strOr docData.name "Unknown Doctor"
    image := strOr docData.image ""
    speciality := strOr docData.speciality "N/A"
    year := strOr docData.experience "N/A"
    fees := numOr docData.fees 0
    address := docData.address.getD { line1 := "N/A", line2 := "" } }

/-- The object `userInfo` built by `bookAppointment`. -/
def mkUserInfo (userData : User) : UserInfo :=
  { _id := userData._id
    name := strOr userData.name "Unknown User"
    email := strOr userData.email "N/A"
    image := strOr userData.image "" }

/-- The document passed to `appointmentModel.create`, with the id it receives. -/
def mkAppointment (id userId docId : Nat) (slotDate slotTime : String) (now : Nat)
    (docData : Doctor) (userData : User) : Appointment :=
  { _id := id
    userId := userId
    docId := docId
    slotDate := slotDate
    slotTime := slotTime
    amount := numOr docData.fees 0
    date := now
    docData := mkDocInfo docData
    userData := mkUserInfo userData
    cancelled := false
    payment := false
    isCompleted := false
    status := none }

/-- The statements `daySlots.push(slotTime); slots_booked[slotDate] = daySlots`
with `daySlots = slots_booked[slotDate] || []`. -/
def reserveSlot (slots_booked : SlotMap) (slotDate slotTime : String) : SlotMap :=
  slotSet slots_booked slotDate ((slotGet slots_booked slotDate).getD [] ++ [slotTime])

/-- The handler `bookAppointment`; `now` is `Date.now()`. When
`slots_booked[slotDate]` is an inherited member, `daySlots.includes` is not a
function: the call throws before any write and the `catch` branch answers 500. -/
def bookAppointment (s : Store) (req : BookReq) (now : Nat) : Response × Store :=
  match req.authId <|> req.bodyUserId with
  | none => (jsonErr "Not Authorized" 401, s)
  | some userId =>
    match req.docId with
    | none => (jsonErr "Missing details: docId, slotDate, slotTime are required." 400, s)
    | some docId =>
      if req.slotDate = "" ∨ req.slotTime = "" then
        (jsonErr "Missing details: docId, slotDate, slotTime are required." 400, s)
      else
        match findById Doctor._id s.doctors docId with
        | none => (jsonErr "Doctor not found." 404, s)
        | some docData =>
          if docData.available = false then (jsonErr "Doctor not available." 400, s)
          else
            match findById User._id s.users userId with
            | none => (jsonErr "User not found." 404, s)
            | some userData =>
              if readsInherited docData.slots_booked req.slotDate = true then
                (jsonErr "daySlots.includes is not a function" 500, s)
              else
                let daySlots := (slotGet docData.slots_booked req.slotDate).getD []
                if req.slotTime ∈ daySlots then (jsonErr "Slot not available." 400, s)
                else
                  let slots_booked :=
                    reserveSlot docData.slots_booked req.slotDate req.slotTime
                  let doctors' := findByIdAndUpdate Doctor._id s.doctors docId
                    (fun d => { d with slots_booked := slots_booked })
                  let newAppointment := mkAppointment (freshId s.appointments) userId
                    docId req.slotDate req.slotTime now docData userData
                  (jsonOk "Appointment booked successfully" (some newAppointment),
                    { s with doctors := doctors'
                             appointments := s.appointments ++ [newAppointment] })

/-! ## userController.js: cancelAppointment -/

/-- The request of `cancelAppointment`. -/
structure CancelReq where
  authId : Option Nat
  bodyUserId : Option Nat
  appointmentId : Option Nat
deriving DecidableEq, Repr

/-- The statement `slots_booked[slotDate] = slots_booked[slotDate].filter(...)`
under its guard `if (slots_booked[slotDate])`. The guard is read among the
stored keys: the date of an appointment is taken to be one its booking stored,
`bookAppointment` throwing before it creates an appointment for a date that
reads an inherited member. -/
def releaseSlot (slots_booked : SlotMap) (slotDate slotTime : String) : SlotMap :=
  match slotGet slots_booked slotDate with
  | some l => slotSet slots_booked slotDate (l.filter (fun t => decide (t ≠ slotTime)))
  | none => slots_booked

/-- The handler `cancelAppointment` of the patient. Reading `slots_booked` of a
doctor that `findById` did not find throws, after `cancelled` was written. -/
def cancelAppointment (s : Store) (req : CancelReq) : Response × Store :=
  match req.authId <|> req.bodyUserId with
  | none => (jsonErr "Not Authorized" 401, s)
  | some userId =>
    match req.appointmentId with
    | none => (jsonErr "appointmentId is required." 400, s)
    | some appointmentId =>
      match findById Appointment._id s.appointments appointmentId with
      | none => (jsonErr "Appointment not found." 404, s)
      | some appointment =>
        if appointment.userId ≠ userId then (jsonErr "Unauthorized action." 403, s)
        else if appointment.cancelled = true then
          (jsonOk "Appointment already cancelled" none, s)
        else
          let appointments' := findByIdAndUpdate Appointment._id s.appointments
            appointmentId (fun a => { a with cancelled := true })
          match findById Doctor._id s.doctors appointment.docId with
          | none =>
            (jsonErr "Cannot read properties of null (reading \x27slots_booked\x27)" 500,
              { s with appointments := appointments' })
          | some doctor =>
            let slots_booked :=
              releaseSlot doctor.slots_booked appointment.slotDate appointment.slotTime
            let doctors' := findByIdAndUpdate Doctor._id s.doctors appointment.docId
              (fun d => { d with slots_booked := slots_booked })
            (jsonOk "Appointment cancelled" none,
              { s with appointments := appointments', doctors := doctors' })

/-! ## doctorController.js: appointmentCancel, appointmentComplete -/

/-- The request of a doctor action: `req.docId` (set by `authDoctor`) and the
body field `appointmentId`. -/
structure DoctorReq where
  docId : Option Nat
  appointmentId : Option Nat
deriving DecidableEq, Repr

/-- The filter `{ _id: appointmentId, docId: req.docId }`. -/
def matchesAppt (req : DoctorReq) (a : Appointment) : Bool :=
  decide (some a._id = req.appointmentId ∧ some a.docId = req.docId)

/-- The handler `appointmentCancel` of the doctor. -/
def appointmentCancel (s : Store) (req : DoctorReq) : Response × Store :=
  match s.appointments.find? (matchesAppt req) with
  | none => (jsonErr "Appointment not found" 404, s)
  | some _ =>
    let appointments' := updateFirst (matchesAppt req)
      (fun appt => { appt with cancelled := true, isCompleted := false,
                               status := some "Cancelled" }) s.appointments
    (jsonOk "Appointment cancelled successfully" none,
      { s with appointments := appointments' })

/-- The handler `appointmentComplete` of the doctor. -/
def appointmentComplete (s : Store) (req : DoctorReq) : Response × Store :=
  match s.appointments.find? (matchesAppt req) with
  | none => (jsonErr "Appointment not found" 404, s)
  | some _ =>
    let appointments' := updateFirst (matchesAppt req)
      (fun appt => { appt with isCompleted := true, cancelled := false,
                               status := some "Completed" }) s.appointments
    (jsonOk "Appointment marked as completed" none,
      { s with appointments := appointments' })

/-! ## userController.js: verifyStripe, verifyRazorpay -/

/-- The body field `success` of `verifyStripe`, as JavaScript may receive it. -/
inductive Flag where
  | undefined
  | bool (b : Bool)
  | str (s : String)
deriving DecidableEq, Repr

/-- The conversion `String(success)`. -/
def Flag.toJsString : Flag → String
  | Flag.undefined => "undefined"
  | Flag.bool true => "true"
  | Flag.bool false => "false"
  | Flag.str s => s

/-- The request of `verifyStripe`. -/
structure StripeVerifyReq where
  appointmentId : Option Nat
  success : Flag
deriving DecidableEq, Repr

/-- The handler `verifyStripe`. -/
def verifyStripe (s : Store) (req : StripeVerifyReq) : Response × Store :=
  match req.appointmentId with
  | none => (jsonErr "appointmentId is required." 400, s)
  | some appointmentId =>
    if req.success.toJsString = "true" then
      let appointments' := findByIdAndUpdate Appointment._id s.appointments
        appointmentId (fun a => { a with payment := true })
      (jsonOk "Payment successful" none, { s with appointments := appointments' })
    else (jsonErr "Payment failed." 400, s)

/-- What the handlers take from outside the store: the Razorpay secret of the
environment and the HMAC-SHA256 function (key, then message, to hex digest). -/
structure Gateway where
  RAZORPAY_KEY_SECRET : String
  hmacSha256Hex : String → String → String

/-- The request of `verifyRazorpay`. -/
structure RazorpayVerifyReq where
  razorpay_order_id : String
  razorpay_payment_id : String
  razorpay_signature : String
deriving DecidableEq, Repr

/-- The handler `verifyRazorpay`. `orders.fetch` of an unknown order rejects,
and the rejection carries no `message`. -/
def verifyRazorpay (gw : Gateway) (s : Store) (req : RazorpayVerifyReq) :
    Response × Store :=
  if req.razorpay_order_id = "" ∨ req.razorpay_payment_id = "" ∨
      req.razorpay_signature = "" then
    (jsonErr "Missing Razorpay verification details." 400, s)
  else
    let body := req.razorpay_order_id ++ "|" ++ req.razorpay_payment_id
    let expectedSignature := gw.hmacSha256Hex gw.RAZORPAY_KEY_SECRET body
    if expectedSignature ≠ req.razorpay_signature then
      (jsonErr "Payment verification failed." 400, s)
    else
      match s.orders.find? (fun o => decide (o.id = req.razorpay_order_id)) with
      | none => (jsonErr "Failed to verify Razorpay payment." 500, s)
      | some orderInfo =>
        match orderInfo.receipt with
        | none => (jsonErr "Order receipt not found." 400, s)
        | some receipt =>
          let appointments' := findByIdAndUpdate Appointment._id s.appointments
            receipt (fun a => { a with payment := true })
          (jsonOk "Payment successful" none, { s with appointments := appointments' })

/-- The call `razorpayInstance.orders.fetch` of `verifyRazorpay`: the order id
it asks the provider for, or `none` when the handler returns before the call. -/
def verifyRazorpayFetch (gw : Gateway) (req : RazorpayVerifyReq) : Option String :=
  if req.razorpay_order_id = "" ∨ req.razorpay_payment_id = "" ∨
      req.razorpay_signature = "" then none
  else
    let body := req.razorpay_order_id ++ "|" ++ req.razorpay_payment_id
    let expectedSignature := gw.hmacSha256Hex gw.RAZORPAY_KEY_SECRET body
    if expectedSignature ≠ req.razorpay_signature then none
    else some req.razorpay_order_id

/-! ## userController.js: paymentRazorpay, paymentStripe -/

/-- The request of `paymentRazorpay` and of `paymentStripe`; `origin` is the
header `req.headers.origin`, which only `paymentStripe` reads and which is
`none` when the request carries no such header. -/
structure PayReq where
  authId : Option Nat
  bodyUserId : Option Nat
  appointmentId : Option Nat
  origin : Option String
deriving DecidableEq, Repr

/-- The object `options` passed to `razorpayInstance.orders.create`; `receipt`
is the appointment id, sent in its string form, and `amount` a double (`none`
is `Infinity`). -/
structure OrderOptions where
  amount : Option Nat
  currency : String
  receipt : Nat
deriving DecidableEq, Repr

/-- The argument of `stripeInstance.checkout.sessions.create`, with its single
line item. -/
structure SessionParams where
  mode : String
  currency : String
  product_name : String
  unit_amount : Option Nat
  quantity : Nat
  success_url : String
  cancel_url : String
deriving DecidableEq, Repr

/-- What a payment handler does: its response, the store afterwards, the
request it sent to the provider (`none` when it sent none) and the payload of a
successful response (the id of the order, or the url of the session). -/
structure PayResult (α : Type) where
  response : Response
  store : Store
  request : Option α
  payload : Option String

/-- The handler `paymentRazorpay`. `CURRENCY` is the variable of the
environment, empty when unset; `reply` is what the provider answers to
`orders.create`: the id of the order it now holds, or a rejection with its
message. `Math.round(appointment.amount * 100)` is `chargeAmount`: the product
as a double. -/
def paymentRazorpay (CURRENCY : String) (s : Store) (req : PayReq)
    (reply : Except String String) : PayResult OrderOptions :=
  match req.authId <|> req.bodyUserId with
  | none => ⟨jsonErr "Not Authorized" 401, s, none, none⟩
  | some _ =>
    match req.appointmentId.bind (findById Appointment._id s.appointments) with
    | none => ⟨jsonErr "Appointment cancelled or not found." 400, s, none, none⟩
    | some appointment =>
      if appointment.cancelled = true then
        ⟨jsonErr "Appointment cancelled or not found." 400, s, none, none⟩
      else
        let options : OrderOptions :=
          { amount := chargeAmount appointment.amount
            currency := strOr CURRENCY "INR"
            receipt := appointment._id }
        match reply with
        | Except.error message =>
          ⟨jsonErr (strOr message "Failed to create Razorpay order.") 500, s,
            some options, none⟩
        | Except.ok orderId =>
          let order : Order :=
            { id := orderId, amount := options.amount, currency := options.currency,
              receipt := some options.receipt }
          ⟨jsonOk "" none, { s with orders := s.orders ++ [order] }, some options,
            some orderId⟩

/-- The handler `paymentStripe`; `reply` is what the provider answers to
`checkout.sessions.create`: the url of the session, or an error with its
message. A missing `origin` header is interpolated into both urls as
"undefined". -/
def paymentStripe (CURRENCY : String) (s : Store) (req : PayReq)
    (reply : Except String String) : PayResult SessionParams :=
  match req.authId <|> req.bodyUserId with
  | none => ⟨jsonErr "Not Authorized" 401, s, none, none⟩
  | some _ =>
    match req.appointmentId.bind (findById Appointment._id s.appointments) with
    | none => ⟨jsonErr "Appointment cancelled or not found." 400, s, none, none⟩
    | some appointment =>
      if appointment.cancelled = true then
        ⟨jsonErr "Appointment cancelled or not found." 400, s, none, none⟩
      else
        let currency := (strOr CURRENCY "INR").toLower
        let params : SessionParams :=
          { mode := "payment"
            currency := currency
            product_name := "Appointment Fees"
            unit_amount := chargeAmount appointment.amount
            quantity := 1
            success_url := interpolate req.origin ++
              "/verify?success=true&appointmentId=" ++ toString appointment._id
            cancel_url := interpolate req.origin ++
              "/verify?success=false&appointmentId=" ++ toString appointment._id }
        match reply with
        | Except.error message =>
          ⟨jsonErr (strOr message "Failed to initiate Stripe payment.") 500, s,
            some params, none⟩
        | Except.ok url => ⟨jsonOk "" none, s, some params, some url⟩

/-- The payload the Razorpay checkout sends back for an order and a payment:
the two ids and their signature under the secret. -/
def signedPayload (gw : Gateway) (orderId paymentId : String) : RazorpayVerifyReq :=
  { razorpay_order_id := orderId
    razorpay_payment_id := paymentId
    razorpay_signature :=
      gw.hmacSha256Hex gw.RAZORPAY_KEY_SECRET (orderId ++ "|" ++ paymentId) }

/-! ## doctorController.js: changeAvailablity, updateDoctorProfile -/

/-- The handler `changeAvailablity`; `docId` is `req.docId`. The payload
`available` of the response is the flag of the record it wrote. -/
def changeAvailablity (s : Store) (docId : Option Nat) : Response × Store :=
  match docId.bind (findById Doctor._id s.doctors) with
  | none => (jsonErr "Doctor not found" 404, s)
  | some doctor =>
    let doctors' := findByIdAndUpdate Doctor._id s.doctors doctor._id
      (fun d => { d with available := !d.available })
    (jsonOk "Availability status updated" none, { s with doctors := doctors' })

/-- The body of `updateDoctorProfile`: a field is `none` when the test of the
handler on it fails (`typeof fees`, `typeof address` is "undefined",
`typeof available` is not "boolean"). -/
structure ProfileBody where
  fees : Option Nat
  address : Option (Option Address)
  available : Option Bool
deriving DecidableEq, Repr

/-- The handler `updateDoctorProfile`; `docId` is `req.docId`. -/
def updateDoctorProfile (s : Store) (docId : Option Nat) (body : ProfileBody) :
    Response × Store :=
  match docId.bind (findById Doctor._id s.doctors) with
  | none => (jsonErr "Doctor not found" 404, s)
  | some doctor =>
    let doctors' := findByIdAndUpdate Doctor._id s.doctors doctor._id
      (fun d => { d with fees := body.fees.getD d.fees
                         address := body.address.getD d.address
                         available := body.available.getD d.available })
    (jsonOk "Profile updated successfully" none, { s with doctors := doctors' })

/-- The part of an appointment that is written once, at booking. -/
def ledgerRow (a : Appointment) : Nat × Nat × Nat × String × String × Nat :=
  (a._id, a.userId, a.docId, a.slotDate, a.slotTime, a.amount)

/-- A view of an appointment that does not look at its flags nor at `status`. -/
def FlagBlind {β : Type} (key : Appointment → β) : Prop :=
  ∀ (a : Appointment) (c p i : Bool) (st : Option String),
    key { a with cancelled := c, payment := p, isCompleted := i, status := st } = key a

/-! ## bookAppointment with a failing write, and in two steps -/

/-- The handler `bookAppointment` when `appointmentModel.create` may fail:
`create` is `none` when the document is persisted, and the message of the error
thrown otherwise. The error reaches the `catch` branch after
`doctorModel.findByIdAndUpdate` has written the slot. -/
def bookAppointmentCreate (s : Store) (req : BookReq) (now : Nat)
    (create : Option String) : Response × Store :=
  match req.authId <|> req.bodyUserId with
  | none => (jsonErr "Not Authorized" 401, s)
  | some userId =>
    match req.docId with
    | none => (jsonErr "Missing details: docId, slotDate, slotTime are required." 400, s)
    | some docId =>
      if req.slotDate = "" ∨ req.slotTime = "" then
        (jsonErr "Missing details: docId, slotDate, slotTime are required." 400, s)
      else
        match findById Doctor._id s.doctors docId with
        | none => (jsonErr "Doctor not found." 404, s)
        | some docData =>
          if docData.available = false then (jsonErr "Doctor not available." 400, s)
          else
            match findById User._id s.users userId with
            | none => (jsonErr "User not found." 404, s)
            | some userData =>
              if readsInherited docData.slots_booked req.slotDate = true then
                (jsonErr "daySlots.includes is not a function" 500, s)
              else
                let daySlots := (slotGet docData.slots_booked req.slotDate).getD []
                if req.slotTime ∈ daySlots then (jsonErr "Slot not available." 400, s)
                else
                  let slots_booked :=
                    reserveSlot docData.slots_booked req.slotDate req.slotTime
                  let doctors' := findByIdAndUpdate Doctor._id s.doctors docId
                    (fun d => { d with slots_booked := slots_booked })
                  match create with
                  | some message =>
                    (jsonErr (strOr message "Failed to book appointment.") 500,
                      { s with doctors := doctors' })
                  | none =>
                    let newAppointment := mkAppointment (freshId s.appointments) userId
                      docId req.slotDate req.slotTime now docData userData
                    (jsonOk "Appointment booked successfully" (some newAppointment),
                      { s with doctors := doctors'
                               appointments := s.appointments ++ [newAppointment] })

/-- What a call of `bookAppointment` holds once its reads and checks are done
(lines 186 to 205): the ids, the slot asked for, and the documents `docData` and
`userData` as they were read. -/
structure BookPending where
  userId : Nat
  docId : Nat
  slotDate : String
  slotTime : String
  docData : Doctor
  userData : User
deriving DecidableEq, Repr

/-- The first step of `bookAppointment`: it reads the doctor and the patient and
checks the slot on the map it read; it writes nothing. -/
def bookRead (s : Store) (req : BookReq) : Except Response BookPending :=
  match req.authId <|> req.bodyUserId with
  | none => Except.error (jsonErr "Not Authorized" 401)
  | some userId =>
    match req.docId with
    | none =>
      Except.error (jsonErr "Missing details: docId, slotDate, slotTime are required." 400)
    | some docId =>
      if req.slotDate = "" ∨ req.slotTime = "" then
        Except.error
          (jsonErr "Missing details: docId, slotDate, slotTime are required." 400)
      else
        match findById Doctor._id s.doctors docId with
        | none => Except.error (jsonErr "Doctor not found." 404)
        | some docData =>
          if docData.available = false then
            Except.error (jsonErr "Doctor not available." 400)
          else
            match findById User._id s.users userId with
            | none => Except.error (jsonErr "User not found." 404)
            | some userData =>
              if readsInherited docData.slots_booked req.slotDate = true then
                Except.error (jsonErr "daySlots.includes is not a function" 500)
              else
                let daySlots := (slotGet docData.slots_booked req.slotDate).getD []
                if req.slotTime ∈ daySlots then
                  Except.error (jsonErr "Slot not available." 400)
                else
                  Except.ok
                    { userId := userId, docId := docId, slotDate := req.slotDate,
                      slotTime := req.slotTime, docData := docData, userData := userData }

/-- The second step of `bookAppointment` (lines 207 to 248), on the store as it
is by then: it pushes the time on the array it read, writes the map it read to
the doctor, and creates the appointment. -/
def bookWrite (s : Store) (p : BookPending) (now : Nat) : Response × Store :=
  let slots_booked := reserveSlot p.docData.slots_booked p.slotDate p.slotTime
  let doctors' := findByIdAndUpdate Doctor._id s.doctors p.docId
    (fun d => { d with slots_booked := slots_booked })
  let newAppointment := mkAppointment (freshId s.appointments) p.userId p.docId
    p.slotDate p.slotTime now p.docData p.userData
  (jsonOk "Appointment booked successfully" (some newAppointment),
    { s with doctors := doctors', appointments := s.appointments ++ [newAppointment] })

/-- A call of `bookAppointment` whose two steps run on the stores `sRead` and
`sWrite`: other requests may have been served in between. -/
def bookSteps (sRead sWrite : Store) (req : BookReq) (now : Nat) : Response × Store :=
  match bookRead sRead req with
  | Except.error r => (r, sWrite)
  | Except.ok p => bookWrite sWrite p now

/-! ## Listings: listAppointment, appointmentsDoctor, doctorDashboard -/

/-- Insert a document into a list sorted by `date`, newest first. -/
def insertByDate (a : Appointment) : List Appointment → List Appointment
  | [] => [a]
  | b :: bs => if b.date ≤ a.date then a :: b :: bs else b :: insertByDate a bs

/-- The cursor method `.sort({ date: -1 })`; documents of the same date keep the
order of the collection. -/
def sortByDateDesc (l : List Appointment) : List Appointment :=
  l.foldr insertByDate []

/-- The handler `listAppointment`; `userId` is `req.user?.id`. The second
component is the payload `appointments`. -/
def listAppointment (s : Store) (userId : Option Nat) : Response × List Appointment :=
  match userId with
  | none => (jsonErr "Not Authorized" 401, [])
  | some userId =>
    (jsonOk "" none,
      sortByDateDesc (s.appointments.filter (fun a => decide (a.userId = userId))))

/-- An entry `{ ...appt._doc, userData: appt.userId }` of the doctor listings:
`doc` holds the stored fields, of which `userData` is not reported; the
`userData` reported is the populated `userId`, the record of the patient as it
is now, `none` when there is none. -/
structure DoctorView where
  doc : Appointment
  userData : Option User
deriving DecidableEq, Repr

/-- The handler `appointmentsDoctor`; `docId` is `req.docId`. The second
component is the payload `appointments`. -/
def appointmentsDoctor (s : Store) (docId : Option Nat) : Response × List DoctorView :=
  match docId with
  | none => (jsonErr "No doctor ID provided" 400, [])
  | some docId =>
    (jsonOk "" none,
      (s.appointments.filter (fun a => decide (a.docId = docId))).map
        (fun appt => { doc := appt, userData := findById User._id s.users appt.userId }))

/-- The selection `"name image dob"` of `populate`: the email is left out. -/
def selectNameImage (u : User) : User := { u with email := "" }

/-- The object `dashData`. -/
structure DashData where
  earnings : Nat
  appointments : Nat
  patients : Nat
  latestAppointments : List DoctorView
deriving DecidableEq, Repr

/-- The filter `a.isCompleted && !a.cancelled && a.payment` of the earnings. -/
def isEarned (a : Appointment) : Bool :=
  a.isCompleted && !a.cancelled && a.payment

/-- One step of the `reduce`: `sum + (a.amount || doctor.fees || 0)`. Reading
`doctor.fees` throws when `doctor` is null, which gives `none`. -/
def addEarning (doctor : Option Doctor) (sum : Option Nat) (a : Appointment) :
    Option Nat :=
  match sum with
  | none => none
  | some n =>
    if a.amount ≠ 0 then some (n + a.amount)
    else
      match doctor with
      | none => none
      | some d => some (n + numOr d.fees 0)

/-- The handler `doctorDashboard`; `docId` is `req.docId` as an object id. The
second component is the payload `dashData`. -/
def doctorDashboard (s : Store) (docId : Nat) : Response × Option DashData :=
  let doctor := findById Doctor._id s.doctors docId
  let appointments :=
    sortByDateDesc (s.appointments.filter (fun a => decide (a.docId = docId)))
  match (appointments.filter isEarned).foldl (addEarning doctor) (some 0) with
  | none => (jsonErr "Cannot read properties of null (reading \x27fees\x27)" 500, none)
  | some earnings =>
    let patients := (appointments.map (fun a => a.userId)).eraseDups.length
    let latestAppointments := appointments.take 5
    (jsonOk "" none,
      some
        { earnings := earnings
          appointments := appointments.length
          patients := patients
          latestAppointments := latestAppointments.map (fun appt =>
            { doc := appt
              userData := (findById User._id s.users appt.userId).map selectNameImage }) })

/-- The snapshots an appointment carries, with its id. -/
def snapshotOf (a : Appointment) : Nat × DocInfo × UserInfo :=
  (a._id, a.docData, a.userData)

/-! ## slotDateFormat (frontend, `MyAppointments.jsx`) -/

/-- JavaScript `s.split(c)` for a one-character separator `c`, on the
characters of `s`: the pieces between the occurrences of `c`, empty pieces
kept (`"".split(c)` is `[""]`). -/
def splitChar (c : Char) : List Char → List (List Char)
  | [] => [[]]
  | x :: xs =>
    if x = c then [] :: splitChar c xs
    else
      match splitChar c xs with
      | [] => [[x]]
      | p :: ps => (x :: p) :: ps

/-- The table `months` of `slotDateFormat`. -/
def months : List String :=
  ["Jan", "Feb", "Mar", "Apr", "May", "Jun", "Jul", "Aug", "Sep", "Oct", "Nov", "Dec"]

/-- Value of a string of decimal digits (leading zeros allowed). -/
def digitsValue (cs : List Char) : Nat :=
  cs.foldl (fun n c => 10 * n + (c.toNat - 48)) 0

/-- JavaScript `Number(x)` on the values `slotDateFormat` passes to it:
`undefined` gives NaN (`some none`), the empty string gives 0 and a string of
decimal digits gives its value (`some (some n)`). Strings of any other form
(blanks, signs, fractions, exponents, radix prefixes) are outside this model:
`none`. A value above 2^53 is rounded by JavaScript, which no use below can
observe: only values up to 12 select a month. -/
def jsNumber : Option (List Char) → Option (Option Nat)
  | none => some none
  | some cs => if cs.all Char.isDigit then some (some (digitsValue cs)) else none

/-- The lookup `months[Number(month) - 1]`: `undefined` (`none`) for NaN, for
index -1 and for an index past the table. -/
def monthAt : Option Nat → Option String
  | none => none
  | some 0 => none
  | some (n + 1) => months.get? n

/-- The function `slotDateFormat` of `MyAppointments.jsx`; `none` is a missing
argument. The result is `none` only where the month field is outside the
model of `jsNumber`. -/
def slotDateFormat (slotDate : Option String) : Option String :=
  match slotDate with
  | none => some ""
  | some sd =>
    if sd = "" then some ""
    else
      let parts :=
        if '_' ∈ sd.toList then splitChar '_' sd.toList else splitChar '-' sd.toList
      let day := (parts.get? 0).map String.mk
      let month := parts.get? 1
      let year := (parts.get? 2).map String.mk
      (jsNumber month).map
        (fun n => interpolate day ++ " " ++ interpolate (monthAt n) ++ " " ++ interpolate year)

/-- The three-letter English name of month number `m` (1 is January, 12 is
December), written from the calendar and not from the table `months`, for
comparison with `slotDateFormat`. -/
def threeLetterMonth : Nat → String
  | 1 => "Jan"
  | 2 => "Feb"
  | 3 => "Mar"
  | 4 => "Apr"
  | 5 => "May"
  | 6 => "Jun"
  | 7 => "Jul"
  | 8 => "Aug"
  | 9 => "Sep"
  | 10 => "Oct"
  | 11 => "Nov"
  | 12 => "Dec"
  | _ => ""

/-! ## Runs of the system -/

/-- One request to one of the state-changing handlers of the booking flow. -/
inductive Op where
  | book (req : BookReq) (now : Nat)
  | cancel (req : CancelReq)
  | doctorCancel (req : DoctorReq)
  | doctorComplete (req : DoctorReq)
  | stripeVerify (req : StripeVerifyReq)
  | razorpayVerify (req : RazorpayVerifyReq)
deriving DecidableEq, Repr

/-- The store after serving one request. -/
def step (gw : Gateway) (s : Store) : Op → Store
  | Op.book req now => (bookAppointment s req now).2
  | Op.cancel req => (cancelAppointment s req).2
  | Op.doctorCancel req => (appointmentCancel s req).2
  | Op.doctorComplete req => (appointmentComplete s req).2
  | Op.stripeVerify req => (verifyStripe s req).2
  | Op.razorpayVerify req => (verifyRazorpay gw s req).2

/-- The store after serving a sequence of requests, one after the other. -/
def run (gw : Gateway) : Store → List Op → Store
  | s, [] => s
  | s, op :: ops => run gw (step gw s op) ops

/-- A store to start from: no appointment yet and no slot reserved. -/
def Initial (s : Store) : Prop :=
  s.appointments = [] ∧ ∀ d ∈ s.doctors, d.slots_booked = []

instance (s : Store) : Decidable (Initial s) := by
  unfold Initial; infer_instance

/-- The store `s` is reached from an initial store by a sequence of requests. -/
def Reachable (gw : Gateway) (s : Store) : Prop :=
  ∃ s0 ops, Initial s0 ∧ run gw s0 ops = s

/-- The request is not an `appointmentComplete` that finds a cancelled record. -/
def completesActive (s : Store) : Op → Bool
  | Op.doctorComplete req =>
    (match s.appointments.find? (matchesAppt req) with
      | some a => !a.cancelled
      | none => true)
  | _ => true

/-- Every `appointmentComplete` of the run finds a record that is not
cancelled, or finds none. -/
def completesOnlyActive (gw : Gateway) : Store → List Op → Bool
  | _, [] => true
  | s, op :: ops => completesActive s op && completesOnlyActive gw (step gw s op) ops

/-- The request is not an `appointmentCancel` of a doctor. -/
def notDoctorCancel : Op → Bool
  | Op.doctorCancel _ => false
  | _ => true

/-- The times reserved for doctor `docId` on `date`: `slots_booked[date]` of the
record `findById` returns, empty when the record or the key is missing. -/
def slotsOf (s : Store) (docId : Nat) (date : String) : List String :=
  match findById Doctor._id s.doctors docId with
  | none => []
  | some d => (slotGet d.slots_booked date).getD []

/-- The appointments of the ledger for `(docId, date, time)` that are not
cancelled. -/
def activeFor (s : Store) (docId : Nat) (date time : String) : List Appointment :=
  s.appointments.filter (fun a =>
    decide (a.docId = docId ∧ a.slotDate = date ∧ a.slotTime = time ∧ a.cancelled = false))

/-- The ledger agrees with the slot maps on the appointments that are not
cancelled: ids are distinct, the slot of such an appointment is reserved, and
no two of them share doctor, date and time. -/
structure LedgerInv (s : Store) : Prop where
  ids_nodup : (s.appointments.map Appointment._id).Nodup
  active_slot : ∀ a ∈ s.appointments, a.cancelled = false →
    a.slotTime ∈ slotsOf s a.docId a.slotDate
  active_unique : ∀ a ∈ s.appointments, ∀ b ∈ s.appointments,
    a.cancelled = false → b.cancelled = false → a.docId = b.docId →
    a.slotDate = b.slotDate → a.slotTime = b.slotTime → a._id = b._id

/-- Every reserved slot belongs to an appointment that is not cancelled. -/
def SlotsBacked (s : Store) : Prop :=
  ∀ (docId : Nat) (date t : String), t ∈ slotsOf s docId date →
    ∃ a ∈ s.appointments, a.docId = docId ∧ a.slotDate = date ∧ a.slotTime = t ∧
      a.cancelled = false

/-- Every array of every `slots_booked` is free of duplicates. -/
def SlotsNodup (s : Store) : Prop :=
  ∀ d ∈ s.doctors, ∀ e ∈ d.slots_booked, e.2.Nodup

instance (s : Store) : Decidable (SlotsNodup s) := by
  unfold SlotsNodup; infer_instance

/-! ## Sample data -/

/-- An available doctor with fee 500 and no slot reserved. -/
def doc1 : Doctor :=
  { _id := 1, name := "Dr. A", image := "", speciality := "General physician",
    experience := "4 Years", fees := 500, address := none, available := true,
    slots_booked := [] }

/-- A patient. -/
def pat1 : User := { _id := 7, name := "P1", email := "p1@example.com", image := "" }

/-- The store of the scenario: `doc1`, `pat1` and an empty ledger. -/
def store0 : Store := { doctors := [doc1], users := [pat1], appointments := [], orders := [] }

/-- The booking of "10:00" on "2024-06-01" with `doc1` by `pat1`. -/
def req1 : BookReq :=
  { authId := some 7, bodyUserId := none, docId := some 1,
    slotDate := "2024-06-01", slotTime := "10:00" }

/-- A gateway whose digest is a plain concatenation, to evaluate runs. -/
def gw0 : Gateway :=
  { RAZORPAY_KEY_SECRET := "secret", hmacSha256Hex := fun k m => k ++ ":" ++ m }

/-- The doctor `doc1` switched to unavailable while "10:00" is reserved. -/
def docOff : Doctor :=
  { doc1 with available := false, slots_booked := [("2024-06-01", ["10:00"])] }

/-- The store holding `docOff` in place of `doc1`. -/
def storeOff : Store :=
  { doctors := [docOff], users := [pat1], appointments := [], orders := [] }

/-- The patient `pat1` cancels appointment `id`. -/
def cancelReq (id : Nat) : CancelReq :=
  { authId := some 7, bodyUserId := none, appointmentId := some id }

/-- The doctor `doc1` acts on appointment `id`. -/
def doctorReq (id : Nat) : DoctorReq := { docId := some 1, appointmentId := some id }

/-- The record of `doc1` once "10:00" is reserved. -/
def docBooked : Doctor := { doc1 with slots_booked := [("2024-06-01", ["10:00"])] }

/-- The store after `pat1` booked "10:00" with `doc1`. -/
def storeBooked : Store := (bookAppointment store0 req1 0).2

/-- The store after that appointment was cancelled by the patient. -/
def storeCancelled : Store := (cancelAppointment storeBooked (cancelReq 1)).2

/-- The booking `req1` without its `slotTime`. -/
def reqNoTime : BookReq := { req1 with slotTime := "" }

/-- The booking `req1` for a doctor id that no record carries. -/
def reqNoDoctor : BookReq := { req1 with docId := some 99 }

/-- The booking `req1` by a patient id that no record carries. -/
def reqGhost : BookReq := { req1 with authId := some 8 }

/-- The appointment that `storeBooked` holds. -/
def apptBooked : Appointment := mkAppointment 1 7 1 "2024-06-01" "10:00" 0 doc1 pat1

/-- The store after "10:00" was booked again once appointment 1 was cancelled. -/
def storeRebooked : Store := (bookAppointment storeCancelled req1 5).2

/-- The booking `req1` for "11:00" instead. -/
def req2 : BookReq := { req1 with slotTime := "11:00" }

/-- The requests of a run: two bookings, the first cancelled by the patient,
the second completed by the doctor and paid. -/
def sampleOps : List Op :=
  [Op.book req1 0, Op.book req2 1, Op.cancel (cancelReq 1),
    Op.doctorComplete (doctorReq 2),
    Op.stripeVerify { appointmentId := some 2, success := Flag.str "true" }]

/-- The requests of a run on which slot map and ledger drift apart. -/
def driftOps : List Op :=
  [Op.book req1 0, Op.cancel (cancelReq 1), Op.doctorComplete (doctorReq 1),
    Op.book req2 1, Op.doctorCancel (doctorReq 2)]

/-- Another requester, id 8, asks to cancel appointment 1. -/
def cancelReqOther : CancelReq :=
  { authId := some 8, bodyUserId := none, appointmentId := some 1 }

/-- The store `storeBooked` with the slot map of the doctor emptied by hand. -/
def storeNoSlot : Store := { storeBooked with doctors := [doc1] }

/-- The store after appointment 1 was booked, cancelled by the patient and then
completed by the doctor: it is active again and its slot is released. -/
def storeRevived : Store :=
  run gw0 store0 [Op.book req1 0, Op.cancel (cancelReq 1), Op.doctorComplete (doctorReq 1)]

/-- The appointment that `storeRevived` holds. -/
def apptRevived : Appointment :=
  { apptBooked with isCompleted := true, status := some "Completed" }

/-- The record of `doc1` once "10:00" is released. -/
def docReleased : Doctor := { doc1 with slots_booked := [("2024-06-01", [])] }

/-- The order the provider holds for appointment 1: 500 in minor units. -/
def order1 : Order :=
  { id := "order_1", amount := some 50000, currency := "INR", receipt := some 1 }

/-- The store `storeBooked` once the provider holds `order1`. -/
def storeOrdered : Store := { storeBooked with orders := [order1] }

/-- A verification of `order1` signed with the secret of `gw0`. -/
def rzReq : RazorpayVerifyReq :=
  { razorpay_order_id := "order_1", razorpay_payment_id := "pay_1",
    razorpay_signature := "secret:order_1|pay_1" }

/-- The verification `rzReq` with a forged signature. -/
def rzReqForged : RazorpayVerifyReq := { rzReq with razorpay_signature := "forged" }

/-- The store `storeCancelled` once the provider holds `order1`, created
before the cancellation. -/
def storeCancelledOrdered : Store := { storeCancelled with orders := [order1] }

/-- The appointment of `storeCancelled`. -/
def apptCancelled : Appointment := { apptBooked with cancelled := true }

/-- The redirect of a payment of appointment `id` with `success=true`. -/
def stripeReq (id : Nat) : StripeVerifyReq :=
  { appointmentId := some id, success := Flag.str "true" }

/-- The store `store0`, whose ledger is empty, once the provider holds
`order1`. -/
def storeOrphanOrder : Store := { store0 with orders := [order1] }

/-- The store `storeOrdered` after appointment 1 was paid. -/
def storePaid : Store := (verifyStripe storeOrdered (stripeReq 1)).2

/-- The appointment of `storePaid`. -/
def apptPaid : Appointment := { apptBooked with payment := true }

/-- The patient `pat1` asks to pay appointment `id`. -/
def payReq (id : Nat) : PayReq :=
  { authId := some 7, bodyUserId := none, appointmentId := some id,
    origin := some "http://localhost:5173" }

/-- The redirect of a payment of appointment 1 with `success=false`. -/
def stripeReqFailed : StripeVerifyReq :=
  { appointmentId := some 1, success := Flag.str "false" }

/-- Another doctor, id 2, acts on appointment 1 of doctor 1. -/
def doctorReqOther : DoctorReq := { docId := some 2, appointmentId := some 1 }

/-- A second doctor, with a slot reserved on another date. -/
def doc2 : Doctor :=
  { doc1 with _id := 2, name := "Dr. B", fees := 300,
              slots_booked := [("2024-06-02", ["09:00"])] }

/-- The store `storeBooked` with the second doctor added. -/
def storeTwoDoctors : Store := { storeBooked with doctors := [docBooked, doc2] }

/-- The store `storeBooked` once the record of the doctor is gone. -/
def storeNoDoctor : Store := { storeBooked with doctors := [] }

/-- A second patient. -/
def pat2 : User := { _id := 9, name := "P2", email := "p2@example.com", image := "" }

/-- The store `store0` with the second patient added. -/
def storeTwoPatients : Store := { store0 with users := [pat1, pat2] }

/-- The booking `req1` by the second patient. -/
def req1By2 : BookReq := { req1 with authId := some 9 }

/-- A doctor whose fee is 0. -/
def docFree : Doctor := { doc1 with fees := 0 }

/-- The store of the doctor without fee and of `pat1`. -/
def storeFree : Store := { store0 with doctors := [docFree] }

/-- A run in which "10:00" is booked for a fee of 0, completed and paid, and
the doctor then sets the fee to 500. -/
def storeFeeRaised : Store :=
  (updateDoctorProfile
    (run gw0 storeFree [Op.book req1 0, Op.doctorComplete (doctorReq 1),
      Op.stripeVerify (stripeReq 1)])
    (some 1) { fees := some 500, address := none, available := none }).2

/-- The store `storeBooked` after the patient changed the name of the profile. -/
def storeRenamed : Store := { storeBooked with users := [{ pat1 with name := "Renamed" }] }
/-- A run in which "10:00" is booked for the fee 500, completed and paid. -/
def storeEarned : Store :=
  run gw0 store0 [Op.book req1 0, Op.doctorComplete (doctorReq 1),
    Op.stripeVerify (stripeReq 1)]

/-- The record of the doctor of `storeFeeRaised`. -/
def docRaised : Doctor :=
  { doc1 with fees := 500, slots_booked := [("2024-06-01", ["10:00"])] }

/-- The request `req1` for the date "constructor", a name every plain object
inherits. -/
def reqInherited : BookReq := { req1 with slotDate := "constructor" }

/-- A doctor whose fee is `2 ^ 53 - 1`, the largest whole number below which
every whole number is a double. -/
def docLarge : Doctor := { doc1 with fees := 9007199254740991 }

/-- The store in which `pat1` has booked "10:00" with `docLarge`. -/
def storeLarge : Store := (bookAppointment { store0 with doctors := [docLarge] } req1 0).2

/-- The appointment of `storeLarge`. -/
def apptLarge : Appointment := mkAppointment 1 7 1 "2024-06-01" "10:00" 0 docLarge pat1

/-! ## Lemmas on the collections -/

theorem updateFirst_map_key {α β : Type} (key : α → β) (p : α → Bool) (f : α → α)
    (h : ∀ x, key (f x) = key x) (l : List α) :
    (updateFirst p f l).map key = l.map key := by
  induction l with
  | nil => rfl
  | cons x xs ih =>
    by_cases hp : p x = true
    · simp [updateFirst, hp, h]
    · simp [updateFirst, hp, ih]

theorem mem_updateFirst {α : Type} (p : α → Bool) (f : α → α) (l : List α) (y : α)
    (hy : y ∈ updateFirst p f l) : y ∈ l ∨ ∃ x ∈ l, p x = true ∧ y = f x := by
  induction l with
  | nil => simp [updateFirst] at hy
  | cons x xs ih =>
    by_cases hp : p x = true
    · simp only [updateFirst, hp, if_true, List.mem_cons] at hy
      rcases hy with h | h
      · exact Or.inr ⟨x, List.mem_cons_self _ _, hp, h⟩
      · exact Or.inl (List.mem_cons_of_mem _ h)
    · rw [updateFirst, if_neg hp, List.mem_cons] at hy
      rcases hy with h | h
      · exact Or.inl (h ▸ List.mem_cons_self _ _)
      · rcases ih h with h1 | ⟨z, hz, hpz, hyz⟩
        · exact Or.inl (List.mem_cons_of_mem _ h1)
        · exact Or.inr ⟨z, List.mem_cons_of_mem _ hz, hpz, hyz⟩

theorem updateFirst_eq_map {α : Type} (p : α → Bool) (f : α → α) (l : List α)
    (hp : l.Pairwise (fun x y => ¬ (p x = true ∧ p y = true))) :
    updateFirst p f l = l.map (fun x => if p x = true then f x else x) := by
  induction l with
  | nil => rfl
  | cons x xs ih =>
    rw [List.pairwise_cons] at hp
    by_cases hx : p x = true
    · have hid : xs.map (fun x => if p x = true then f x else x) = xs := by
        conv_rhs => rw [← List.map_id xs]
        apply List.map_congr_left
        intro y hy
        have : ¬ p y = true := fun hpy => hp.1 y hy ⟨hx, hpy⟩
        simp [this]
      simp [updateFirst, hx, hid]
    · simp [updateFirst, hx, ih hp.2]

theorem pairwise_of_nodup_key {α : Type} (key : α → Nat) (p : α → Bool) (c : Nat)
    (l : List α) (hn : (l.map key).Nodup) (hp : ∀ x, p x = true → key x = c) :
    l.Pairwise (fun x y => ¬ (p x = true ∧ p y = true)) := by
  have h1 : l.Pairwise (fun x y => key x ≠ key y) := by
    simpa [List.Nodup, List.pairwise_map] using hn
  exact h1.imp (fun {a b} hab hpp => hab ((hp a hpp.1).trans (hp b hpp.2).symm))

theorem findByIdAndUpdate_eq_map {α : Type} (key : α → Nat) (l : List α) (id : Nat)
    (f : α → α) (hn : (l.map key).Nodup) :
    findByIdAndUpdate key l id f = l.map (fun x => if key x = id then f x else x) := by
  unfold findByIdAndUpdate
  rw [updateFirst_eq_map _ _ _
    (pairwise_of_nodup_key key _ id l hn (fun x hx => by simpa using hx))]
  apply List.map_congr_left
  intro x _
  simp

theorem findById_mem {α : Type} (key : α → Nat) (l : List α) (id : Nat) (x : α)
    (h : findById key l id = some x) : x ∈ l ∧ key x = id := by
  unfold findById at h
  exact ⟨List.mem_of_find?_eq_some h, by simpa using List.find?_some h⟩

theorem findById_findByIdAndUpdate {α : Type} (key : α → Nat) (l : List α) (id id' : Nat)
    (f : α → α) (h : ∀ x, key (f x) = key x) :
    findById key (findByIdAndUpdate key l id f) id' =
      if id' = id then (findById key l id).map f else findById key l id' := by
  unfold findById findByIdAndUpdate
  induction l with
  | nil => simp [updateFirst]
  | cons x xs ih =>
    by_cases hx : key x = id
    · by_cases hid : id' = id
      · simp [updateFirst, hx, hid, h, List.find?_cons]
      · have hne : ¬ id = id' := fun e => hid e.symm
        simp [updateFirst, hx, hid, h, hne, List.find?_cons]
    · by_cases hx' : key x = id'
      · by_cases hid : id' = id
        · exact absurd (hx'.trans hid) hx
        · simp [updateFirst, hx, hx', hid, List.find?_cons]
      · simp only [updateFirst, hx, decide_False, Bool.false_eq_true, if_false,
          List.find?_cons, hx']
        exact ih

theorem slotGet_slotSet_same (m : SlotMap) (k : String) (v : List String) :
    slotGet (slotSet m k v) k = some v := by
  induction m with
  | nil => simp [slotSet, slotGet]
  | cons e rest ih =>
    obtain ⟨k', w⟩ := e
    by_cases h : k' = k
    · simp [slotSet, slotGet, h]
    · simp [slotSet, slotGet, h, ih]

theorem slotGet_slotSet_ne (m : SlotMap) (k k' : String) (v : List String) (hk : k' ≠ k) :
    slotGet (slotSet m k v) k' = slotGet m k' := by
  induction m with
  | nil => simp [slotSet, slotGet, hk.symm]
  | cons e rest ih =>
    obtain ⟨k0, w⟩ := e
    by_cases h : k0 = k
    · have : ¬ k0 = k' := fun e => hk (e.symm.trans h)
      simp [slotSet, slotGet, h, this, hk.symm]
    · by_cases h' : k0 = k'
      · subst h'
        simp [slotSet, slotGet, hk]
      · simp [slotSet, slotGet, h, h', ih]

theorem mem_slotSet (m : SlotMap) (k : String) (v : List String) (e : String × List String)
    (he : e ∈ slotSet m k v) : e ∈ m ∨ e = (k, v) := by
  induction m with
  | nil => simpa [slotSet] using he
  | cons x rest ih =>
    obtain ⟨k0, w⟩ := x
    by_cases h : k0 = k
    · simp only [slotSet, h, if_true, List.mem_cons] at he
      rcases he with h1 | h1
      · exact Or.inr h1
      · exact Or.inl (List.mem_cons_of_mem _ h1)
    · simp only [slotSet, h, if_false, List.mem_cons] at he
      rcases he with h1 | h1
      · exact Or.inl (h1 ▸ List.mem_cons_self _ _)
      · rcases ih h1 with h2 | h2
        · exact Or.inl (List.mem_cons_of_mem _ h2)
        · exact Or.inr h2

theorem slotGet_mem (m : SlotMap) (k : String) (v : List String)
    (h : slotGet m k = some v) : ∃ k0, (k0, v) ∈ m := by
  induction m with
  | nil => simp [slotGet] at h
  | cons x rest ih =>
    obtain ⟨k0, w⟩ := x
    by_cases hk : k0 = k
    · simp only [slotGet, hk, if_true, Option.some.injEq] at h
      exact ⟨k0, h ▸ List.mem_cons_self _ _⟩
    · simp only [slotGet, hk, if_false] at h
      obtain ⟨k1, h1⟩ := ih h
      exact ⟨k1, List.mem_cons_of_mem _ h1⟩

theorem lt_freshId (l : List Appointment) (a : Appointment) (ha : a ∈ l) :
    a._id < freshId l := by
  unfold freshId
  induction l with
  | nil => simp at ha
  | cons x xs ih =>
    simp only [List.mem_cons] at ha
    simp only [List.map_cons, List.foldr_cons]
    rcases ha with h | h
    · subst h; omega
    · have := ih h; omega

/-- The successful path of `bookAppointment`, as an equation. -/
theorem bookAppointment_eq_ok (s : Store) (req : BookReq) (now userId docId : Nat)
    (D : Doctor) (P : User)
    (hu : (req.authId <|> req.bodyUserId) = some userId)
    (hd : req.docId = some docId) (hdate : req.slotDate ≠ "") (htime : req.slotTime ≠ "")
    (hD : findById Doctor._id s.doctors docId = some D) (hav : D.available = true)
    (hP : findById User._id s.users userId = some P)
    (hfree : req.slotTime ∉ slotsOf s docId req.slotDate)
    (hkey : readsInherited D.slots_booked req.slotDate = false) :
    bookAppointment s req now =
      (jsonOk "Appointment booked successfully"
          (some (mkAppointment (freshId s.appointments) userId docId req.slotDate
            req.slotTime now D P)),
        Store.mk
          (findByIdAndUpdate Doctor._id s.doctors docId (fun d =>
            { d with slots_booked := reserveSlot D.slots_booked req.slotDate req.slotTime }))
          s.users
          (s.appointments ++ [mkAppointment (freshId s.appointments) userId docId
            req.slotDate req.slotTime now D P])
          s.orders) := by
  have hfree' : req.slotTime ∉ (slotGet D.slots_booked req.slotDate).getD [] := by
    simpa [slotsOf, hD] using hfree
  unfold bookAppointment
  simp only [hu, hd, hD, hP, hdate, htime, hav, hfree', hkey, false_or, if_false,
    Bool.false_eq_true]
  rfl

/-- The path of `bookAppointment` on which `daySlots.includes` throws. -/
theorem bookAppointment_eq_throw (s : Store) (req : BookReq) (now userId docId : Nat)
    (D : Doctor) (P : User)
    (hu : (req.authId <|> req.bodyUserId) = some userId)
    (hd : req.docId = some docId) (hdate : req.slotDate ≠ "") (htime : req.slotTime ≠ "")
    (hD : findById Doctor._id s.doctors docId = some D) (hav : D.available = true)
    (hP : findById User._id s.users userId = some P)
    (hkey : readsInherited D.slots_booked req.slotDate = true) :
    bookAppointment s req now = (jsonErr "daySlots.includes is not a function" 500, s) := by
  unfold bookAppointment
  simp only [hu, hd, hD, hP, hdate, htime, hav, hkey, false_or, if_false, if_true,
    Bool.true_eq_false]

/-- A stored key is read as stored. -/
theorem readsInherited_of_mem (m : SlotMap) (date t : String)
    (h : t ∈ (slotGet m date).getD []) : readsInherited m date = false := by
  unfold readsInherited
  cases hg : slotGet m date with
  | none => rw [hg] at h; simp at h
  | some l => rfl

theorem findById_setSlots (l : List Doctor) (id id' : Nat) (m : SlotMap) :
    findById Doctor._id
      (findByIdAndUpdate Doctor._id l id (fun d => { d with slots_booked := m })) id' =
    if id' = id then (findById Doctor._id l id).map (fun d => { d with slots_booked := m })
    else findById Doctor._id l id' :=
  findById_findByIdAndUpdate Doctor._id l id id' _ (fun _ => rfl)

theorem slotsOf_reserve (s : Store) (docId : Nat) (D : Doctor) (date time : String)
    (hD : findById Doctor._id s.doctors docId = some D) (apps : List Appointment)
    (docId' : Nat) (date' : String) :
    slotsOf (Store.mk (findByIdAndUpdate Doctor._id s.doctors docId
        (fun d => { d with slots_booked := reserveSlot D.slots_booked date time }))
        s.users apps s.orders) docId' date' =
      if docId' = docId ∧ date' = date then slotsOf s docId date ++ [time]
      else slotsOf s docId' date' := by
  unfold slotsOf
  simp only [findById_setSlots]
  by_cases h1 : docId' = docId
  · subst h1
    by_cases h2 : date' = date
    · subst h2
      simp [hD, reserveSlot, slotGet_slotSet_same]
    · simp [hD, reserveSlot, slotGet_slotSet_ne _ _ _ _ h2, h2]
  · simp [h1]

theorem findById_setCancelled (l : List Appointment) (id id' : Nat) :
    findById Appointment._id
      (findByIdAndUpdate Appointment._id l id (fun a => { a with cancelled := true })) id' =
    if id' = id then (findById Appointment._id l id).map (fun a => { a with cancelled := true })
    else findById Appointment._id l id' :=
  findById_findByIdAndUpdate Appointment._id l id id' _ (fun _ => rfl)

/-- The path of `cancelAppointment` that cancels and releases, as an equation. -/
theorem cancelAppointment_eq_ok (s : Store) (req : CancelReq) (userId id : Nat)
    (A : Appointment) (D : Doctor)
    (hu : (req.authId <|> req.bodyUserId) = some userId)
    (hid : req.appointmentId = some id)
    (hA : findById Appointment._id s.appointments id = some A)
    (hown : A.userId = userId) (hnc : A.cancelled = false)
    (hD : findById Doctor._id s.doctors A.docId = some D) :
    cancelAppointment s req =
      (jsonOk "Appointment cancelled" none,
        Store.mk
          (findByIdAndUpdate Doctor._id s.doctors A.docId (fun d =>
            { d with slots_booked := releaseSlot D.slots_booked A.slotDate A.slotTime }))
          s.users
          (findByIdAndUpdate Appointment._id s.appointments id
            (fun a => { a with cancelled := true }))
          s.orders) := by
  unfold cancelAppointment
  simp only [hu, hid, hA, hD, hown, hnc, ne_eq, not_true_eq_false, if_false]
  rfl

/-- The path of `cancelAppointment` on which the doctor record is missing. -/
theorem cancelAppointment_eq_throw (s : Store) (req : CancelReq) (userId id : Nat)
    (A : Appointment)
    (hu : (req.authId <|> req.bodyUserId) = some userId)
    (hid : req.appointmentId = some id)
    (hA : findById Appointment._id s.appointments id = some A)
    (hown : A.userId = userId) (hnc : A.cancelled = false)
    (hD : findById Doctor._id s.doctors A.docId = none) :
    cancelAppointment s req =
      (jsonErr "Cannot read properties of null (reading \x27slots_booked\x27)" 500,
        Store.mk s.doctors s.users
          (findByIdAndUpdate Appointment._id s.appointments id
            (fun a => { a with cancelled := true }))
          s.orders) := by
  unfold cancelAppointment
  simp only [hu, hid, hA, hD, hown, hnc, ne_eq, not_true_eq_false, if_false]
  rfl

/-- Every other path of `cancelAppointment` leaves the store as it is. -/
theorem cancelAppointment_eq_self (s : Store) (req : CancelReq)
    (h : ∀ userId id A, (req.authId <|> req.bodyUserId) = some userId →
      req.appointmentId = some id →
      findById Appointment._id s.appointments id = some A →
      A.userId = userId → A.cancelled = true) :
    (cancelAppointment s req).2 = s := by
  cases hu : (req.authId <|> req.bodyUserId) with
  | none => simp [cancelAppointment, hu]
  | some userId =>
    cases hid : req.appointmentId with
    | none => simp [cancelAppointment, hu, hid]
    | some id =>
      cases hA : findById Appointment._id s.appointments id with
      | none => simp [cancelAppointment, hu, hid, hA]
      | some A =>
        by_cases hown : A.userId = userId
        · have := h userId id A hu hid hA hown
          simp [cancelAppointment, hu, hid, hA, hown, this]
        · simp [cancelAppointment, hu, hid, hA, hown]

theorem slotsOf_release (s : Store) (docId : Nat) (D : Doctor) (date time : String)
    (hD : findById Doctor._id s.doctors docId = some D) (apps : List Appointment)
    (docId' : Nat) (date' : String) :
    slotsOf (Store.mk (findByIdAndUpdate Doctor._id s.doctors docId
        (fun d => { d with slots_booked := releaseSlot D.slots_booked date time }))
        s.users apps s.orders) docId' date' =
      if docId' = docId ∧ date' = date then
        (slotsOf s docId date).filter (fun t => decide (t ≠ time))
      else slotsOf s docId' date' := by
  unfold slotsOf
  simp only [findById_setSlots]
  by_cases h1 : docId' = docId
  · subst h1
    by_cases h2 : date' = date
    · subst h2
      cases hg : slotGet D.slots_booked date' with
      | none => simp [hD, releaseSlot, hg]
      | some l => simp [hD, releaseSlot, hg, slotGet_slotSet_same]
    · cases hg : slotGet D.slots_booked date with
      | none => simp [hD, releaseSlot, hg, h2]
      | some l => simp [hD, releaseSlot, hg, slotGet_slotSet_ne _ _ _ _ h2, h2]
  · simp [h1]

theorem find?_updateFirst_self {α : Type} (p : α → Bool) (f : α → α) (l : List α)
    (h : ∀ x, p x = true → p (f x) = true) :
    (updateFirst p f l).find? p = (l.find? p).map f := by
  induction l with
  | nil => rfl
  | cons x xs ih =>
    by_cases hx : p x = true
    · simp [updateFirst, hx, h x hx, List.find?_cons]
    · simp [updateFirst, hx, ih, List.find?_cons]
/-! ## The paths of the handlers -/

/-- Either `bookAppointment` fails and leaves the store as it is, or all its
checks pass. -/
theorem bookAppointment_cases (s : Store) (req : BookReq) (now : Nat) :
    ((bookAppointment s req now).2 = s ∧ (bookAppointment s req now).1.success = false) ∨
    ∃ userId docId D P, (req.authId <|> req.bodyUserId) = some userId ∧
      req.docId = some docId ∧ req.slotDate ≠ "" ∧ req.slotTime ≠ "" ∧
      findById Doctor._id s.doctors docId = some D ∧ D.available = true ∧
      findById User._id s.users userId = some P ∧
      req.slotTime ∉ slotsOf s docId req.slotDate ∧
      readsInherited D.slots_booked req.slotDate = false := by
  cases hu : (req.authId <|> req.bodyUserId) with
  | none => left; simp [bookAppointment, hu, jsonErr]
  | some userId =>
    cases hd : req.docId with
    | none => left; simp [bookAppointment, hu, hd, jsonErr]
    | some docId =>
      by_cases hf : req.slotDate = "" ∨ req.slotTime = ""
      · left; simp [bookAppointment, hu, hd, hf, jsonErr]
      · cases hD : findById Doctor._id s.doctors docId with
        | none => left; simp [bookAppointment, hu, hd, hf, hD, jsonErr]
        | some D =>
          by_cases hav : D.available = false
          · left; simp [bookAppointment, hu, hd, hf, hD, hav, jsonErr]
          · cases hP : findById User._id s.users userId with
            | none => left; simp [bookAppointment, hu, hd, hf, hD, hav, hP, jsonErr]
            | some P =>
              cases hk : readsInherited D.slots_booked req.slotDate with
              | true => left; simp [bookAppointment, hu, hd, hf, hD, hav, hP, hk, jsonErr]
              | false =>
                by_cases hin : req.slotTime ∈ (slotGet D.slots_booked req.slotDate).getD []
                · left; simp [bookAppointment, hu, hd, hf, hD, hav, hP, hk, hin, jsonErr]
                · right
                  push_neg at hf
                  exact ⟨userId, docId, D, P, rfl, rfl, hf.1, hf.2, hD, by simpa using hav,
                    hP, by simpa [slotsOf, hD] using hin, hk⟩

/-- Either `cancelAppointment` leaves the store as it is, or it found an
appointment of the requester that is not cancelled. -/
theorem cancelAppointment_cases (s : Store) (req : CancelReq) :
    (cancelAppointment s req).2 = s ∨
    ∃ userId id A, (req.authId <|> req.bodyUserId) = some userId ∧
      req.appointmentId = some id ∧
      findById Appointment._id s.appointments id = some A ∧
      A.userId = userId ∧ A.cancelled = false := by
  by_cases h : ∀ userId id A, (req.authId <|> req.bodyUserId) = some userId →
      req.appointmentId = some id →
      findById Appointment._id s.appointments id = some A →
      A.userId = userId → A.cancelled = true
  · exact Or.inl (cancelAppointment_eq_self s req h)
  · right
    push_neg at h
    obtain ⟨userId, id, A, h1, h2, h3, h4, h5⟩ := h
    exact ⟨userId, id, A, h1, h2, h3, h4, by simpa using h5⟩

theorem updateFirst_of_find?_none {α : Type} (p : α → Bool) (f : α → α) (l : List α)
    (h : l.find? p = none) : updateFirst p f l = l := by
  induction l with
  | nil => rfl
  | cons x xs ih =>
    by_cases hx : p x = true
    · simp [List.find?_cons, hx] at h
    · simp only [List.find?_cons, hx] at h
      simp [updateFirst, hx, ih h]

/-- The store after `appointmentCancel`. -/
theorem appointmentCancel_store (s : Store) (req : DoctorReq) :
    (appointmentCancel s req).2 = Store.mk s.doctors s.users
      (updateFirst (matchesAppt req)
        (fun appt => { appt with cancelled := true, isCompleted := false,
                                 status := some "Cancelled" }) s.appointments)
      s.orders := by
  unfold appointmentCancel
  cases h : s.appointments.find? (matchesAppt req) with
  | none => simp [updateFirst_of_find?_none _ _ _ h]
  | some a => rfl

/-- The store after `appointmentComplete`. -/
theorem appointmentComplete_store (s : Store) (req : DoctorReq) :
    (appointmentComplete s req).2 = Store.mk s.doctors s.users
      (updateFirst (matchesAppt req)
        (fun appt => { appt with isCompleted := true, cancelled := false,
                                 status := some "Completed" }) s.appointments)
      s.orders := by
  unfold appointmentComplete
  cases h : s.appointments.find? (matchesAppt req) with
  | none => simp [updateFirst_of_find?_none _ _ _ h]
  | some a => rfl

/-- The store after `verifyStripe`: as before, or with one `payment` set. -/
theorem verifyStripe_cases (s : Store) (req : StripeVerifyReq) :
    (verifyStripe s req).2 = s ∨
    ∃ id, (verifyStripe s req).2 = Store.mk s.doctors s.users
      (findByIdAndUpdate Appointment._id s.appointments id
        (fun a => { a with payment := true })) s.orders := by
  unfold verifyStripe
  cases req.appointmentId with
  | none => exact Or.inl rfl
  | some id =>
    by_cases h : req.success.toJsString = "true"
    · right; exact ⟨id, by simp [h]⟩
    · left; simp [h]

/-- The store after `verifyRazorpay`: as before, or with one `payment` set. -/
theorem verifyRazorpay_cases (gw : Gateway) (s : Store) (req : RazorpayVerifyReq) :
    (verifyRazorpay gw s req).2 = s ∨
    ∃ id, (verifyRazorpay gw s req).2 = Store.mk s.doctors s.users
      (findByIdAndUpdate Appointment._id s.appointments id
        (fun a => { a with payment := true })) s.orders := by
  unfold verifyRazorpay
  dsimp only
  repeat' split
  all_goals first
    | exact Or.inl rfl
    | exact Or.inr ⟨_, rfl⟩

theorem appointmentCancel_doctors (s : Store) (req : DoctorReq) :
    (appointmentCancel s req).2.doctors = s.doctors := by
  rw [appointmentCancel_store]

theorem appointmentComplete_doctors (s : Store) (req : DoctorReq) :
    (appointmentComplete s req).2.doctors = s.doctors := by
  rw [appointmentComplete_store]

theorem verifyStripe_doctors (s : Store) (req : StripeVerifyReq) :
    (verifyStripe s req).2.doctors = s.doctors := by
  rcases verifyStripe_cases s req with h | ⟨id, h⟩ <;> rw [h]

theorem verifyRazorpay_doctors (gw : Gateway) (s : Store) (req : RazorpayVerifyReq) :
    (verifyRazorpay gw s req).2.doctors = s.doctors := by
  rcases verifyRazorpay_cases gw s req with h | ⟨id, h⟩ <;> rw [h]

/-! ## Duplicate-free slot arrays -/

theorem slotGet_getD_nodup (m : SlotMap) (date : String)
    (hm : ∀ e ∈ m, e.2.Nodup) : ((slotGet m date).getD []).Nodup := by
  cases hg : slotGet m date with
  | none => simp
  | some l =>
    obtain ⟨k, hk⟩ := slotGet_mem m date l hg
    simpa using hm _ hk

theorem slotsNodup_setSlots (s : Store) (docId : Nat) (m : SlotMap)
    (users : List User) (apps : List Appointment) (orders : List Order)
    (h : SlotsNodup s) (hm : ∀ e ∈ m, e.2.Nodup) :
    SlotsNodup (Store.mk (findByIdAndUpdate Doctor._id s.doctors docId
      (fun d => { d with slots_booked := m })) users apps orders) := by
  intro d hd e he
  rcases mem_updateFirst _ _ _ _ hd with h1 | ⟨x, _, _, rfl⟩
  · exact h d h1 e he
  · exact hm e he

theorem bookAppointment_slotsNodup (s : Store) (req : BookReq) (now : Nat)
    (h : SlotsNodup s) : SlotsNodup (bookAppointment s req now).2 := by
  rcases bookAppointment_cases s req now with ⟨h0, _⟩ | ⟨u, docId, D, P, hu, hd, h1, h2, hD, hav, hP, hfree, hkey⟩
  · rw [h0]; exact h
  · rw [bookAppointment_eq_ok s req now u docId D P hu hd h1 h2 hD hav hP hfree hkey]
    apply slotsNodup_setSlots s docId _ _ _ _ h
    intro e he
    have hDm := h D (findById_mem _ _ _ _ hD).1
    rcases mem_slotSet _ _ _ _ he with h3 | h3
    · exact hDm e h3
    · rw [h3]
      have hn := slotGet_getD_nodup D.slots_booked req.slotDate hDm
      have hnot : req.slotTime ∉ (slotGet D.slots_booked req.slotDate).getD [] := by
        simpa [slotsOf, hD] using hfree
      simp only
      rw [List.nodup_append]
      refine ⟨hn, List.nodup_singleton _, ?_⟩
      intro a ha hb
      rw [List.mem_singleton] at hb
      exact hnot (hb ▸ ha)

theorem cancelAppointment_slotsNodup (s : Store) (req : CancelReq)
    (h : SlotsNodup s) : SlotsNodup (cancelAppointment s req).2 := by
  rcases cancelAppointment_cases s req with h0 | ⟨u, id, A, hu, hid, hA, hown, hnc⟩
  · rw [h0]; exact h
  · cases hD : findById Doctor._id s.doctors A.docId with
    | none =>
      rw [cancelAppointment_eq_throw s req u id A hu hid hA hown hnc hD]
      exact h
    | some D =>
      rw [cancelAppointment_eq_ok s req u id A D hu hid hA hown hnc hD]
      apply slotsNodup_setSlots s A.docId _ _ _ _ h
      intro e he
      have hDm := h D (findById_mem _ _ _ _ hD).1
      unfold releaseSlot at he
      cases hg : slotGet D.slots_booked A.slotDate with
      | none => rw [hg] at he; exact hDm e he
      | some l =>
        rw [hg] at he
        rcases mem_slotSet _ _ _ _ he with h3 | h3
        · exact hDm e h3
        · rw [h3]
          obtain ⟨k, hk⟩ := slotGet_mem _ _ _ hg
          exact (hDm _ hk).filter _

theorem step_slotsNodup (gw : Gateway) (s : Store) (op : Op) (h : SlotsNodup s) :
    SlotsNodup (step gw s op) := by
  cases op with
  | book req now => exact bookAppointment_slotsNodup s req now h
  | cancel req => exact cancelAppointment_slotsNodup s req h
  | doctorCancel req =>
    intro d hd; exact h d (appointmentCancel_doctors s req ▸ hd)
  | doctorComplete req =>
    intro d hd; exact h d (appointmentComplete_doctors s req ▸ hd)
  | stripeVerify req =>
    intro d hd; exact h d (verifyStripe_doctors s req ▸ hd)
  | razorpayVerify req =>
    intro d hd; exact h d (verifyRazorpay_doctors gw s req ▸ hd)

theorem run_slotsNodup (gw : Gateway) (ops : List Op) (s : Store) (h : SlotsNodup s) :
    SlotsNodup (run gw s ops) := by
  induction ops generalizing s with
  | nil => exact h
  | cons op ops ih => exact ih _ (step_slotsNodup gw s op h)
/-! ## The ledger invariant -/

theorem eq_of_key_eq {α : Type} (key : α → Nat) (l : List α)
    (hn : (l.map key).Nodup) (a b : α) (ha : a ∈ l) (hb : b ∈ l) (h : key a = key b) :
    a = b :=
  List.inj_on_of_nodup_map hn ha hb h

theorem find?_eq_of_nodup {α : Type} (key : α → Nat) (p : α → Bool) (c : Nat)
    (l : List α) (hn : (l.map key).Nodup) (hp : ∀ x, p x = true → key x = c)
    (a : α) (ha : a ∈ l) (hpa : p a = true) : l.find? p = some a := by
  cases hf : l.find? p with
  | none =>
    have := List.find?_eq_none.mp hf a ha
    exact absurd hpa this
  | some b =>
    have hb := List.mem_of_find?_eq_some hf
    have hpb := List.find?_some hf
    rw [eq_of_key_eq key l hn a b ha hb ((hp a hpa).trans (hp b hpb).symm)]

theorem matchesAppt_id (req : DoctorReq) (x : Appointment)
    (h : matchesAppt req x = true) : x._id = req.appointmentId.getD 0 := by
  simp only [matchesAppt, decide_eq_true_eq] at h
  rw [← h.1]; rfl

theorem ledgerInv_map (s : Store) (g : Appointment → Appointment)
    (apps : List Appointment) (hmap : apps = s.appointments.map g)
    (hk : ∀ a, (g a)._id = a._id ∧ (g a).docId = a.docId ∧
      (g a).slotDate = a.slotDate ∧ (g a).slotTime = a.slotTime)
    (hc : ∀ a ∈ s.appointments, (g a).cancelled = false → a.cancelled = false)
    (h : LedgerInv s) : LedgerInv (Store.mk s.doctors s.users apps s.orders) := by
  subst hmap
  refine ⟨?_, ?_, ?_⟩
  · have : (s.appointments.map g).map Appointment._id = s.appointments.map Appointment._id := by
      rw [List.map_map]
      apply List.map_congr_left
      intro a _
      exact (hk a).1
    show ((s.appointments.map g).map Appointment._id).Nodup
    rw [this]; exact h.ids_nodup
  · intro a' ha' hca'
    obtain ⟨a, ha, rfl⟩ := List.mem_map.mp ha'
    have := h.active_slot a ha (hc a ha hca')
    obtain ⟨_, h2, h3, h4⟩ := hk a
    show (g a).slotTime ∈ slotsOf s (g a).docId (g a).slotDate
    rw [h2, h3, h4]; exact this
  · intro a' ha' b' hb' hca hcb h1 h2 h3
    obtain ⟨a, ha, rfl⟩ := List.mem_map.mp ha'
    obtain ⟨b, hb, rfl⟩ := List.mem_map.mp hb'
    obtain ⟨ka1, ka2, ka3, ka4⟩ := hk a
    obtain ⟨kb1, kb2, kb3, kb4⟩ := hk b
    rw [ka1, kb1]
    rw [ka2, kb2] at h1
    rw [ka3, kb3] at h2
    rw [ka4, kb4] at h3
    exact h.active_unique a ha b hb (hc a ha hca) (hc b hb hcb) h1 h2 h3

theorem ledgerInv_setById (s : Store) (id : Nat) (f : Appointment → Appointment)
    (hk : ∀ a, (f a)._id = a._id ∧ (f a).docId = a.docId ∧
      (f a).slotDate = a.slotDate ∧ (f a).slotTime = a.slotTime)
    (hc : ∀ a ∈ s.appointments, a._id = id → (f a).cancelled = false →
      a.cancelled = false)
    (h : LedgerInv s) :
    LedgerInv (Store.mk s.doctors s.users
      (findByIdAndUpdate Appointment._id s.appointments id f) s.orders) := by
  apply ledgerInv_map s (fun x => if x._id = id then f x else x) _
    (findByIdAndUpdate_eq_map Appointment._id s.appointments id f h.ids_nodup) _ _ h
  · intro a
    by_cases ha : a._id = id
    · simp only [ha, if_true]; exact ha ▸ hk a
    · simp [ha]
  · intro a ha
    by_cases hid : a._id = id
    · simp only [hid, if_true]; exact hc a ha hid
    · simp [hid]

theorem ledgerInv_setMatching (s : Store) (req : DoctorReq)
    (f : Appointment → Appointment)
    (hk : ∀ a, (f a)._id = a._id ∧ (f a).docId = a.docId ∧
      (f a).slotDate = a.slotDate ∧ (f a).slotTime = a.slotTime)
    (hc : ∀ a ∈ s.appointments, matchesAppt req a = true → (f a).cancelled = false →
      a.cancelled = false)
    (h : LedgerInv s) :
    LedgerInv (Store.mk s.doctors s.users
      (updateFirst (matchesAppt req) f s.appointments) s.orders) := by
  apply ledgerInv_map s (fun x => if matchesAppt req x = true then f x else x) _
    (updateFirst_eq_map _ _ _ (pairwise_of_nodup_key Appointment._id _
      (req.appointmentId.getD 0) _ h.ids_nodup (matchesAppt_id req))) _ _ h
  · intro a
    by_cases ha : matchesAppt req a = true
    · simp only [ha, if_true]; exact hk a
    · simp [ha]
  · intro a ha
    by_cases hm : matchesAppt req a = true
    · simp only [hm, if_true]; exact hc a ha hm
    · simp [hm]

theorem bookAppointment_ledgerInv (s : Store) (req : BookReq) (now : Nat)
    (h : LedgerInv s) : LedgerInv (bookAppointment s req now).2 := by
  rcases bookAppointment_cases s req now with
    ⟨h0, _⟩ | ⟨u, docId, D, P, hu, hd, h1, h2, hD, hav, hP, hfree, hkey⟩
  · rw [h0]; exact h
  · rw [bookAppointment_eq_ok s req now u docId D P hu hd h1 h2 hD hav hP hfree hkey]
    have hslots := slotsOf_reserve s docId D req.slotDate req.slotTime hD
    refine ⟨?_, ?_, ?_⟩
    · show ((s.appointments ++ [_]).map Appointment._id).Nodup
      rw [List.map_append, List.nodup_append]
      refine ⟨h.ids_nodup, List.nodup_singleton _, ?_⟩
      intro x hx hy
      obtain ⟨a, ha, rfl⟩ := List.mem_map.mp hx
      simp only [List.map_cons, List.map_nil, List.mem_singleton] at hy
      have := lt_freshId s.appointments a ha
      simp only [mkAppointment] at hy
      omega
    · intro a ha hca
      rw [hslots]
      simp only [List.mem_append, List.mem_singleton] at ha
      rcases ha with ha | rfl
      · have := h.active_slot a ha hca
        split
        · rename_i hcond
          rw [hcond.1, hcond.2] at this
          exact List.mem_append_left _ this
        · exact this
      · simp [mkAppointment]
    · intro a ha b hb hca hcb e1 e2 e3
      simp only [List.mem_append, List.mem_singleton] at ha hb
      rcases ha with ha | rfl
      · rcases hb with hb | rfl
        · exact h.active_unique a ha b hb hca hcb e1 e2 e3
        · exfalso
          have := h.active_slot a ha hca
          simp only [mkAppointment] at e1 e2 e3
          rw [e1, e2, e3] at this
          exact hfree this
      · rcases hb with hb | rfl
        · exfalso
          have := h.active_slot b hb hcb
          simp only [mkAppointment] at e1 e2 e3
          rw [← e1, ← e2, ← e3] at this
          exact hfree this
        · rfl

theorem cancelAppointment_ledgerInv (s : Store) (req : CancelReq)
    (h : LedgerInv s) : LedgerInv (cancelAppointment s req).2 := by
  rcases cancelAppointment_cases s req with h0 | ⟨u, id, A, hu, hid, hA, hown, hnc⟩
  · rw [h0]; exact h
  · have hset := ledgerInv_setById s id (fun a => { a with cancelled := true })
      (fun a => ⟨rfl, rfl, rfl, rfl⟩) (fun a _ _ hf => by simp at hf) h
    cases hD : findById Doctor._id s.doctors A.docId with
    | none =>
      rw [cancelAppointment_eq_throw s req u id A hu hid hA hown hnc hD]
      exact hset
    | some D =>
      rw [cancelAppointment_eq_ok s req u id A D hu hid hA hown hnc hD]
      have hslots := slotsOf_release s A.docId D A.slotDate A.slotTime hD
      obtain ⟨hAm, hAid⟩ := findById_mem _ _ _ _ hA
      have hmap := findByIdAndUpdate_eq_map Appointment._id s.appointments id
        (fun a => { a with cancelled := true }) h.ids_nodup
      refine ⟨hset.ids_nodup, ?_, ?_⟩
      · intro a' ha' hca'
        rw [hslots]
        have ha'' : a' ∈ findByIdAndUpdate Appointment._id s.appointments id
            (fun a => { a with cancelled := true }) := ha'
        rw [hmap] at ha''
        obtain ⟨a, ha, rfl⟩ := List.mem_map.mp ha''
        by_cases haid : a._id = id
        · simp [haid] at hca'
        · simp only [haid, if_false] at hca' ⊢
          have hsl := h.active_slot a ha hca'
          split
          · rename_i hcond
            rw [hcond.1, hcond.2] at hsl
            refine List.mem_filter.mpr ⟨hsl, ?_⟩
            simp only [decide_eq_true_eq]
            intro ht
            exact haid ((h.active_unique a ha A hAm hca' hnc hcond.1 hcond.2 ht).trans hAid)
          · exact hsl
      · intro a ha b hb
        exact hset.active_unique a ha b hb

theorem appointmentCancel_ledgerInv (s : Store) (req : DoctorReq)
    (h : LedgerInv s) : LedgerInv (appointmentCancel s req).2 := by
  rw [appointmentCancel_store]
  exact ledgerInv_setMatching s req _ (fun a => ⟨rfl, rfl, rfl, rfl⟩)
    (fun a _ _ hf => by simp at hf) h

theorem appointmentComplete_ledgerInv (s : Store) (req : DoctorReq)
    (h : LedgerInv s) (hok : completesActive s (Op.doctorComplete req) = true) :
    LedgerInv (appointmentComplete s req).2 := by
  rw [appointmentComplete_store]
  refine ledgerInv_setMatching s req _ (fun a => ⟨rfl, rfl, rfl, rfl⟩) ?_ h
  intro a ha hm _
  have hf := find?_eq_of_nodup Appointment._id (matchesAppt req)
    (req.appointmentId.getD 0) s.appointments h.ids_nodup (matchesAppt_id req) a ha hm
  simpa [completesActive, hf] using hok

theorem verifyStripe_ledgerInv (s : Store) (req : StripeVerifyReq)
    (h : LedgerInv s) : LedgerInv (verifyStripe s req).2 := by
  rcases verifyStripe_cases s req with h0 | ⟨id, h0⟩
  · rw [h0]; exact h
  · rw [h0]
    exact ledgerInv_setById s id _ (fun a => ⟨rfl, rfl, rfl, rfl⟩) (fun a _ _ hf => hf) h

theorem verifyRazorpay_ledgerInv (gw : Gateway) (s : Store) (req : RazorpayVerifyReq)
    (h : LedgerInv s) : LedgerInv (verifyRazorpay gw s req).2 := by
  rcases verifyRazorpay_cases gw s req with h0 | ⟨id, h0⟩
  · rw [h0]; exact h
  · rw [h0]
    exact ledgerInv_setById s id _ (fun a => ⟨rfl, rfl, rfl, rfl⟩) (fun a _ _ hf => hf) h

theorem step_ledgerInv (gw : Gateway) (s : Store) (op : Op) (h : LedgerInv s)
    (hok : completesActive s op = true) : LedgerInv (step gw s op) := by
  cases op with
  | book req now => exact bookAppointment_ledgerInv s req now h
  | cancel req => exact cancelAppointment_ledgerInv s req h
  | doctorCancel req => exact appointmentCancel_ledgerInv s req h
  | doctorComplete req => exact appointmentComplete_ledgerInv s req h hok
  | stripeVerify req => exact verifyStripe_ledgerInv s req h
  | razorpayVerify req => exact verifyRazorpay_ledgerInv gw s req h

theorem run_ledgerInv (gw : Gateway) (ops : List Op) (s : Store) (h : LedgerInv s)
    (hok : completesOnlyActive gw s ops = true) : LedgerInv (run gw s ops) := by
  induction ops generalizing s with
  | nil => exact h
  | cons op ops ih =>
    simp only [completesOnlyActive, Bool.and_eq_true] at hok
    exact ih _ (step_ledgerInv gw s op h hok.1) hok.2

theorem slotsOf_initial (s : Store) (h : Initial s) (docId : Nat) (date : String) :
    slotsOf s docId date = [] := by
  unfold slotsOf
  cases hD : findById Doctor._id s.doctors docId with
  | none => rfl
  | some D =>
    have := h.2 D (findById_mem _ _ _ _ hD).1
    simp [this, slotGet]

theorem initial_ledgerInv (s : Store) (h : Initial s) : LedgerInv s := by
  refine ⟨?_, ?_, ?_⟩
  · rw [h.1]; exact List.nodup_nil
  · intro a ha; rw [h.1] at ha; cases ha
  · intro a ha; rw [h.1] at ha; cases ha

/-! ## Reserved slots are backed by the ledger -/

theorem slotsBacked_map (s : Store) (g : Appointment → Appointment)
    (apps : List Appointment) (hmap : apps = s.appointments.map g)
    (hk : ∀ a, (g a).docId = a.docId ∧ (g a).slotDate = a.slotDate ∧
      (g a).slotTime = a.slotTime)
    (hc : ∀ a ∈ s.appointments, a.cancelled = false → (g a).cancelled = false)
    (h : SlotsBacked s) : SlotsBacked (Store.mk s.doctors s.users apps s.orders) := by
  subst hmap
  intro docId date t ht
  obtain ⟨a, ha, e1, e2, e3, e4⟩ := h docId date t ht
  obtain ⟨k1, k2, k3⟩ := hk a
  exact ⟨g a, List.mem_map.mpr ⟨a, ha, rfl⟩, k1.trans e1, k2.trans e2, k3.trans e3,
    hc a ha e4⟩

theorem slotsBacked_setById (s : Store) (id : Nat) (f : Appointment → Appointment)
    (hk : ∀ a, (f a).docId = a.docId ∧ (f a).slotDate = a.slotDate ∧
      (f a).slotTime = a.slotTime)
    (hc : ∀ a, (f a).cancelled = a.cancelled)
    (hinv : LedgerInv s) (h : SlotsBacked s) :
    SlotsBacked (Store.mk s.doctors s.users
      (findByIdAndUpdate Appointment._id s.appointments id f) s.orders) := by
  apply slotsBacked_map s (fun x => if x._id = id then f x else x) _
    (findByIdAndUpdate_eq_map Appointment._id s.appointments id f hinv.ids_nodup) _ _ h
  · intro a
    by_cases ha : a._id = id
    · simp only [ha, if_true]; exact hk a
    · simp [ha]
  · intro a _ hca
    by_cases hid : a._id = id
    · simp only [hid, if_true]; rw [hc a]; exact hca
    · simp [hid, hca]

theorem bookAppointment_slotsBacked (s : Store) (req : BookReq) (now : Nat)
    (h : SlotsBacked s) : SlotsBacked (bookAppointment s req now).2 := by
  rcases bookAppointment_cases s req now with
    ⟨h0, _⟩ | ⟨u, docId, D, P, hu, hd, h1, h2, hD, hav, hP, hfree, hkey⟩
  · rw [h0]; exact h
  · rw [bookAppointment_eq_ok s req now u docId D P hu hd h1 h2 hD hav hP hfree hkey]
    intro docId' date' t ht
    rw [slotsOf_reserve s docId D req.slotDate req.slotTime hD] at ht
    have hold : t ∈ slotsOf s docId' date' →
        ∃ a ∈ s.appointments ++ [mkAppointment (freshId s.appointments) u docId
            req.slotDate req.slotTime now D P],
          a.docId = docId' ∧ a.slotDate = date' ∧ a.slotTime = t ∧ a.cancelled = false := by
      intro ht'
      obtain ⟨a, ha, e⟩ := h docId' date' t ht'
      exact ⟨a, List.mem_append_left _ ha, e⟩
    split at ht
    · rename_i hcond
      rw [List.mem_append, List.mem_singleton] at ht
      rcases ht with ht | ht
      · rw [← hcond.1, ← hcond.2] at ht
        exact hold ht
      · exact ⟨_, List.mem_append_right _ (List.mem_singleton_self _), hcond.1.symm,
          hcond.2.symm, ht.symm, rfl⟩
    · exact hold ht

theorem cancelAppointment_slotsBacked (s : Store) (req : CancelReq)
    (hinv : LedgerInv s) (h : SlotsBacked s) : SlotsBacked (cancelAppointment s req).2 := by
  rcases cancelAppointment_cases s req with h0 | ⟨u, id, A, hu, hid, hA, hown, hnc⟩
  · rw [h0]; exact h
  · obtain ⟨hAm, hAid⟩ := findById_mem _ _ _ _ hA
    have hmap := findByIdAndUpdate_eq_map Appointment._id s.appointments id
      (fun a => { a with cancelled := true }) hinv.ids_nodup
    have hkeep : ∀ a ∈ s.appointments, a._id ≠ id →
        a ∈ findByIdAndUpdate Appointment._id s.appointments id
          (fun a => { a with cancelled := true }) := by
      intro a ha hne
      rw [hmap]
      exact List.mem_map.mpr ⟨a, ha, by simp [hne]⟩
    cases hD : findById Doctor._id s.doctors A.docId with
    | none =>
      rw [cancelAppointment_eq_throw s req u id A hu hid hA hown hnc hD]
      intro docId date t ht
      have ht' : t ∈ slotsOf s docId date := ht
      obtain ⟨a, ha, e1, e2, e3, e4⟩ := h docId date t ht'
      refine ⟨a, hkeep a ha ?_, e1, e2, e3, e4⟩
      intro haid
      have haA := eq_of_key_eq Appointment._id _ hinv.ids_nodup a A ha hAm (haid.trans hAid.symm)
      rw [← e1, haA] at ht'
      simp [slotsOf, hD] at ht'
    | some D =>
      rw [cancelAppointment_eq_ok s req u id A D hu hid hA hown hnc hD]
      intro docId date t ht
      rw [slotsOf_release s A.docId D A.slotDate A.slotTime hD] at ht
      have hcase : t ∈ slotsOf s docId date ∧
          ¬ (docId = A.docId ∧ date = A.slotDate ∧ t = A.slotTime) := by
        split at ht
        · rename_i hcond
          have := List.mem_filter.mp ht
          rw [← hcond.1, ← hcond.2] at this
          refine ⟨this.1, fun hh => ?_⟩
          simpa [hh.2.2] using this.2
        · rename_i hcond
          exact ⟨ht, fun hh => hcond ⟨hh.1, hh.2.1⟩⟩
      obtain ⟨a, ha, e1, e2, e3, e4⟩ := h docId date t hcase.1
      refine ⟨a, hkeep a ha ?_, e1, e2, e3, e4⟩
      intro haid
      have haA := eq_of_key_eq Appointment._id _ hinv.ids_nodup a A ha hAm (haid.trans hAid.symm)
      apply hcase.2
      rw [← e1, ← e2, ← e3, haA]
      exact ⟨rfl, rfl, rfl⟩

theorem appointmentComplete_slotsBacked (s : Store) (req : DoctorReq)
    (hinv : LedgerInv s) (h : SlotsBacked s) :
    SlotsBacked (appointmentComplete s req).2 := by
  rw [appointmentComplete_store]
  apply slotsBacked_map s (fun x => if matchesAppt req x = true then
      { x with isCompleted := true, cancelled := false, status := some "Completed" }
    else x) _
    (updateFirst_eq_map _ _ _ (pairwise_of_nodup_key Appointment._id _
      (req.appointmentId.getD 0) _ hinv.ids_nodup (matchesAppt_id req))) _ _ h
  · intro a
    by_cases ha : matchesAppt req a = true
    · simp [ha]
    · simp [ha]
  · intro a _ hca
    by_cases hm : matchesAppt req a = true
    · simp [hm]
    · simp [hm, hca]

theorem step_slotsBacked (gw : Gateway) (s : Store) (op : Op) (hinv : LedgerInv s)
    (h : SlotsBacked s) (hn : notDoctorCancel op = true) :
    SlotsBacked (step gw s op) := by
  cases op with
  | book req now => exact bookAppointment_slotsBacked s req now h
  | cancel req => exact cancelAppointment_slotsBacked s req hinv h
  | doctorCancel req => simp [notDoctorCancel] at hn
  | doctorComplete req => exact appointmentComplete_slotsBacked s req hinv h
  | stripeVerify req =>
    rcases verifyStripe_cases s req with h0 | ⟨id, h0⟩
    · show SlotsBacked (verifyStripe s req).2
      rw [h0]; exact h
    · show SlotsBacked (verifyStripe s req).2
      rw [h0]
      exact slotsBacked_setById s id _ (fun a => ⟨rfl, rfl, rfl⟩) (fun a => rfl) hinv h
  | razorpayVerify req =>
    rcases verifyRazorpay_cases gw s req with h0 | ⟨id, h0⟩
    · show SlotsBacked (verifyRazorpay gw s req).2
      rw [h0]; exact h
    · show SlotsBacked (verifyRazorpay gw s req).2
      rw [h0]
      exact slotsBacked_setById s id _ (fun a => ⟨rfl, rfl, rfl⟩) (fun a => rfl) hinv h

theorem run_slotsBacked (gw : Gateway) (ops : List Op) (s : Store) (hinv : LedgerInv s)
    (h : SlotsBacked s) (hok : completesOnlyActive gw s ops = true)
    (hn : ops.all notDoctorCancel = true) : SlotsBacked (run gw s ops) := by
  induction ops generalizing s with
  | nil => exact h
  | cons op ops ih =>
    simp only [completesOnlyActive, Bool.and_eq_true] at hok
    simp only [List.all_cons, Bool.and_eq_true] at hn
    exact ih _ (step_ledgerInv gw s op hinv hok.1)
      (step_slotsBacked gw s op hinv h hn.1) hok.2 hn.2

/-! ## The claims -/

/-- C1 (amended): when `slotTime` is already in `slots_booked[slotDate]` of the
doctor a booking names, `bookAppointment` fails and leaves the whole store (the
ledger and every slot map) unchanged; the failure is "Slot not available." with
status 400 when the doctor is available, the requester is an existing patient
and both slot fields are present. -/
theorem bookAppointment_slot_taken (s : Store) (req : BookReq) (now docId : Nat)
    (D : Doctor) (hd : req.docId = some docId)
    (hD : findById Doctor._id s.doctors docId = some D)
    (hslot : req.slotTime ∈ (slotGet D.slots_booked req.slotDate).getD []) :
    (bookAppointment s req now).2 = s ∧
    (bookAppointment s req now).1.success = false ∧
    (∀ userId, (req.authId <|> req.bodyUserId) = some userId →
      req.slotDate ≠ "" → req.slotTime ≠ "" → D.available = true →
      (findById User._id s.users userId).isSome = true →
      (bookAppointment s req now).1 = jsonErr "Slot not available." 400) := by
  refine ⟨?_, ?_, ?_⟩
  · unfold bookAppointment
    simp only [hd, hD]
    repeat' split
    all_goals rfl
  · unfold bookAppointment
    simp only [hd, hD]
    repeat' split
    all_goals rfl
  · intro userId hu hdate htime hav hP
    obtain ⟨P, hP⟩ := Option.isSome_iff_exists.mp hP
    have hk := readsInherited_of_mem D.slots_booked req.slotDate req.slotTime hslot
    unfold bookAppointment
    simp [hu, hd, hD, hdate, htime, hav, hP, hslot, hk]

/-- Witness of C1 (amended): the second booking of "10:00" in `storeBooked`. -/
theorem bookAppointment_slot_taken_witness :
    (req1.docId = some 1 ∧
      findById Doctor._id storeBooked.doctors 1 = some docBooked ∧
      req1.slotTime ∈ (slotGet docBooked.slots_booked req1.slotDate).getD [] ∧
      (req1.authId <|> req1.bodyUserId) = some 7 ∧
      req1.slotDate ≠ "" ∧ req1.slotTime ≠ "" ∧ docBooked.available = true ∧
      (findById User._id storeBooked.users 7).isSome = true) ∧
    (bookAppointment storeBooked req1 9).2 = storeBooked ∧
    (bookAppointment storeBooked req1 9).1.success = false ∧
    (bookAppointment storeBooked req1 9).1 = jsonErr "Slot not available." 400 :=
  ⟨by decide,
    (bookAppointment_slot_taken storeBooked req1 9 1 docBooked
      (by decide) (by decide) (by decide)).1,
    (bookAppointment_slot_taken storeBooked req1 9 1 docBooked
      (by decide) (by decide) (by decide)).2.1,
    (bookAppointment_slot_taken storeBooked req1 9 1 docBooked
      (by decide) (by decide) (by decide)).2.2 7
      (by decide) (by decide) (by decide) (by decide) (by decide)⟩

/-- C1 as stated fails: the doctor of `storeOff` has "10:00" reserved but is
unavailable, and the booking is answered "Doctor not available.", not
"Slot not available.". -/
theorem bookAppointment_slot_taken_unavailable :
    "10:00" ∈ slotsOf storeOff 1 "2024-06-01" ∧
    (bookAppointment storeOff req1 0).1 = jsonErr "Doctor not available." 400 ∧
    (bookAppointment storeOff req1 0).1 ≠ jsonErr "Slot not available." 400 := by
  decide

/-- C2 (amended): when the doctor exists and is available, the patient exists
and the time is not in `slots_booked[slotDate]`: if `slotDate` is a stored key
of the map or does not name a member inherited from `Object.prototype`,
`bookAppointment` succeeds, the ledger gains exactly one appointment, the
returned one, carrying the patient, the doctor, the slot, the fee of the doctor
as amount and the three flags false, and the time is afterwards in
`slots_booked[slotDate]` (appended last); if `slotDate` names an inherited
member and is not a stored key, the call is answered with status 500 and the
store is unchanged. -/
theorem bookAppointment_success (s : Store) (req : BookReq) (now userId docId : Nat)
    (D : Doctor) (P : User)
    (hu : (req.authId <|> req.bodyUserId) = some userId)
    (hd : req.docId = some docId) (hdate : req.slotDate ≠ "") (htime : req.slotTime ≠ "")
    (hD : findById Doctor._id s.doctors docId = some D) (hav : D.available = true)
    (hP : findById User._id s.users userId = some P)
    (hfree : req.slotTime ∉ slotsOf s docId req.slotDate) :
    (readsInherited D.slots_booked req.slotDate = false →
      ∃ a : Appointment,
        (bookAppointment s req now).1 = jsonOk "Appointment booked successfully" (some a) ∧
        (bookAppointment s req now).2.appointments = s.appointments ++ [a] ∧
        a.userId = userId ∧ a.docId = docId ∧ a.slotDate = req.slotDate ∧
        a.slotTime = req.slotTime ∧ a.amount = D.fees ∧
        a.cancelled = false ∧ a.payment = false ∧ a.isCompleted = false ∧
        req.slotTime ∈ slotsOf (bookAppointment s req now).2 docId req.slotDate ∧
        slotsOf (bookAppointment s req now).2 docId req.slotDate =
          slotsOf s docId req.slotDate ++ [req.slotTime]) ∧
    (readsInherited D.slots_booked req.slotDate = true →
      (bookAppointment s req now).1.status = 500 ∧
      (bookAppointment s req now).1.success = false ∧
      (bookAppointment s req now).2 = s) := by
  constructor
  · intro hkey
    have heq := bookAppointment_eq_ok s req now userId docId D P hu hd hdate htime hD hav hP
      hfree hkey
    have hfees : numOr D.fees 0 = D.fees := by
      unfold numOr; split <;> simp_all
    have hslots : slotsOf (bookAppointment s req now).2 docId req.slotDate =
        slotsOf s docId req.slotDate ++ [req.slotTime] := by
      rw [heq]
      simp [slotsOf_reserve s docId D req.slotDate req.slotTime hD]
    refine ⟨mkAppointment (freshId s.appointments) userId docId req.slotDate req.slotTime
      now D P, ?_, ?_, rfl, rfl, rfl, rfl, hfees, rfl, rfl, rfl, ?_, hslots⟩
    · rw [heq]
    · rw [heq]
    · rw [hslots]; simp
  · intro hkey
    rw [bookAppointment_eq_throw s req now userId docId D P hu hd hdate htime hD hav hP hkey]
    exact ⟨rfl, rfl, rfl⟩

/-- Witness of C2 (amended): the scenario of the specification, fee 500 and an
empty map, date "2024-06-01" and time "10:00"; and the same request with the
date "constructor". -/
theorem bookAppointment_success_witness :
    ((req1.authId <|> req1.bodyUserId) = some 7 ∧ req1.docId = some 1 ∧
      req1.slotDate ≠ "" ∧ req1.slotTime ≠ "" ∧
      findById Doctor._id store0.doctors 1 = some doc1 ∧ doc1.available = true ∧
      findById User._id store0.users 7 = some pat1 ∧
      req1.slotTime ∉ slotsOf store0 1 req1.slotDate ∧
      readsInherited doc1.slots_booked req1.slotDate = false ∧
      readsInherited doc1.slots_booked reqInherited.slotDate = true) ∧
    (∃ a : Appointment,
      (bookAppointment store0 req1 0).1 =
        jsonOk "Appointment booked successfully" (some a) ∧
      (bookAppointment store0 req1 0).2.appointments = store0.appointments ++ [a] ∧
      a.userId = 7 ∧ a.docId = 1 ∧ a.slotDate = req1.slotDate ∧
      a.slotTime = req1.slotTime ∧ a.amount = doc1.fees ∧
      a.cancelled = false ∧ a.payment = false ∧ a.isCompleted = false ∧
      req1.slotTime ∈ slotsOf (bookAppointment store0 req1 0).2 1 req1.slotDate ∧
      slotsOf (bookAppointment store0 req1 0).2 1 req1.slotDate =
        slotsOf store0 1 req1.slotDate ++ [req1.slotTime]) ∧
    ((bookAppointment store0 reqInherited 0).1.status = 500 ∧
      (bookAppointment store0 reqInherited 0).1.success = false ∧
      (bookAppointment store0 reqInherited 0).2 = store0) ∧
    doc1.fees = 500 ∧
    (bookAppointment store0 req1 0).2.doctors.map Doctor.slots_booked =
      [[("2024-06-01", ["10:00"])]] :=
  ⟨by decide,
    (bookAppointment_success store0 req1 0 7 1 doc1 pat1 (by decide) (by decide)
      (by decide) (by decide) (by decide) (by decide) (by decide) (by decide)).1 (by decide),
    (bookAppointment_success store0 reqInherited 0 7 1 doc1 pat1 (by decide) (by decide)
      (by decide) (by decide) (by decide) (by decide) (by decide) (by decide)).2 (by decide),
    by decide, by decide⟩

/-- C2 as stated fails: in `store0` the doctor is available, the patient exists
and "10:00" is not in `slots_booked["constructor"]`, which has no stored entry;
the booking for the date "constructor" reads the inherited member, is answered
with status 500, and neither reserves the slot nor creates an appointment. -/
theorem bookAppointment_inherited_date_fails :
    findById Doctor._id store0.doctors 1 = some doc1 ∧ doc1.available = true ∧
    findById User._id store0.users 7 = some pat1 ∧
    reqInherited.slotTime ∉ slotsOf store0 1 reqInherited.slotDate ∧
    bookAppointment store0 reqInherited 0 =
      (jsonErr "daySlots.includes is not a function" 500, store0) ∧
    (bookAppointment store0 reqInherited 0).1.success = false ∧
    (bookAppointment store0 reqInherited 0).2.appointments = [] ∧
    slotsOf (bookAppointment store0 reqInherited 0).2 1 reqInherited.slotDate = [] := by
  decide

/-- C10: an authenticated `bookAppointment` lacking `docId`, `slotDate` or
`slotTime` fails with status 400; with the three present it fails with
"Doctor not found." (404) when the doctor record is missing, else with
"Doctor not available." (400) when `available` is false, else with
"User not found." (404) when the patient record is missing; the store is
unchanged in each case. -/
theorem bookAppointment_rejections (s : Store) (req : BookReq) (now userId : Nat)
    (hu : (req.authId <|> req.bodyUserId) = some userId) :
    ((req.docId = none ∨ req.slotDate = "" ∨ req.slotTime = "") →
      (bookAppointment s req now).1.status = 400 ∧
      (bookAppointment s req now).1.success = false ∧
      (bookAppointment s req now).2 = s) ∧
    (∀ docId, req.docId = some docId → req.slotDate ≠ "" → req.slotTime ≠ "" →
      (findById Doctor._id s.doctors docId = none →
        bookAppointment s req now = (jsonErr "Doctor not found." 404, s)) ∧
      (∀ D, findById Doctor._id s.doctors docId = some D → D.available = false →
        bookAppointment s req now = (jsonErr "Doctor not available." 400, s)) ∧
      (∀ D, findById Doctor._id s.doctors docId = some D → D.available = true →
        findById User._id s.users userId = none →
        bookAppointment s req now = (jsonErr "User not found." 404, s))) := by
  refine ⟨?_, ?_⟩
  · intro h
    cases hdoc : req.docId with
    | none => simp [bookAppointment, hu, hdoc, jsonErr]
    | some docId =>
      have h' : req.slotDate = "" ∨ req.slotTime = "" := by
        rcases h with h | h
        · rw [hdoc] at h; cases h
        · exact h
      simp [bookAppointment, hu, hdoc, h', jsonErr]
  · intro docId hd hdate htime
    refine ⟨?_, ?_, ?_⟩
    · intro hD
      simp [bookAppointment, hu, hd, hdate, htime, hD]
    · intro D hD hav
      simp [bookAppointment, hu, hd, hdate, htime, hD, hav]
    · intro D hD hav hP
      simp [bookAppointment, hu, hd, hdate, htime, hD, hav, hP]

/-- Witness of C10: a request without `slotTime`, one for a doctor that does not
exist, one for the unavailable doctor of `storeOff` and one by a patient that
does not exist. -/
theorem bookAppointment_rejections_witness :
    ((reqNoTime.authId <|> reqNoTime.bodyUserId) = some 7 ∧ reqNoTime.slotTime = "" ∧
      (bookAppointment store0 reqNoTime 0).1.status = 400 ∧
      (bookAppointment store0 reqNoTime 0).1.success = false ∧
      (bookAppointment store0 reqNoTime 0).2 = store0) ∧
    (findById Doctor._id store0.doctors 99 = none ∧
      bookAppointment store0 reqNoDoctor 0 = (jsonErr "Doctor not found." 404, store0)) ∧
    (findById Doctor._id storeOff.doctors 1 = some docOff ∧ docOff.available = false ∧
      bookAppointment storeOff req1 0 = (jsonErr "Doctor not available." 400, storeOff)) ∧
    (findById Doctor._id store0.doctors 1 = some doc1 ∧ doc1.available = true ∧
      findById User._id store0.users 8 = none ∧
      bookAppointment store0 reqGhost 0 = (jsonErr "User not found." 404, store0)) :=
  ⟨⟨by decide, by decide,
      (bookAppointment_rejections store0 reqNoTime 0 7 (by decide)).1 (by decide)⟩,
    ⟨by decide,
      ((bookAppointment_rejections store0 reqNoDoctor 0 7 (by decide)).2 99
        (by decide) (by decide) (by decide)).1 (by decide)⟩,
    ⟨by decide, by decide,
      ((bookAppointment_rejections storeOff req1 0 7 (by decide)).2 1
        (by decide) (by decide) (by decide)).2.1 docOff (by decide) (by decide)⟩,
    ⟨by decide, by decide, by decide,
      ((bookAppointment_rejections store0 reqGhost 0 8 (by decide)).2 1
        (by decide) (by decide) (by decide)).2.2 doc1 (by decide) (by decide)
        (by decide)⟩⟩
/-- C4: for an appointment that exists, is owned by the requester, is not yet
cancelled and whose doctor record exists, `cancelAppointment` succeeds, and
afterwards the appointment is cancelled and its time is not in
`slots_booked[slotDate]` of the doctor. -/
theorem cancelAppointment_success (s : Store) (req : CancelReq) (userId id : Nat)
    (A : Appointment) (D : Doctor)
    (hu : (req.authId <|> req.bodyUserId) = some userId)
    (hid : req.appointmentId = some id)
    (hA : findById Appointment._id s.appointments id = some A)
    (hown : A.userId = userId) (hnc : A.cancelled = false)
    (hD : findById Doctor._id s.doctors A.docId = some D) :
    (cancelAppointment s req).1 = jsonOk "Appointment cancelled" none ∧
    findById Appointment._id (cancelAppointment s req).2.appointments id =
      some { A with cancelled := true } ∧
    A.slotTime ∉ slotsOf (cancelAppointment s req).2 A.docId A.slotDate := by
  rw [cancelAppointment_eq_ok s req userId id A D hu hid hA hown hnc hD]
  refine ⟨rfl, ?_, ?_⟩
  · simp [findById_setCancelled, hA]
  · rw [slotsOf_release s A.docId D A.slotDate A.slotTime hD]
    simp

/-- Witness of C4: the patient cancels the appointment of `storeBooked`. -/
theorem cancelAppointment_success_witness :
    (((cancelReq 1).authId <|> (cancelReq 1).bodyUserId) = some 7 ∧
      (cancelReq 1).appointmentId = some 1 ∧
      findById Appointment._id storeBooked.appointments 1 = some apptBooked ∧
      apptBooked.userId = 7 ∧ apptBooked.cancelled = false ∧
      findById Doctor._id storeBooked.doctors apptBooked.docId = some docBooked) ∧
    (cancelAppointment storeBooked (cancelReq 1)).1 = jsonOk "Appointment cancelled" none ∧
    findById Appointment._id (cancelAppointment storeBooked (cancelReq 1)).2.appointments 1 =
      some { apptBooked with cancelled := true } ∧
    apptBooked.slotTime ∉
      slotsOf (cancelAppointment storeBooked (cancelReq 1)).2 apptBooked.docId
        apptBooked.slotDate :=
  ⟨by decide,
    cancelAppointment_success storeBooked (cancelReq 1) 7 1 apptBooked docBooked
      (by decide) (by decide) (by decide) (by decide) (by decide) (by decide)⟩

/-- C5 (amended): `appointmentComplete` on an appointment of the doctor whose
`cancelled` flag is true does not fail: it answers 200 "Appointment marked as
completed" and leaves the appointment with `isCompleted` true and `cancelled`
false, so the `cancelled` flag is changed. -/
theorem appointmentComplete_on_cancelled (s : Store) (req : DoctorReq) (A : Appointment)
    (hA : s.appointments.find? (matchesAppt req) = some A) (hc : A.cancelled = true) :
    (appointmentComplete s req).1 = jsonOk "Appointment marked as completed" none ∧
    ∃ A', (appointmentComplete s req).2.appointments.find? (matchesAppt req) = some A' ∧
      A'._id = A._id ∧ A'.isCompleted = true ∧ A'.cancelled = false ∧
      A'.cancelled ≠ A.cancelled := by
  have heq : appointmentComplete s req =
      (jsonOk "Appointment marked as completed" none,
        Store.mk s.doctors s.users
          (updateFirst (matchesAppt req)
            (fun appt => { appt with isCompleted := true, cancelled := false,
                                     status := some "Completed" }) s.appointments)
          s.orders) := by
    unfold appointmentComplete
    simp only [hA]
  have hf := find?_updateFirst_self (matchesAppt req)
    (fun appt : Appointment => { appt with isCompleted := true, cancelled := false,
                                           status := some "Completed" })
    s.appointments (fun x hx => by simpa [matchesAppt] using hx)
  rw [hA] at hf
  rw [heq]
  exact ⟨rfl, _, hf, rfl, rfl, rfl, by simp [hc]⟩

/-- Witness of C5 (amended): the doctor completes the cancelled appointment of
`storeCancelled`. -/
theorem appointmentComplete_on_cancelled_witness :
    (storeCancelled.appointments.find? (matchesAppt (doctorReq 1)) =
        some { apptBooked with cancelled := true } ∧
      ({ apptBooked with cancelled := true } : Appointment).cancelled = true) ∧
    (appointmentComplete storeCancelled (doctorReq 1)).1 =
      jsonOk "Appointment marked as completed" none ∧
    ∃ A', (appointmentComplete storeCancelled (doctorReq 1)).2.appointments.find?
        (matchesAppt (doctorReq 1)) = some A' ∧
      A'._id = apptBooked._id ∧ A'.isCompleted = true ∧ A'.cancelled = false ∧
      A'.cancelled ≠ ({ apptBooked with cancelled := true } : Appointment).cancelled :=
  ⟨by decide,
    appointmentComplete_on_cancelled storeCancelled (doctorReq 1)
      { apptBooked with cancelled := true } (by decide) (by decide)⟩

/-- C5 as stated fails: on the cancelled appointment of `storeCancelled` the
handler answers 200 with `success: true`, not 409, and both flags change. -/
theorem appointmentComplete_on_cancelled_no_409 :
    (storeCancelled.appointments.map (fun a => (a._id, a.cancelled, a.isCompleted)) =
      [(1, true, false)]) ∧
    (appointmentComplete storeCancelled (doctorReq 1)).1.status = 200 ∧
    (appointmentComplete storeCancelled (doctorReq 1)).1.status ≠ 409 ∧
    (appointmentComplete storeCancelled (doctorReq 1)).1.success = true ∧
    ((appointmentComplete storeCancelled (doctorReq 1)).2.appointments.map
      (fun a => (a._id, a.cancelled, a.isCompleted)) = [(1, false, true)]) := by
  decide

/-- C6 fails on the code: after `book`, the doctor's `appointmentComplete` and
then the patient's `cancelAppointment`, a reachable store holds an appointment
with both `cancelled` and `isCompleted` true. -/
theorem cancel_after_complete_both_flags :
    (run gw0 store0 [Op.book req1 0, Op.doctorComplete (doctorReq 1),
        Op.cancel (cancelReq 1)]).appointments.map
      (fun a => (a._id, a.cancelled, a.isCompleted)) = [(1, true, true)] ∧
    ∃ s, Reachable gw0 s ∧
      ∃ a ∈ s.appointments, a.cancelled = true ∧ a.isCompleted = true :=
  ⟨by decide,
    run gw0 store0 [Op.book req1 0, Op.doctorComplete (doctorReq 1), Op.cancel (cancelReq 1)],
    ⟨store0, _, by decide, rfl⟩, by decide⟩

/-- C9: `cancelAppointment` on an appointment of the requester that is already
cancelled answers success and leaves the whole store unchanged; and for every
store and request, cancelling twice gives the store of cancelling once, the
second answer being "Appointment already cancelled" when the first succeeded. -/
theorem cancelAppointment_idempotent (s : Store) (req : CancelReq) (userId id : Nat)
    (A : Appointment)
    (hu : (req.authId <|> req.bodyUserId) = some userId)
    (hid : req.appointmentId = some id)
    (hA : findById Appointment._id s.appointments id = some A)
    (hown : A.userId = userId) (hc : A.cancelled = true) :
    cancelAppointment s req = (jsonOk "Appointment already cancelled" none, s) ∧
    ∀ (s' : Store) (req' : CancelReq),
      (cancelAppointment (cancelAppointment s' req').2 req').2 =
        (cancelAppointment s' req').2 ∧
      ((cancelAppointment s' req').1.success = true →
        (cancelAppointment (cancelAppointment s' req').2 req').1 =
          jsonOk "Appointment already cancelled" none) := by
  have key : ∀ (t : Store) (r : CancelReq) (u i : Nat) (B : Appointment),
      (r.authId <|> r.bodyUserId) = some u → r.appointmentId = some i →
      findById Appointment._id t.appointments i = some B → B.userId = u →
      B.cancelled = true →
      cancelAppointment t r = (jsonOk "Appointment already cancelled" none, t) := by
    intro t r u i B h1 h2 h3 h4 h5
    simp [cancelAppointment, h1, h2, h3, h4, h5]
  refine ⟨key s req userId id A hu hid hA hown hc, ?_⟩
  intro s' req'
  cases hu' : (req'.authId <|> req'.bodyUserId) with
  | none =>
    have h0 : cancelAppointment s' req' = (jsonErr "Not Authorized" 401, s') := by
      simp [cancelAppointment, hu']
    rw [h0]
    exact ⟨by rw [h0], fun h => by simp [jsonErr] at h⟩
  | some u =>
    cases hid' : req'.appointmentId with
    | none =>
      have h0 : cancelAppointment s' req' = (jsonErr "appointmentId is required." 400, s') := by
        simp [cancelAppointment, hu', hid']
      rw [h0]
      exact ⟨by rw [h0], fun h => by simp [jsonErr] at h⟩
    | some i =>
      cases hB : findById Appointment._id s'.appointments i with
      | none =>
        have h0 : cancelAppointment s' req' = (jsonErr "Appointment not found." 404, s') := by
          simp [cancelAppointment, hu', hid', hB]
        rw [h0]
        exact ⟨by rw [h0], fun h => by simp [jsonErr] at h⟩
      | some B =>
        by_cases hown' : B.userId = u
        · by_cases hc' : B.cancelled = true
          · have h0 := key s' req' u i B hu' hid' hB hown' hc'
            rw [h0]
            exact ⟨by rw [h0], fun _ => by rw [h0]⟩
          · have hnc : B.cancelled = false := by simpa using hc'
            have hB' : ∀ (ds : List Doctor), findById Appointment._id
                (Store.mk ds s'.users
                  (findByIdAndUpdate Appointment._id s'.appointments i
                    (fun a => { a with cancelled := true })) s'.orders).appointments i =
                some { B with cancelled := true } := by
              intro ds
              simp [findById_setCancelled, hB]
            cases hD : findById Doctor._id s'.doctors B.docId with
            | none =>
              have h0 := cancelAppointment_eq_throw s' req' u i B hu' hid' hB hown' hnc hD
              rw [h0]
              have h1 := key _ req' u i _ hu' hid' (hB' s'.doctors) hown' rfl
              exact ⟨by rw [h1], fun _ => by rw [h1]⟩
            | some D =>
              have h0 := cancelAppointment_eq_ok s' req' u i B D hu' hid' hB hown' hnc hD
              rw [h0]
              have h1 := key _ req' u i _ hu' hid'
                (hB' (findByIdAndUpdate Doctor._id s'.doctors B.docId (fun d =>
                  { d with slots_booked := releaseSlot D.slots_booked B.slotDate B.slotTime })))
                hown' rfl
              exact ⟨by rw [h1], fun _ => by rw [h1]⟩
        · have h0 : cancelAppointment s' req' = (jsonErr "Unauthorized action." 403, s') := by
            simp [cancelAppointment, hu', hid', hB, hown']
          rw [h0]
          exact ⟨by rw [h0], fun h => by simp [jsonErr] at h⟩

/-- Witness of C9: a second cancellation of appointment 1 in `storeRebooked`,
where its former slot "10:00" is reserved again by appointment 2. -/
theorem cancelAppointment_idempotent_witness :
    (((cancelReq 1).authId <|> (cancelReq 1).bodyUserId) = some 7 ∧
      (cancelReq 1).appointmentId = some 1 ∧
      findById Appointment._id storeRebooked.appointments 1 =
        some { apptBooked with cancelled := true } ∧
      ({ apptBooked with cancelled := true } : Appointment).userId = 7 ∧
      ({ apptBooked with cancelled := true } : Appointment).cancelled = true) ∧
    "10:00" ∈ slotsOf storeRebooked 1 "2024-06-01" ∧
    cancelAppointment storeRebooked (cancelReq 1) =
      (jsonOk "Appointment already cancelled" none, storeRebooked) ∧
    (cancelAppointment (cancelAppointment storeBooked (cancelReq 1)).2 (cancelReq 1)).2 =
      (cancelAppointment storeBooked (cancelReq 1)).2 :=
  ⟨by decide, by decide,
    (cancelAppointment_idempotent storeRebooked (cancelReq 1) 7 1
      { apptBooked with cancelled := true }
      (by decide) (by decide) (by decide) (by decide) (by decide)).1,
    ((cancelAppointment_idempotent storeRebooked (cancelReq 1) 7 1
      { apptBooked with cancelled := true }
      (by decide) (by decide) (by decide) (by decide) (by decide)).2
        storeBooked (cancelReq 1)).1⟩
/-- C8: if every array `slots_booked[date]` is duplicate-free, it is so after
`bookAppointment` and after `cancelAppointment`; hence in every store reached
from empty slot maps by any sequence of requests, a time occurs in
`slots_booked[date]` at most once. -/
theorem slots_booked_duplicate_free (gw : Gateway) (s : Store) (h : SlotsNodup s) :
    (∀ req now, SlotsNodup (bookAppointment s req now).2) ∧
    (∀ req, SlotsNodup (cancelAppointment s req).2) ∧
    (∀ (s0 : Store) (ops : List Op), (∀ d ∈ s0.doctors, d.slots_booked = []) →
      ∀ d ∈ (run gw s0 ops).doctors, ∀ (date t : String),
        ((slotGet d.slots_booked date).getD []).count t ≤ 1) := by
  refine ⟨fun req now => bookAppointment_slotsNodup s req now h,
    fun req => cancelAppointment_slotsNodup s req h, ?_⟩
  intro s0 ops h0 d hd date t
  have hinit : SlotsNodup s0 := by
    intro d0 hd0 e he
    rw [h0 d0 hd0] at he
    simp at he
  have hn := slotGet_getD_nodup d.slots_booked date (run_slotsNodup gw ops s0 hinit d hd)
  exact List.nodup_iff_count_le_one.mp hn t

/-- Witness of C8: booking "11:00" and cancelling in `storeBooked`, and the
store reached from `store0` by booking "10:00". -/
theorem slots_booked_duplicate_free_witness :
    (SlotsNodup storeBooked ∧ (∀ d ∈ store0.doctors, d.slots_booked = []) ∧
      docBooked ∈ (run gw0 store0 [Op.book req1 0]).doctors) ∧
    SlotsNodup (bookAppointment storeBooked req2 9).2 ∧
    SlotsNodup (cancelAppointment storeBooked (cancelReq 1)).2 ∧
    ((slotGet docBooked.slots_booked "2024-06-01").getD []).count "10:00" ≤ 1 :=
  ⟨by decide,
    (slots_booked_duplicate_free gw0 storeBooked (by decide)).1 req2 9,
    (slots_booked_duplicate_free gw0 storeBooked (by decide)).2.1 (cancelReq 1),
    (slots_booked_duplicate_free gw0 storeBooked (by decide)).2.2 store0 [Op.book req1 0]
      (by decide) docBooked (by decide) "2024-06-01" "10:00"⟩
/-- C3 (amended): in every store reached from an empty ledger and empty slot
maps by a sequence of `bookAppointment`, patient `cancelAppointment`, doctor
`appointmentCancel`, payment verification and `appointmentComplete` applied
only to appointments that are not cancelled, immediately after a successful
`bookAppointment` for (D, date, time) the appointments of the ledger with that
doctor, date and time and `cancelled` false are exactly one, the returned one. -/
theorem book_unique_active (gw : Gateway) (s0 : Store) (ops : List Op)
    (h0 : Initial s0) (hc : completesOnlyActive gw s0 ops = true)
    (req : BookReq) (now : Nat)
    (hok : (bookAppointment (run gw s0 ops) req now).1.success = true) :
    ∃ docId a, req.docId = some docId ∧
      (bookAppointment (run gw s0 ops) req now).1.appointment = some a ∧
      activeFor (bookAppointment (run gw s0 ops) req now).2 docId req.slotDate
        req.slotTime = [a] := by
  have hinv := run_ledgerInv gw ops s0 (initial_ledgerInv s0 h0) hc
  generalize run gw s0 ops = s at hinv hok ⊢
  rcases bookAppointment_cases s req now with
    ⟨_, hf⟩ | ⟨u, docId, D, P, hu, hd, h1, h2, hD, hav, hP, hfree, hkey⟩
  · rw [hf] at hok; cases hok
  · rw [bookAppointment_eq_ok s req now u docId D P hu hd h1 h2 hD hav hP hfree hkey]
    refine ⟨docId, _, hd, rfl, ?_⟩
    have hold : s.appointments.filter (fun a => decide (a.docId = docId ∧
        a.slotDate = req.slotDate ∧ a.slotTime = req.slotTime ∧ a.cancelled = false)) = [] := by
      rw [List.filter_eq_nil_iff]
      intro a ha hp
      simp only [decide_eq_true_eq] at hp
      obtain ⟨e1, e2, e3, e4⟩ := hp
      have := hinv.active_slot a ha e4
      rw [e1, e2, e3] at this
      exact hfree this
    simp only [activeFor, List.filter_append, hold, List.nil_append]
    simp [mkAppointment]

/-- Witness of C3 (amended): "10:00" is booked, cancelled by the patient and
booked again. -/
theorem book_unique_active_witness :
    (Initial store0 ∧
      completesOnlyActive gw0 store0 [Op.book req1 0, Op.cancel (cancelReq 1)] = true ∧
      (bookAppointment (run gw0 store0 [Op.book req1 0, Op.cancel (cancelReq 1)])
        req1 5).1.success = true) ∧
    ∃ docId a, req1.docId = some docId ∧
      (bookAppointment (run gw0 store0 [Op.book req1 0, Op.cancel (cancelReq 1)])
        req1 5).1.appointment = some a ∧
      activeFor (bookAppointment (run gw0 store0 [Op.book req1 0, Op.cancel (cancelReq 1)])
        req1 5).2 docId req1.slotDate req1.slotTime = [a] :=
  ⟨by decide,
    book_unique_active gw0 store0 [Op.book req1 0, Op.cancel (cancelReq 1)]
      (by decide) (by decide) req1 5 (by decide)⟩

/-- C3 as stated fails: after `book`, patient `cancelAppointment` and doctor
`appointmentComplete` of the same appointment (which clears `cancelled` while
the slot stays free), a second `book` of the slot succeeds and the ledger holds
two appointments for it with `cancelled` false. -/
theorem book_after_revival_two_active :
    Initial store0 ∧
    (bookAppointment (run gw0 store0 [Op.book req1 0, Op.cancel (cancelReq 1),
      Op.doctorComplete (doctorReq 1)]) req1 5).1.success = true ∧
    (activeFor (bookAppointment (run gw0 store0 [Op.book req1 0, Op.cancel (cancelReq 1),
      Op.doctorComplete (doctorReq 1)]) req1 5).2 1 "2024-06-01" "10:00").map
        Appointment._id = [1, 2] ∧
    (activeFor (bookAppointment (run gw0 store0 [Op.book req1 0, Op.cancel (cancelReq 1),
      Op.doctorComplete (doctorReq 1)]) req1 5).2 1 "2024-06-01" "10:00").length ≠ 1 := by
  decide

/-- C7 (amended): in every store reached from an empty ledger and empty slot
maps by a sequence of `bookAppointment`, patient `cancelAppointment`, payment
verification and `appointmentComplete` applied only to appointments that are
not cancelled, for every doctor D and date d the times in D.slots_booked[d] are
exactly the `slotTime` values of the appointments with `docId` D, `slotDate` d
and `cancelled` false. -/
theorem slots_match_ledger (gw : Gateway) (s0 : Store) (ops : List Op)
    (h0 : Initial s0) (hc : completesOnlyActive gw s0 ops = true)
    (hn : ops.all notDoctorCancel = true) (docId : Nat) (date t : String) :
    t ∈ slotsOf (run gw s0 ops) docId date ↔
      ∃ a ∈ (run gw s0 ops).appointments,
        a.docId = docId ∧ a.slotDate = date ∧ a.slotTime = t ∧ a.cancelled = false := by
  have hinv := run_ledgerInv gw ops s0 (initial_ledgerInv s0 h0) hc
  have hinit : SlotsBacked s0 := by
    intro d dt x hx
    rw [slotsOf_initial s0 h0] at hx
    cases hx
  have hback := run_slotsBacked gw ops s0 (initial_ledgerInv s0 h0) hinit hc hn
  constructor
  · exact hback docId date t
  · rintro ⟨a, ha, e1, e2, e3, e4⟩
    have := hinv.active_slot a ha e4
    rwa [e1, e2, e3] at this

/-- Witness of C7 (amended): two bookings, one cancelled by the patient, the
other completed and paid. -/
theorem slots_match_ledger_witness :
    (Initial store0 ∧ completesOnlyActive gw0 store0 sampleOps = true ∧
      sampleOps.all notDoctorCancel = true) ∧
    ("11:00" ∈ slotsOf (run gw0 store0 sampleOps) 1 "2024-06-01" ↔
      ∃ a ∈ (run gw0 store0 sampleOps).appointments,
        a.docId = 1 ∧ a.slotDate = "2024-06-01" ∧ a.slotTime = "11:00" ∧
          a.cancelled = false) ∧
    slotsOf (run gw0 store0 sampleOps) 1 "2024-06-01" = ["11:00"] :=
  ⟨by decide,
    slots_match_ledger gw0 store0 sampleOps (by decide) (by decide) (by decide)
      1 "2024-06-01" "11:00",
    by decide⟩

/-- C7 as stated fails: after `book`, patient `cancelAppointment` and doctor
`appointmentComplete` of appointment 1, and `book` then doctor
`appointmentCancel` of appointment 2, "10:00" belongs to an appointment with
`cancelled` false but is not reserved, and "11:00" is reserved but belongs to no
appointment with `cancelled` false. -/
theorem slots_differ_from_ledger :
    Initial store0 ∧
    ¬ ("10:00" ∈ slotsOf (run gw0 store0 driftOps) 1 "2024-06-01" ↔
      ∃ a ∈ (run gw0 store0 driftOps).appointments,
        a.docId = 1 ∧ a.slotDate = "2024-06-01" ∧ a.slotTime = "10:00" ∧
          a.cancelled = false) ∧
    ¬ ("11:00" ∈ slotsOf (run gw0 store0 driftOps) 1 "2024-06-01" ↔
      ∃ a ∈ (run gw0 store0 driftOps).appointments,
        a.docId = 1 ∧ a.slotDate = "2024-06-01" ∧ a.slotTime = "11:00" ∧
          a.cancelled = false) ∧
    slotsOf (run gw0 store0 driftOps) 1 "2024-06-01" = ["11:00"] ∧
    (run gw0 store0 driftOps).appointments.map
      (fun a => (a.docId, a.slotDate, a.slotTime, a.cancelled)) =
      [(1, "2024-06-01", "10:00", false), (1, "2024-06-01", "11:00", true)] := by
  decide

/-- C11: an authenticated `cancelAppointment` for an id that no appointment
carries fails with "Appointment not found." (404), and for an appointment whose
`userId` differs from the requester it fails with "Unauthorized action." (403);
in both cases the store, hence every flag and every `slots_booked`, is
unchanged. -/
theorem cancelAppointment_rejections (s : Store) (req : CancelReq) (userId id : Nat)
    (hu : (req.authId <|> req.bodyUserId) = some userId)
    (hid : req.appointmentId = some id) :
    ((∀ a ∈ s.appointments, a._id ≠ id) →
      cancelAppointment s req = (jsonErr "Appointment not found." 404, s)) ∧
    (∀ A, findById Appointment._id s.appointments id = some A → A.userId ≠ userId →
      cancelAppointment s req = (jsonErr "Unauthorized action." 403, s)) := by
  refine ⟨?_, ?_⟩
  · intro hno
    have hA : findById Appointment._id s.appointments id = none := by
      unfold findById
      rw [List.find?_eq_none]
      intro a ha
      simpa using hno a ha
    simp [cancelAppointment, hu, hid, hA]
  · intro A hA hne
    simp [cancelAppointment, hu, hid, hA, hne]

/-- Witness of C11: in `storeBooked` the patient asks for appointment 5, which
does not exist, and requester 8 asks for appointment 1 of patient 7. -/
theorem cancelAppointment_rejections_witness :
    (((cancelReq 5).authId <|> (cancelReq 5).bodyUserId) = some 7 ∧
      (cancelReq 5).appointmentId = some 5 ∧
      (∀ a ∈ storeBooked.appointments, a._id ≠ 5) ∧
      cancelAppointment storeBooked (cancelReq 5) =
        (jsonErr "Appointment not found." 404, storeBooked)) ∧
    ((cancelReqOther.authId <|> cancelReqOther.bodyUserId) = some 8 ∧
      cancelReqOther.appointmentId = some 1 ∧
      findById Appointment._id storeBooked.appointments 1 = some apptBooked ∧
      apptBooked.userId ≠ 8 ∧
      cancelAppointment storeBooked cancelReqOther =
        (jsonErr "Unauthorized action." 403, storeBooked)) :=
  ⟨⟨by decide, by decide, by decide,
      (cancelAppointment_rejections storeBooked (cancelReq 5) 7 5 (by decide)
        (by decide)).1 (by decide)⟩,
    ⟨by decide, by decide, by decide, by decide,
      (cancelAppointment_rejections storeBooked cancelReqOther 8 1 (by decide)
        (by decide)).2 apptBooked (by decide) (by decide)⟩⟩

/-! ## Release, payment and verification: lemmas -/

theorem slotSet_of_slotGet (m : SlotMap) (k : String) (v : List String)
    (h : slotGet m k = some v) : slotSet m k v = m := by
  induction m with
  | nil => simp [slotGet] at h
  | cons e rest ih =>
    obtain ⟨k0, w⟩ := e
    by_cases hk : k0 = k
    · simp only [slotGet, hk, if_true, Option.some.injEq] at h
      simp [slotSet, hk, h]
    · simp only [slotGet, hk, if_false] at h
      simp [slotSet, hk, ih h]

theorem updateFirst_of_fixed {α : Type} (p : α → Bool) (f : α → α) (l : List α) (a : α)
    (h : l.find? p = some a) (hf : f a = a) : updateFirst p f l = l := by
  induction l with
  | nil => rfl
  | cons x xs ih =>
    by_cases hx : p x = true
    · simp only [List.find?_cons, hx, Option.some.injEq] at h
      subst h
      simp [updateFirst, hx, hf]
    · simp only [List.find?_cons, hx] at h
      simp [updateFirst, hx, ih h]

theorem releaseSlot_absent (m : SlotMap) (date time : String)
    (h : slotGet m date = none ∨ ∃ l, slotGet m date = some l ∧ time ∉ l) :
    releaseSlot m date time = m := by
  unfold releaseSlot
  rcases h with h | ⟨l, h, hl⟩
  · simp [h]
  · have hfil : l.filter (fun t => decide (t ≠ time)) = l := by
      rw [List.filter_eq_self]
      intro t ht
      have : t ≠ time := fun e => hl (e ▸ ht)
      simpa using this
    simp only [h, hfil]
    exact slotSet_of_slotGet m date l h

/-- C13: when `cancelAppointment` releases the slot of an appointment on a
doctor whose `slots_booked` has no entry for `slotDate`, or whose
`slots_booked[slotDate]` does not contain `slotTime`, it answers success and
every doctor record, hence the doctor's `slots_booked`, is unchanged. -/
theorem cancelAppointment_release_absent (s : Store) (req : CancelReq) (userId id : Nat)
    (A : Appointment) (D : Doctor)
    (hu : (req.authId <|> req.bodyUserId) = some userId)
    (hid : req.appointmentId = some id)
    (hA : findById Appointment._id s.appointments id = some A)
    (hown : A.userId = userId) (hnc : A.cancelled = false)
    (hD : findById Doctor._id s.doctors A.docId = some D)
    (habs : slotGet D.slots_booked A.slotDate = none ∨
      ∃ l, slotGet D.slots_booked A.slotDate = some l ∧ A.slotTime ∉ l) :
    (cancelAppointment s req).1 = jsonOk "Appointment cancelled" none ∧
    (cancelAppointment s req).2.doctors = s.doctors ∧
    findById Doctor._id (cancelAppointment s req).2.doctors A.docId = some D := by
  rw [cancelAppointment_eq_ok s req userId id A D hu hid hA hown hnc hD]
  have hrel := releaseSlot_absent D.slots_booked A.slotDate A.slotTime habs
  have hdocs : findByIdAndUpdate Doctor._id s.doctors A.docId
      (fun d => { d with slots_booked := releaseSlot D.slots_booked A.slotDate A.slotTime }) =
      s.doctors := by
    unfold findByIdAndUpdate
    apply updateFirst_of_fixed _ _ _ D hD
    rw [hrel]
  refine ⟨rfl, hdocs, ?_⟩
  show findById Doctor._id (findByIdAndUpdate Doctor._id s.doctors A.docId _) A.docId = some D
  rw [hdocs]; exact hD

/-- Witness of C13: in `storeRevived` the date has an entry without "10:00"; in
`storeNoSlot` the date has no entry. -/
theorem cancelAppointment_release_absent_witness :
    (((cancelReq 1).authId <|> (cancelReq 1).bodyUserId) = some 7 ∧
      (cancelReq 1).appointmentId = some 1 ∧
      findById Appointment._id storeRevived.appointments 1 = some apptRevived ∧
      apptRevived.userId = 7 ∧ apptRevived.cancelled = false ∧
      findById Doctor._id storeRevived.doctors apptRevived.docId = some docReleased ∧
      slotGet docReleased.slots_booked apptRevived.slotDate = some [] ∧
      apptRevived.slotTime ∉ ([] : List String)) ∧
    ((cancelAppointment storeRevived (cancelReq 1)).1 = jsonOk "Appointment cancelled" none ∧
      (cancelAppointment storeRevived (cancelReq 1)).2.doctors = storeRevived.doctors ∧
      findById Doctor._id (cancelAppointment storeRevived (cancelReq 1)).2.doctors
        apptRevived.docId = some docReleased) ∧
    (findById Appointment._id storeNoSlot.appointments 1 = some apptBooked ∧
      findById Doctor._id storeNoSlot.doctors apptBooked.docId = some doc1 ∧
      slotGet doc1.slots_booked apptBooked.slotDate = none) ∧
    ((cancelAppointment storeNoSlot (cancelReq 1)).1 = jsonOk "Appointment cancelled" none ∧
      (cancelAppointment storeNoSlot (cancelReq 1)).2.doctors = storeNoSlot.doctors ∧
      findById Doctor._id (cancelAppointment storeNoSlot (cancelReq 1)).2.doctors
        apptBooked.docId = some doc1) :=
  ⟨by decide,
    cancelAppointment_release_absent storeRevived (cancelReq 1) 7 1 apptRevived docReleased
      (by decide) (by decide) (by decide) (by decide) (by decide) (by decide)
      (Or.inr ⟨[], by decide, by decide⟩),
    by decide,
    cancelAppointment_release_absent storeNoSlot (cancelReq 1) 7 1 apptBooked doc1
      (by decide) (by decide) (by decide) (by decide) (by decide) (by decide)
      (Or.inl (by decide))⟩

theorem findById_append_new {α : Type} (key : α → Nat) (l : List α) (x : α)
    (hnew : ∀ a ∈ l, key a ≠ key x) : findById key (l ++ [x]) (key x) = some x := by
  unfold findById
  rw [List.find?_append]
  have hnone : l.find? (fun y => decide (key y = key x)) = none := by
    rw [List.find?_eq_none]
    intro a ha
    simpa using hnew a ha
  simp [hnone]

/-- C12: for a doctor that is available and a time not in
`slots_booked[date]`, `bookAppointment` followed by `cancelAppointment` of the
returned appointment by the same patient gives a slot map in which
`slots_booked[date]` is the list it was before the booking (the empty list when
the date had no entry) and the entry of every other date is unchanged, and the
appointment has `cancelled` true. -/
theorem book_then_cancel (s : Store) (req : BookReq) (now userId docId : Nat)
    (D : Doctor) (P : User) (creq : CancelReq) (a : Appointment)
    (hu : (req.authId <|> req.bodyUserId) = some userId)
    (hd : req.docId = some docId) (hdate : req.slotDate ≠ "") (htime : req.slotTime ≠ "")
    (hD : findById Doctor._id s.doctors docId = some D) (hav : D.available = true)
    (hP : findById User._id s.users userId = some P)
    (hfree : req.slotTime ∉ slotsOf s docId req.slotDate)
    (ha : (bookAppointment s req now).1.appointment = some a)
    (hcu : (creq.authId <|> creq.bodyUserId) = some userId)
    (hcid : creq.appointmentId = some a._id) :
    (cancelAppointment (bookAppointment s req now).2 creq).1 =
      jsonOk "Appointment cancelled" none ∧
    (∃ D2, findById Doctor._id
        (cancelAppointment (bookAppointment s req now).2 creq).2.doctors docId = some D2 ∧
      slotGet D2.slots_booked req.slotDate =
        some ((slotGet D.slots_booked req.slotDate).getD []) ∧
      ∀ date, date ≠ req.slotDate →
        slotGet D2.slots_booked date = slotGet D.slots_booked date) ∧
    findById Appointment._id
      (cancelAppointment (bookAppointment s req now).2 creq).2.appointments a._id =
        some { a with cancelled := true } := by
  have hkey : readsInherited D.slots_booked req.slotDate = false := by
    cases hk : readsInherited D.slots_booked req.slotDate with
    | false => rfl
    | true =>
      rw [bookAppointment_eq_throw s req now userId docId D P hu hd hdate htime hD hav hP hk] at ha
      simp [jsonErr] at ha
  have heq := bookAppointment_eq_ok s req now userId docId D P hu hd hdate htime hD hav hP hfree
    hkey
  rw [heq] at ha
  simp only [jsonOk, Option.some.injEq] at ha
  subst ha
  rw [heq]
  have hfree' : req.slotTime ∉ (slotGet D.slots_booked req.slotDate).getD [] := by
    simpa [slotsOf, hD] using hfree
  have hA1 : findById Appointment._id
      (s.appointments ++ [mkAppointment (freshId s.appointments) userId docId
        req.slotDate req.slotTime now D P])
      (mkAppointment (freshId s.appointments) userId docId req.slotDate req.slotTime
        now D P)._id =
      some (mkAppointment (freshId s.appointments) userId docId req.slotDate req.slotTime
        now D P) := by
    apply findById_append_new
    intro x hx
    have := lt_freshId s.appointments x hx
    simp only [mkAppointment]
    omega
  have hD1 : findById Doctor._id
      (findByIdAndUpdate Doctor._id s.doctors docId (fun d =>
        { d with slots_booked := reserveSlot D.slots_booked req.slotDate req.slotTime }))
      docId =
      some { D with slots_booked := reserveSlot D.slots_booked req.slotDate req.slotTime } := by
    simp [findById_setSlots, hD]
  rw [cancelAppointment_eq_ok _ creq userId _ _ _ hcu hcid hA1 rfl rfl hD1]
  obtain ⟨m2, hm2⟩ : ∃ m2, m2 = releaseSlot
      (reserveSlot D.slots_booked req.slotDate req.slotTime) req.slotDate req.slotTime :=
    ⟨_, rfl⟩
  have hget : slotGet m2 req.slotDate = some ((slotGet D.slots_booked req.slotDate).getD []) := by
    rw [hm2]
    simp only [releaseSlot, reserveSlot, slotGet_slotSet_same]
    have h1 : ((slotGet D.slots_booked req.slotDate).getD []).filter
        (fun t => decide (t ≠ req.slotTime)) =
        (slotGet D.slots_booked req.slotDate).getD [] := by
      rw [List.filter_eq_self]
      intro t ht
      have : t ≠ req.slotTime := fun e => hfree' (e ▸ ht)
      simpa using this
    have hfil : ((slotGet D.slots_booked req.slotDate).getD [] ++ [req.slotTime]).filter
        (fun t => decide (t ≠ req.slotTime)) =
        (slotGet D.slots_booked req.slotDate).getD [] := by
      rw [List.filter_append, h1]
      simp
    rw [hfil]
  have hother : ∀ date, date ≠ req.slotDate →
      slotGet m2 date = slotGet D.slots_booked date := by
    intro date hne
    rw [hm2]
    simp only [releaseSlot, reserveSlot, slotGet_slotSet_same]
    rw [slotGet_slotSet_ne _ _ _ _ hne, slotGet_slotSet_ne _ _ _ _ hne]
  refine ⟨rfl, ⟨{ D with slots_booked := m2 }, ?_, hget, hother⟩, ?_⟩
  · show findById Doctor._id (findByIdAndUpdate Doctor._id
        (findByIdAndUpdate Doctor._id s.doctors docId _) docId _) docId = _
    rw [findById_setSlots, if_pos rfl, hD1, hm2]
    rfl
  · simp [findById_setCancelled, hA1]

/-- Witness of C12: the scenario of the specification, where the cancellation
leaves the map `{"2024-06-01": []}`. -/
theorem book_then_cancel_witness :
    ((req1.authId <|> req1.bodyUserId) = some 7 ∧ req1.docId = some 1 ∧
      req1.slotDate ≠ "" ∧ req1.slotTime ≠ "" ∧
      findById Doctor._id store0.doctors 1 = some doc1 ∧ doc1.available = true ∧
      findById User._id store0.users 7 = some pat1 ∧
      req1.slotTime ∉ slotsOf store0 1 req1.slotDate ∧
      (bookAppointment store0 req1 0).1.appointment = some apptBooked ∧
      ((cancelReq 1).authId <|> (cancelReq 1).bodyUserId) = some 7 ∧
      (cancelReq 1).appointmentId = some apptBooked._id) ∧
    ((cancelAppointment (bookAppointment store0 req1 0).2 (cancelReq 1)).1 =
        jsonOk "Appointment cancelled" none ∧
      (∃ D2, findById Doctor._id
          (cancelAppointment (bookAppointment store0 req1 0).2 (cancelReq 1)).2.doctors 1 =
            some D2 ∧
        slotGet D2.slots_booked req1.slotDate =
          some ((slotGet doc1.slots_booked req1.slotDate).getD []) ∧
        ∀ date, date ≠ req1.slotDate →
          slotGet D2.slots_booked date = slotGet doc1.slots_booked date) ∧
      findById Appointment._id
        (cancelAppointment (bookAppointment store0 req1 0).2 (cancelReq 1)).2.appointments
          apptBooked._id = some { apptBooked with cancelled := true }) ∧
    (cancelAppointment (bookAppointment store0 req1 0).2 (cancelReq 1)).2.doctors.map
      Doctor.slots_booked = [[("2024-06-01", [])]] :=
  ⟨by decide,
    book_then_cancel store0 req1 0 7 1 doc1 pat1 (cancelReq 1) apptBooked
      (by decide) (by decide) (by decide) (by decide) (by decide) (by decide) (by decide)
      (by decide) (by decide) (by decide) (by decide),
    by decide⟩

/-- C14: for a Razorpay verify payload with its three fields present whose
`razorpay_signature` differs from the hex HMAC-SHA256 of
"order_id|payment_id" under the secret, `verifyRazorpay` fails with status 400,
makes no `orders.fetch` call (its answer is the same whatever the provider
holds) and leaves the store, hence every `payment` flag, unchanged. -/
theorem verifyRazorpay_bad_signature (gw : Gateway) (s : Store) (req : RazorpayVerifyReq)
    (h1 : req.razorpay_order_id ≠ "") (h2 : req.razorpay_payment_id ≠ "")
    (h3 : req.razorpay_signature ≠ "")
    (hsig : req.razorpay_signature ≠ gw.hmacSha256Hex gw.RAZORPAY_KEY_SECRET
      (req.razorpay_order_id ++ "|" ++ req.razorpay_payment_id)) :
    verifyRazorpay gw s req = (jsonErr "Payment verification failed." 400, s) ∧
    verifyRazorpayFetch gw req = none ∧
    (∀ orders : List Order,
      (verifyRazorpay gw (Store.mk s.doctors s.users s.appointments orders) req).1 =
        jsonErr "Payment verification failed." 400) ∧
    (verifyRazorpay gw s req).2.appointments.map Appointment.payment =
      s.appointments.map Appointment.payment := by
  have hne : ¬ gw.hmacSha256Hex gw.RAZORPAY_KEY_SECRET
      (req.razorpay_order_id ++ "|" ++ req.razorpay_payment_id) = req.razorpay_signature :=
    fun e => hsig e.symm
  have key : ∀ t : Store,
      verifyRazorpay gw t req = (jsonErr "Payment verification failed." 400, t) := by
    intro t
    simp [verifyRazorpay, h1, h2, h3, hne]
  refine ⟨key s, ?_, ?_, ?_⟩
  · simp [verifyRazorpayFetch, h1, h2, h3, hne]
  · intro orders
    rw [key]
  · rw [key]

/-- Witness of C14: the forged signature on `order1`, which the provider does
hold, for an appointment that is not paid. -/
theorem verifyRazorpay_bad_signature_witness :
    (rzReqForged.razorpay_order_id ≠ "" ∧ rzReqForged.razorpay_payment_id ≠ "" ∧
      rzReqForged.razorpay_signature ≠ "" ∧
      rzReqForged.razorpay_signature ≠ gw0.hmacSha256Hex gw0.RAZORPAY_KEY_SECRET
        (rzReqForged.razorpay_order_id ++ "|" ++ rzReqForged.razorpay_payment_id)) ∧
    (verifyRazorpay gw0 storeOrdered rzReqForged =
        (jsonErr "Payment verification failed." 400, storeOrdered) ∧
      verifyRazorpayFetch gw0 rzReqForged = none ∧
      (∀ orders : List Order,
        (verifyRazorpay gw0 (Store.mk storeOrdered.doctors storeOrdered.users
          storeOrdered.appointments orders) rzReqForged).1 =
          jsonErr "Payment verification failed." 400) ∧
      (verifyRazorpay gw0 storeOrdered rzReqForged).2.appointments.map
          Appointment.payment = storeOrdered.appointments.map Appointment.payment) ∧
    storeOrdered.appointments.map Appointment.payment = [false] ∧
    (verifyRazorpay gw0 storeOrdered rzReq).2.appointments.map Appointment.payment =
      [true] :=
  ⟨by decide,
    verifyRazorpay_bad_signature gw0 storeOrdered rzReqForged (by decide) (by decide)
      (by decide) (by decide),
    by decide, by decide⟩

theorem findById_setPayment (l : List Appointment) (id id' : Nat) :
    findById Appointment._id
      (findByIdAndUpdate Appointment._id l id (fun a => { a with payment := true })) id' =
    if id' = id then (findById Appointment._id l id).map (fun a => { a with payment := true })
    else findById Appointment._id l id' :=
  findById_findByIdAndUpdate Appointment._id l id id' _ (fun _ => rfl)

/-- The path of `verifyStripe` that writes `payment`, as an equation. -/
theorem verifyStripe_eq_ok (s : Store) (req : StripeVerifyReq) (id : Nat)
    (hid : req.appointmentId = some id) (hs : req.success.toJsString = "true") :
    verifyStripe s req =
      (jsonOk "Payment successful" none,
        Store.mk s.doctors s.users
          (findByIdAndUpdate Appointment._id s.appointments id
            (fun a => { a with payment := true }))
          s.orders) := by
  unfold verifyStripe
  simp only [hid, hs, if_true]

/-- The path of `verifyRazorpay` that writes `payment`, as an equation. -/
theorem verifyRazorpay_eq_ok (gw : Gateway) (s : Store) (req : RazorpayVerifyReq)
    (o : Order) (id : Nat)
    (h1 : req.razorpay_order_id ≠ "") (h2 : req.razorpay_payment_id ≠ "")
    (h3 : req.razorpay_signature ≠ "")
    (hsig : gw.hmacSha256Hex gw.RAZORPAY_KEY_SECRET
      (req.razorpay_order_id ++ "|" ++ req.razorpay_payment_id) = req.razorpay_signature)
    (ho : s.orders.find? (fun o => decide (o.id = req.razorpay_order_id)) = some o)
    (hr : o.receipt = some id) :
    verifyRazorpay gw s req =
      (jsonOk "Payment successful" none,
        Store.mk s.doctors s.users
          (findByIdAndUpdate Appointment._id s.appointments id
            (fun a => { a with payment := true }))
          s.orders) := by
  unfold verifyRazorpay
  simp only [h1, h2, h3, hsig, ho, hr, or_self, if_false, ne_eq, not_true_eq_false]

/-- C15 (amended): for an appointment with `cancelled` true, `verifyStripe`
with `success` "true" and `verifyRazorpay` with a valid signature for an order
whose receipt is that appointment are not rejected: they answer
"Payment successful" and leave the appointment with `payment` true, still
cancelled. -/
theorem verify_on_cancelled (gw : Gateway) (s : Store) (id : Nat) (A : Appointment)
    (hA : findById Appointment._id s.appointments id = some A)
    (hc : A.cancelled = true) :
    (∀ req : StripeVerifyReq, req.appointmentId = some id →
      req.success.toJsString = "true" →
      (verifyStripe s req).1 = jsonOk "Payment successful" none ∧
      ∃ A', findById Appointment._id (verifyStripe s req).2.appointments id = some A' ∧
        A'.payment = true ∧ A'.cancelled = true) ∧
    (∀ (req : RazorpayVerifyReq) (o : Order), req.razorpay_order_id ≠ "" →
      req.razorpay_payment_id ≠ "" → req.razorpay_signature ≠ "" →
      gw.hmacSha256Hex gw.RAZORPAY_KEY_SECRET
        (req.razorpay_order_id ++ "|" ++ req.razorpay_payment_id) =
          req.razorpay_signature →
      s.orders.find? (fun o => decide (o.id = req.razorpay_order_id)) = some o →
      o.receipt = some id →
      (verifyRazorpay gw s req).1 = jsonOk "Payment successful" none ∧
      ∃ A', findById Appointment._id (verifyRazorpay gw s req).2.appointments id = some A' ∧
        A'.payment = true ∧ A'.cancelled = true) := by
  have hfind : findById Appointment._id
      (findByIdAndUpdate Appointment._id s.appointments id
        (fun a => { a with payment := true })) id = some { A with payment := true } := by
    simp [findById_setPayment, hA]
  refine ⟨?_, ?_⟩
  · intro req hid hs
    rw [verifyStripe_eq_ok s req id hid hs]
    exact ⟨rfl, _, hfind, rfl, hc⟩
  · intro req o h1 h2 h3 hsig ho hr
    rw [verifyRazorpay_eq_ok gw s req o id h1 h2 h3 hsig ho hr]
    exact ⟨rfl, _, hfind, rfl, hc⟩

/-- Witness of C15 (amended): both verifications of the cancelled appointment of
`storeCancelledOrdered`. -/
theorem verify_on_cancelled_witness :
    (findById Appointment._id storeCancelledOrdered.appointments 1 = some apptCancelled ∧
      apptCancelled.cancelled = true ∧
      (stripeReq 1).appointmentId = some 1 ∧ (stripeReq 1).success.toJsString = "true" ∧
      rzReq.razorpay_order_id ≠ "" ∧ rzReq.razorpay_payment_id ≠ "" ∧
      rzReq.razorpay_signature ≠ "" ∧
      gw0.hmacSha256Hex gw0.RAZORPAY_KEY_SECRET
        (rzReq.razorpay_order_id ++ "|" ++ rzReq.razorpay_payment_id) =
          rzReq.razorpay_signature ∧
      storeCancelledOrdered.orders.find?
        (fun o => decide (o.id = rzReq.razorpay_order_id)) = some order1 ∧
      order1.receipt = some 1) ∧
    ((verifyStripe storeCancelledOrdered (stripeReq 1)).1 =
        jsonOk "Payment successful" none ∧
      ∃ A', findById Appointment._id
          (verifyStripe storeCancelledOrdered (stripeReq 1)).2.appointments 1 = some A' ∧
        A'.payment = true ∧ A'.cancelled = true) ∧
    ((verifyRazorpay gw0 storeCancelledOrdered rzReq).1 =
        jsonOk "Payment successful" none ∧
      ∃ A', findById Appointment._id
          (verifyRazorpay gw0 storeCancelledOrdered rzReq).2.appointments 1 = some A' ∧
        A'.payment = true ∧ A'.cancelled = true) :=
  ⟨by decide,
    (verify_on_cancelled gw0 storeCancelledOrdered 1 apptCancelled (by decide)
      (by decide)).1 (stripeReq 1) (by decide) (by decide),
    (verify_on_cancelled gw0 storeCancelledOrdered 1 apptCancelled (by decide)
      (by decide)).2 rzReq order1 (by decide) (by decide) (by decide) (by decide)
      (by decide) (by decide)⟩

/-- C15 as stated fails: the appointment of `storeCancelledOrdered` is cancelled
and not paid, and both verifications answer success with status 200 and set
`payment` to true. -/
theorem verify_on_cancelled_not_rejected :
    storeCancelledOrdered.appointments.map (fun a => (a._id, a.cancelled, a.payment)) =
      [(1, true, false)] ∧
    (verifyStripe storeCancelledOrdered (stripeReq 1)).1.success = true ∧
    (verifyStripe storeCancelledOrdered (stripeReq 1)).1.status = 200 ∧
    (verifyStripe storeCancelledOrdered (stripeReq 1)).2.appointments.map
      (fun a => (a._id, a.cancelled, a.payment)) = [(1, true, true)] ∧
    (verifyRazorpay gw0 storeCancelledOrdered rzReq).1.success = true ∧
    (verifyRazorpay gw0 storeCancelledOrdered rzReq).1.status = 200 ∧
    (verifyRazorpay gw0 storeCancelledOrdered rzReq).2.appointments.map
      (fun a => (a._id, a.cancelled, a.payment)) = [(1, true, true)] := by
  decide

theorem updateFirst_idem {α : Type} (p : α → Bool) (f : α → α) (l : List α)
    (hp : ∀ x, p (f x) = p x) (hf : ∀ x, f (f x) = f x) :
    updateFirst p f (updateFirst p f l) = updateFirst p f l := by
  induction l with
  | nil => rfl
  | cons x xs ih =>
    by_cases hx : p x = true
    · have hfx : p (f x) = true := by rw [hp]; exact hx
      simp [updateFirst, hx, hfx, hf]
    · simp [updateFirst, hx, ih]

theorem setPayment_idem (l : List Appointment) (id : Nat) :
    findByIdAndUpdate Appointment._id
      (findByIdAndUpdate Appointment._id l id (fun a => { a with payment := true })) id
      (fun a => { a with payment := true }) =
    findByIdAndUpdate Appointment._id l id (fun a => { a with payment := true }) := by
  unfold findByIdAndUpdate
  exact updateFirst_idem _ _ l (fun _ => rfl) (fun _ => rfl)

theorem setPayment_of_none (l : List Appointment) (id : Nat)
    (hno : ∀ a ∈ l, a._id ≠ id) :
    findByIdAndUpdate Appointment._id l id (fun a => { a with payment := true }) = l := by
  unfold findByIdAndUpdate
  apply updateFirst_of_find?_none
  rw [List.find?_eq_none]
  intro a ha
  simpa using hno a ha

theorem setPayment_of_paid (l : List Appointment) (id : Nat) (A : Appointment)
    (hA : findById Appointment._id l id = some A) (hp : A.payment = true) :
    findByIdAndUpdate Appointment._id l id (fun a => { a with payment := true }) = l := by
  unfold findByIdAndUpdate
  apply updateFirst_of_fixed _ _ _ A hA
  cases A
  simp only at hp
  simp [hp]

/-- C20 (amended): for an id that matches no appointment of the ledger,
`verifyStripe` with `success` "true" and `verifyRazorpay` with a valid signature
for an order whose receipt is that id do not fail: they answer
"Payment successful" with status 200 and leave the store unchanged. -/
theorem verify_unknown_appointment (gw : Gateway) (s : Store) (id : Nat)
    (hno : ∀ a ∈ s.appointments, a._id ≠ id) :
    (∀ req : StripeVerifyReq, req.appointmentId = some id →
      req.success.toJsString = "true" →
      verifyStripe s req = (jsonOk "Payment successful" none, s)) ∧
    (∀ (req : RazorpayVerifyReq) (o : Order), req.razorpay_order_id ≠ "" →
      req.razorpay_payment_id ≠ "" → req.razorpay_signature ≠ "" →
      gw.hmacSha256Hex gw.RAZORPAY_KEY_SECRET
        (req.razorpay_order_id ++ "|" ++ req.razorpay_payment_id) =
          req.razorpay_signature →
      s.orders.find? (fun o => decide (o.id = req.razorpay_order_id)) = some o →
      o.receipt = some id →
      verifyRazorpay gw s req = (jsonOk "Payment successful" none, s)) := by
  have hsame := setPayment_of_none s.appointments id hno
  refine ⟨?_, ?_⟩
  · intro req hid hs
    rw [verifyStripe_eq_ok s req id hid hs, hsame]
  · intro req o h1 h2 h3 hsig ho hr
    rw [verifyRazorpay_eq_ok gw s req o id h1 h2 h3 hsig ho hr, hsame]

/-- Witness of C20 (amended): appointment 1 does not exist in `storeOrphanOrder`,
whose provider holds an order with receipt 1. -/
theorem verify_unknown_appointment_witness :
    ((∀ a ∈ storeOrphanOrder.appointments, a._id ≠ 1) ∧
      (stripeReq 1).appointmentId = some 1 ∧ (stripeReq 1).success.toJsString = "true" ∧
      rzReq.razorpay_order_id ≠ "" ∧ rzReq.razorpay_payment_id ≠ "" ∧
      rzReq.razorpay_signature ≠ "" ∧
      gw0.hmacSha256Hex gw0.RAZORPAY_KEY_SECRET
        (rzReq.razorpay_order_id ++ "|" ++ rzReq.razorpay_payment_id) =
          rzReq.razorpay_signature ∧
      storeOrphanOrder.orders.find?
        (fun o => decide (o.id = rzReq.razorpay_order_id)) = some order1 ∧
      order1.receipt = some 1) ∧
    verifyStripe storeOrphanOrder (stripeReq 1) =
      (jsonOk "Payment successful" none, storeOrphanOrder) ∧
    verifyRazorpay gw0 storeOrphanOrder rzReq =
      (jsonOk "Payment successful" none, storeOrphanOrder) :=
  ⟨by decide,
    (verify_unknown_appointment gw0 storeOrphanOrder 1 (by decide)).1 (stripeReq 1)
      (by decide) (by decide),
    (verify_unknown_appointment gw0 storeOrphanOrder 1 (by decide)).2 rzReq order1
      (by decide) (by decide) (by decide) (by decide) (by decide) (by decide)⟩

/-- C20 as stated fails: the ledger of `storeOrphanOrder` is empty, and both
verifications of appointment 1 answer `success: true` with status 200, not a
404. -/
theorem verify_unknown_appointment_succeeds :
    storeOrphanOrder.appointments = [] ∧
    (verifyStripe storeOrphanOrder (stripeReq 1)).1.success = true ∧
    (verifyStripe storeOrphanOrder (stripeReq 1)).1.status = 200 ∧
    (verifyRazorpay gw0 storeOrphanOrder rzReq).1.success = true ∧
    (verifyRazorpay gw0 storeOrphanOrder rzReq).1.status = 200 := by
  decide

/-- C19: for an appointment whose `payment` is already true, `verifyStripe`
with `success` "true" and `verifyRazorpay` with a valid signature answer
success and leave the whole store unchanged; and for every store and request,
verifying twice gives the answer and the store of verifying once. -/
theorem verify_idempotent (gw : Gateway) (s : Store) (id : Nat) (A : Appointment)
    (hA : findById Appointment._id s.appointments id = some A)
    (hp : A.payment = true) :
    (∀ req : StripeVerifyReq, req.appointmentId = some id →
      req.success.toJsString = "true" →
      verifyStripe s req = (jsonOk "Payment successful" none, s)) ∧
    (∀ (req : RazorpayVerifyReq) (o : Order), req.razorpay_order_id ≠ "" →
      req.razorpay_payment_id ≠ "" → req.razorpay_signature ≠ "" →
      gw.hmacSha256Hex gw.RAZORPAY_KEY_SECRET
        (req.razorpay_order_id ++ "|" ++ req.razorpay_payment_id) =
          req.razorpay_signature →
      s.orders.find? (fun o => decide (o.id = req.razorpay_order_id)) = some o →
      o.receipt = some id →
      verifyRazorpay gw s req = (jsonOk "Payment successful" none, s)) ∧
    (∀ (t : Store) (req : StripeVerifyReq),
      verifyStripe (verifyStripe t req).2 req = verifyStripe t req) ∧
    (∀ (t : Store) (req : RazorpayVerifyReq),
      verifyRazorpay gw (verifyRazorpay gw t req).2 req = verifyRazorpay gw t req) := by
  have hsame := setPayment_of_paid s.appointments id A hA hp
  refine ⟨?_, ?_, ?_, ?_⟩
  · intro req hid hs
    rw [verifyStripe_eq_ok s req id hid hs, hsame]
  · intro req o h1 h2 h3 hsig ho hr
    rw [verifyRazorpay_eq_ok gw s req o id h1 h2 h3 hsig ho hr, hsame]
  · intro t req
    cases hid : req.appointmentId with
    | none =>
      have h0 : ∀ u : Store, verifyStripe u req =
          (jsonErr "appointmentId is required." 400, u) := by
        intro u; simp [verifyStripe, hid]
      rw [h0 t, h0]
    | some i =>
      by_cases hs : req.success.toJsString = "true"
      · rw [verifyStripe_eq_ok t req i hid hs, verifyStripe_eq_ok _ req i hid hs]
        simp only [setPayment_idem]
      · have h0 : ∀ u : Store, verifyStripe u req = (jsonErr "Payment failed." 400, u) := by
          intro u; simp [verifyStripe, hid, hs]
        rw [h0 t, h0]
  · intro t req
    by_cases hf : req.razorpay_order_id = "" ∨ req.razorpay_payment_id = "" ∨
        req.razorpay_signature = ""
    · have h0 : ∀ u : Store, verifyRazorpay gw u req =
          (jsonErr "Missing Razorpay verification details." 400, u) := by
        intro u; simp [verifyRazorpay, hf]
      rw [h0 t, h0]
    · by_cases hsig : gw.hmacSha256Hex gw.RAZORPAY_KEY_SECRET
          (req.razorpay_order_id ++ "|" ++ req.razorpay_payment_id) = req.razorpay_signature
      · cases ho : t.orders.find? (fun o => decide (o.id = req.razorpay_order_id)) with
        | none =>
          have h0 : verifyRazorpay gw t req =
              (jsonErr "Failed to verify Razorpay payment." 500, t) := by
            simp [verifyRazorpay, hf, hsig, ho]
          rw [h0]
          exact h0
        | some o =>
          cases hr : o.receipt with
          | none =>
            have h0 : verifyRazorpay gw t req =
                (jsonErr "Order receipt not found." 400, t) := by
              simp [verifyRazorpay, hf, hsig, ho, hr]
            rw [h0]
            exact h0
          | some i =>
            push_neg at hf
            rw [verifyRazorpay_eq_ok gw t req o i hf.1 hf.2.1 hf.2.2 hsig ho hr]
            have h2 := verifyRazorpay_eq_ok gw
              (Store.mk t.doctors t.users
                (findByIdAndUpdate Appointment._id t.appointments i
                  (fun a => { a with payment := true })) t.orders)
              req o i hf.1 hf.2.1 hf.2.2 hsig ho hr
            simp only [setPayment_idem] at h2
            exact h2
      · have h0 : ∀ u : Store, verifyRazorpay gw u req =
            (jsonErr "Payment verification failed." 400, u) := by
          intro u; simp [verifyRazorpay, hf, hsig]
        rw [h0 t, h0]

/-- Witness of C19: the paid appointment of `storePaid` is verified again with
either provider. -/
theorem verify_idempotent_witness :
    (findById Appointment._id storePaid.appointments 1 = some apptPaid ∧
      apptPaid.payment = true ∧
      (stripeReq 1).appointmentId = some 1 ∧ (stripeReq 1).success.toJsString = "true" ∧
      rzReq.razorpay_order_id ≠ "" ∧ rzReq.razorpay_payment_id ≠ "" ∧
      rzReq.razorpay_signature ≠ "" ∧
      gw0.hmacSha256Hex gw0.RAZORPAY_KEY_SECRET
        (rzReq.razorpay_order_id ++ "|" ++ rzReq.razorpay_payment_id) =
          rzReq.razorpay_signature ∧
      storePaid.orders.find? (fun o => decide (o.id = rzReq.razorpay_order_id)) =
        some order1 ∧
      order1.receipt = some 1) ∧
    verifyStripe storePaid (stripeReq 1) = (jsonOk "Payment successful" none, storePaid) ∧
    verifyRazorpay gw0 storePaid rzReq = (jsonOk "Payment successful" none, storePaid) ∧
    verifyStripe (verifyStripe storeOrdered (stripeReq 1)).2 (stripeReq 1) =
      verifyStripe storeOrdered (stripeReq 1) ∧
    verifyRazorpay gw0 (verifyRazorpay gw0 storeOrdered rzReq).2 rzReq =
      verifyRazorpay gw0 storeOrdered rzReq :=
  ⟨by decide,
    (verify_idempotent gw0 storePaid 1 apptPaid (by decide) (by decide)).1 (stripeReq 1)
      (by decide) (by decide),
    (verify_idempotent gw0 storePaid 1 apptPaid (by decide) (by decide)).2.1 rzReq order1
      (by decide) (by decide) (by decide) (by decide) (by decide) (by decide),
    (verify_idempotent gw0 storePaid 1 apptPaid (by decide) (by decide)).2.2.1
      storeOrdered (stripeReq 1),
    (verify_idempotent gw0 storePaid 1 apptPaid (by decide) (by decide)).2.2.2
      storeOrdered rzReq⟩

/-- C16: for an authenticated request, `paymentRazorpay` and `paymentStripe`
fail with status 400 or 404 without sending a request to the provider if and
only if no appointment has the given id or the appointment with that id is
cancelled; whatever the provider would answer. -/
theorem createOrder_rejected_iff (CURRENCY : String) (s : Store) (req : PayReq)
    (userId id : Nat) (reply : Except String String)
    (hu : (req.authId <|> req.bodyUserId) = some userId)
    (hid : req.appointmentId = some id) :
    ((((paymentRazorpay CURRENCY s req reply).response.status = 400 ∨
        (paymentRazorpay CURRENCY s req reply).response.status = 404) ∧
        (paymentRazorpay CURRENCY s req reply).request = none) ↔
      ((∀ a ∈ s.appointments, a._id ≠ id) ∨
        ∃ A, findById Appointment._id s.appointments id = some A ∧ A.cancelled = true)) ∧
    ((((paymentStripe CURRENCY s req reply).response.status = 400 ∨
        (paymentStripe CURRENCY s req reply).response.status = 404) ∧
        (paymentStripe CURRENCY s req reply).request = none) ↔
      ((∀ a ∈ s.appointments, a._id ≠ id) ∨
        ∃ A, findById Appointment._id s.appointments id = some A ∧ A.cancelled = true)) := by
  cases hA : findById Appointment._id s.appointments id with
  | none =>
    have hno : ∀ a ∈ s.appointments, a._id ≠ id := by
      intro a ha
      have := List.find?_eq_none.mp hA a ha
      simpa using this
    constructor
    · refine ⟨fun _ => Or.inl hno, fun _ => ?_⟩
      simp [paymentRazorpay, hu, hid, hA, jsonErr]
    · refine ⟨fun _ => Or.inl hno, fun _ => ?_⟩
      simp [paymentStripe, hu, hid, hA, jsonErr]
  | some A =>
    obtain ⟨hAm, hAid⟩ := findById_mem _ _ _ _ hA
    have hex : ¬ ∀ a ∈ s.appointments, a._id ≠ id := fun h => h A hAm hAid
    by_cases hc : A.cancelled = true
    · constructor
      · refine ⟨fun _ => Or.inr ⟨A, rfl, hc⟩, fun _ => ?_⟩
        simp [paymentRazorpay, hu, hid, hA, hc, jsonErr]
      · refine ⟨fun _ => Or.inr ⟨A, rfl, hc⟩, fun _ => ?_⟩
        simp [paymentStripe, hu, hid, hA, hc, jsonErr]
    · have hr : (paymentRazorpay CURRENCY s req reply).request ≠ none := by
        cases reply <;> simp [paymentRazorpay, hu, hid, hA, hc]
      have hs : (paymentStripe CURRENCY s req reply).request ≠ none := by
        cases reply <;> simp [paymentStripe, hu, hid, hA, hc]
      constructor
      · constructor
        · intro h; exact absurd h.2 hr
        · rintro (h | ⟨B, hB, hBc⟩)
          · exact absurd h hex
          · cases hB; exact absurd hBc hc
      · constructor
        · intro h; exact absurd h.2 hs
        · rintro (h | ⟨B, hB, hBc⟩)
          · exact absurd h hex
          · cases hB; exact absurd hBc hc

/-- Witness of C16: the cancelled appointment of `storeCancelled` is refused
by both handlers, the active one of `storeBooked` is not. -/
theorem createOrder_rejected_iff_witness :
    (((payReq 1).authId <|> (payReq 1).bodyUserId) = some 7 ∧
      (payReq 1).appointmentId = some 1 ∧
      (∃ A, findById Appointment._id storeCancelled.appointments 1 = some A ∧
        A.cancelled = true)) ∧
    (((paymentRazorpay "" storeCancelled (payReq 1) (Except.ok "order_1")).response.status
          = 400 ∨
        (paymentRazorpay "" storeCancelled (payReq 1) (Except.ok "order_1")).response.status
          = 404) ∧
      (paymentRazorpay "" storeCancelled (payReq 1) (Except.ok "order_1")).request = none) ∧
    (((paymentStripe "" storeCancelled (payReq 1) (Except.ok "url")).response.status = 400 ∨
        (paymentStripe "" storeCancelled (payReq 1) (Except.ok "url")).response.status
          = 404) ∧
      (paymentStripe "" storeCancelled (payReq 1) (Except.ok "url")).request = none) ∧
    (paymentRazorpay "" storeBooked (payReq 1) (Except.ok "order_1")).request =
      some { amount := some 50000, currency := "INR", receipt := 1 } :=
  ⟨by decide,
    (createOrder_rejected_iff "" storeCancelled (payReq 1) 7 1 (Except.ok "order_1")
      (by decide) (by decide)).1.mpr (Or.inr (by decide)),
    (createOrder_rejected_iff "" storeCancelled (payReq 1) 7 1 (Except.ok "url")
      (by decide) (by decide)).2.mpr (Or.inr (by decide)),
    by decide⟩

theorem excessBits_small (fuel n : Nat) (h : n < 2 ^ 53) : excessBits fuel n = 0 := by
  cases fuel with
  | zero => rfl
  | succ k =>
    unfold excessBits
    rw [if_pos h]

/-- With enough fuel `excessBits` leaves a significand of at most 53 bits. -/
theorem excessBits_lt (fuel n : Nat) (h : n < 2 ^ fuel * 2 ^ 53) :
    n / 2 ^ excessBits fuel n < 2 ^ 53 := by
  induction fuel generalizing n with
  | zero =>
    have h0 : n < 2 ^ 53 := by simpa using h
    simpa [excessBits] using h0
  | succ k ih =>
    unfold excessBits
    by_cases hn : n < 2 ^ 53
    · rw [if_pos hn]
      simpa using hn
    · rw [if_neg hn]
      have h2 : n / 2 < 2 ^ k * 2 ^ 53 := by
        have : n < 2 * (2 ^ k * 2 ^ 53) := by
          calc n < 2 ^ (k + 1) * 2 ^ 53 := h
            _ = 2 * (2 ^ k * 2 ^ 53) := by ring
        omega
      have := ih (n / 2) h2
      rwa [pow_succ, Nat.mul_comm, ← Nat.div_div_eq_div_mul]

/-- The fuel `n` is enough for `n`. -/
theorem excessBits_self_lt (n : Nat) : n / 2 ^ excessBits n n < 2 ^ 53 := by
  apply excessBits_lt
  calc n < 2 ^ n := Nat.lt_two_pow n
    _ ≤ 2 ^ n * 2 ^ 53 := Nat.le_mul_of_pos_right _ (by positivity)

/-- The significand `excessBits` leaves has its 53 bits in use: `excessBits`
drops no bit more than needed. -/
theorem excessBits_ge (fuel n : Nat) (h : 2 ^ 52 ≤ n) :
    2 ^ 52 ≤ n / 2 ^ excessBits fuel n := by
  induction fuel generalizing n with
  | zero => simpa [excessBits] using h
  | succ k ih =>
    unfold excessBits
    by_cases hn : n < 2 ^ 53
    · rw [if_pos hn]
      simpa using h
    · rw [if_neg hn]
      have h2 : 2 ^ 52 ≤ n / 2 := by
        have : (2 : Nat) ^ 53 = 2 * 2 ^ 52 := by norm_num
        omega
      have he : n / 2 ^ (excessBits k (n / 2) + 1) = n / 2 / 2 ^ excessBits k (n / 2) := by
        rw [Nat.pow_succ, Nat.mul_comm, Nat.div_div_eq_div_mul]
      rw [he]
      exact ih (n / 2) h2

/-- A whole number below `2 ^ 53` is a double. -/
theorem toDouble_exact (n : Nat) (h : n < 2 ^ 53) : toDouble n = some n := by
  unfold toDouble
  rw [excessBits_small n n h]
  simp [Nat.mod_one]

/-- A finite `toDouble n` is a multiple of `2 ^ e`, for `e = excessBits n n`,
at distance at most half of `2 ^ e` from `n`. -/
theorem toDouble_near (n d : Nat) (h : toDouble n = some d) :
    2 ^ excessBits n n ∣ d ∧ 2 * (d - n) ≤ 2 ^ excessBits n n ∧
      2 * (n - d) ≤ 2 ^ excessBits n n := by
  unfold toDouble at h
  obtain ⟨e, he⟩ : ∃ e, e = excessBits n n := ⟨_, rfl⟩
  rw [← he] at h ⊢
  obtain ⟨w, hw⟩ : ∃ w, w = 2 ^ e := ⟨_, rfl⟩
  have hwpos : 0 < w := by rw [hw]; positivity
  simp only [← hw] at h ⊢
  have hdm := Nat.div_add_mod n w
  have hlt : n % w < w := Nat.mod_lt _ hwpos
  obtain ⟨q, hq⟩ : ∃ q, q = n / w := ⟨_, rfl⟩
  obtain ⟨r, hr⟩ : ∃ r, r = n % w := ⟨_, rfl⟩
  rw [← hq, ← hr] at hdm
  rw [← hr] at hlt
  simp only [← hq, ← hr] at h
  have hq2 : q % 2 ≤ 1 := by omega
  by_cases hc : e < 971 ∨ e = 971 ∧ (if 2 * r < w then q else if w < 2 * r then q + 1 else q + q % 2) < 2 ^ 53
  · rw [if_pos hc] at h
    simp only [Option.some.injEq] at h
    subst h
    refine ⟨Dvd.intro_left _ rfl, ?_, ?_⟩
    · by_cases h1 : 2 * r < w
      · simp only [h1, if_true]
        have : q * w ≤ n := by nlinarith
        omega
      · by_cases h3 : w < 2 * r
        · simp only [h1, h3, if_true, if_false]
          have : (q + 1) * w = q * w + w := by ring
          have : w * q = q * w := Nat.mul_comm _ _
          omega
        · simp only [h1, h3, if_false]
          have : (q + q % 2) * w = q * w + (q % 2) * w := by ring
          have : (q % 2) * w ≤ w := by nlinarith
          have : w * q = q * w := Nat.mul_comm _ _
          omega
    · by_cases h1 : 2 * r < w
      · simp only [h1, if_true]
        have : w * q = q * w := Nat.mul_comm _ _
        omega
      · by_cases h3 : w < 2 * r
        · simp only [h1, h3, if_true, if_false]
          have : (q + 1) * w = q * w + w := by ring
          have : w * q = q * w := Nat.mul_comm _ _
          omega
        · simp only [h1, h3, if_false]
          have : (q + q % 2) * w = q * w + (q % 2) * w := by ring
          have : w * q = q * w := Nat.mul_comm _ _
          omega
  · rw [if_neg hc] at h
    cases h

/-- C17 (amended): for an appointment that is not cancelled, with amount `a`,
both handlers request `Math.round(a * 100)` as JavaScript computes it, in
doubles: `options.amount` in `paymentRazorpay`, and `unit_amount` with
quantity 1 in `paymentStripe`, so both providers are asked for the same sum,
whatever the provider answers. The sum is exactly `100 * a` minor units when
`100 * a < 2 ^ 53`. -/
theorem payment_charge (CURRENCY : String) (s : Store) (req : PayReq) (userId id : Nat)
    (A : Appointment) (reply : Except String String)
    (hu : (req.authId <|> req.bodyUserId) = some userId)
    (hid : req.appointmentId = some id)
    (hA : findById Appointment._id s.appointments id = some A)
    (hnc : A.cancelled = false) :
    (∃ options, (paymentRazorpay CURRENCY s req reply).request = some options ∧
      options.amount = chargeAmount A.amount) ∧
    (∃ params, (paymentStripe CURRENCY s req reply).request = some params ∧
      params.unit_amount = chargeAmount A.amount ∧ params.quantity = 1) ∧
    (∀ options params, (paymentRazorpay CURRENCY s req reply).request = some options →
      (paymentStripe CURRENCY s req reply).request = some params →
      params.unit_amount = options.amount ∧ params.quantity = 1) ∧
    (100 * A.amount < 2 ^ 53 → chargeAmount A.amount = some (100 * A.amount)) := by
  have hr : ∃ options, (paymentRazorpay CURRENCY s req reply).request = some options ∧
      options.amount = chargeAmount A.amount := by
    cases reply <;>
      exact ⟨_, by simp only [paymentRazorpay, hu, hid, hA, hnc, Option.bind]; rfl, rfl⟩
  have hs : ∃ params, (paymentStripe CURRENCY s req reply).request = some params ∧
      params.unit_amount = chargeAmount A.amount ∧ params.quantity = 1 := by
    cases reply <;>
      exact ⟨_, by simp only [paymentStripe, hu, hid, hA, hnc, Option.bind]; rfl, rfl, rfl⟩
  refine ⟨hr, hs, ?_, ?_⟩
  · intro options params ho hp
    obtain ⟨o, ho', hoa⟩ := hr
    obtain ⟨p, hp', hpa, hpq⟩ := hs
    rw [ho] at ho'
    rw [hp] at hp'
    cases ho'
    cases hp'
    exact ⟨by rw [hpa, hoa], hpq⟩
  · intro hlt
    unfold chargeAmount
    rw [Nat.mul_comm]
    exact toDouble_exact _ hlt

/-- Witness of C17 (amended): the appointment of `storeBooked`, of amount 500,
is charged 50000 minor units by both handlers. -/
theorem payment_charge_witness :
    (((payReq 1).authId <|> (payReq 1).bodyUserId) = some 7 ∧
      (payReq 1).appointmentId = some 1 ∧
      findById Appointment._id storeBooked.appointments 1 = some apptBooked ∧
      apptBooked.cancelled = false ∧ apptBooked.amount = 500 ∧
      100 * apptBooked.amount < 2 ^ 53) ∧
    ((∃ options,
        (paymentRazorpay "" storeBooked (payReq 1) (Except.ok "order_1")).request =
          some options ∧
        options.amount = chargeAmount apptBooked.amount) ∧
      (∃ params,
        (paymentStripe "" storeBooked (payReq 1) (Except.ok "order_1")).request =
          some params ∧
        params.unit_amount = chargeAmount apptBooked.amount ∧ params.quantity = 1)) ∧
    chargeAmount apptBooked.amount = some (100 * apptBooked.amount) ∧
    (paymentRazorpay "" storeBooked (payReq 1) (Except.ok "order_1")).request.map
      OrderOptions.amount = some (some 50000) ∧
    (paymentStripe "" storeBooked (payReq 1) (Except.ok "order_1")).request.map
      SessionParams.unit_amount = some (some 50000) :=
  ⟨by decide,
    ⟨(payment_charge "" storeBooked (payReq 1) 7 1 apptBooked (Except.ok "order_1")
        (by decide) (by decide) (by decide) (by decide)).1,
      (payment_charge "" storeBooked (payReq 1) 7 1 apptBooked (Except.ok "order_1")
        (by decide) (by decide) (by decide) (by decide)).2.1⟩,
    (payment_charge "" storeBooked (payReq 1) 7 1 apptBooked (Except.ok "order_1")
      (by decide) (by decide) (by decide) (by decide)).2.2.2 (by decide),
    by decide, by decide⟩

/-- C17 as stated fails: the appointment of `storeLarge` has the amount
`2 ^ 53 - 1`, the fee of its doctor; `100 * a` is 900719925474099100, which is
not a double, and both handlers request 900719925474099072. -/
theorem payment_charge_rounded :
    findById Appointment._id storeLarge.appointments 1 = some apptLarge ∧
    apptLarge.cancelled = false ∧ apptLarge.amount = 2 ^ 53 - 1 ∧
    100 * apptLarge.amount = 900719925474099100 ∧
    (paymentRazorpay "" storeLarge (payReq 1) (Except.ok "order_1")).request.map
      OrderOptions.amount = some (some 900719925474099072) ∧
    (paymentStripe "" storeLarge (payReq 1) (Except.ok "url")).request.map
      SessionParams.unit_amount = some (some 900719925474099072) := by
  decide

theorem findById_split {α : Type} (key : α → Nat) (l : List α) (id : Nat) (a : α)
    (h : findById key l id = some a) :
    ∃ l1 l2, l = l1 ++ a :: l2 ∧
      ∀ f, findByIdAndUpdate key l id f = l1 ++ f a :: l2 := by
  unfold findById at h
  unfold findByIdAndUpdate
  induction l with
  | nil => simp at h
  | cons x xs ih =>
    by_cases hx : key x = id
    · simp only [List.find?_cons, hx, decide_True, Option.some.injEq] at h
      subst h
      exact ⟨[], xs, rfl, fun f => by simp [updateFirst, hx]⟩
    · simp only [List.find?_cons, hx, decide_False] at h
      obtain ⟨l1, l2, h1, h2⟩ := ih h
      refine ⟨x :: l1, l2, by rw [h1]; rfl, fun f => ?_⟩
      simp [updateFirst, hx, h2 f]

theorem find?_append_new {α : Type} (p : α → Bool) (l : List α) (x : α)
    (hl : ∀ a ∈ l, p a = false) (hx : p x = true) : (l ++ [x]).find? p = some x := by
  rw [List.find?_append]
  have hnone : l.find? p = none := by
    rw [List.find?_eq_none]
    intro a ha
    simp [hl a ha]
  simp [hnone, hx]

/-- C18: the order that `paymentRazorpay` creates for appointment A carries
A's id as receipt, and `verifyRazorpay` with the signed payload of that order
answers success and sets `payment` to true on A: the ledger afterwards is the
ledger before with A replaced by A with `payment` true, and doctors, users and
orders are as `paymentRazorpay` left them. The provider gives the order an id
that none of its orders carries. -/
theorem razorpay_correlation (gw : Gateway) (CURRENCY : String) (s : Store) (req : PayReq)
    (userId id : Nat) (A : Appointment) (orderId paymentId : String)
    (hu : (req.authId <|> req.bodyUserId) = some userId)
    (hid : req.appointmentId = some id)
    (hA : findById Appointment._id s.appointments id = some A)
    (hnc : A.cancelled = false)
    (hnew : ∀ o ∈ s.orders, o.id ≠ orderId)
    (ho : orderId ≠ "") (hp : paymentId ≠ "")
    (hs : gw.hmacSha256Hex gw.RAZORPAY_KEY_SECRET (orderId ++ "|" ++ paymentId) ≠ "") :
    (∃ options, (paymentRazorpay CURRENCY s req (Except.ok orderId)).request =
        some options ∧ options.receipt = A._id) ∧
    (paymentRazorpay CURRENCY s req (Except.ok orderId)).store.orders =
      s.orders ++ [Order.mk orderId (chargeAmount A.amount) (strOr CURRENCY "INR") (some A._id)] ∧
    (verifyRazorpay gw (paymentRazorpay CURRENCY s req (Except.ok orderId)).store
      (signedPayload gw orderId paymentId)).1 = jsonOk "Payment successful" none ∧
    ∃ l1 l2, s.appointments = l1 ++ A :: l2 ∧
      (verifyRazorpay gw (paymentRazorpay CURRENCY s req (Except.ok orderId)).store
        (signedPayload gw orderId paymentId)).2 =
        Store.mk s.doctors s.users (l1 ++ { A with payment := true } :: l2)
          (paymentRazorpay CURRENCY s req (Except.ok orderId)).store.orders := by
  have hpay : paymentRazorpay CURRENCY s req (Except.ok orderId) =
      ⟨jsonOk "" none,
        Store.mk s.doctors s.users s.appointments
          (s.orders ++ [Order.mk orderId (chargeAmount A.amount) (strOr CURRENCY "INR") (some A._id)]),
        some (OrderOptions.mk (chargeAmount A.amount) (strOr CURRENCY "INR") A._id),
        some orderId⟩ := by
    simp only [paymentRazorpay, hu, hid, hA, hnc, Option.bind]
    rfl
  have hfind : (s.orders ++ [Order.mk orderId (chargeAmount A.amount) (strOr CURRENCY "INR")
      (some A._id)]).find? (fun o => decide (o.id = orderId)) =
      some (Order.mk orderId (chargeAmount A.amount) (strOr CURRENCY "INR") (some A._id)) := by
    apply find?_append_new
    · intro o hmem
      simpa using hnew o hmem
    · simp
  obtain ⟨hAm, hAid⟩ := findById_mem _ _ _ _ hA
  obtain ⟨l1, l2, hl, hupd⟩ := findById_split Appointment._id s.appointments id A hA
  have hver := verifyRazorpay_eq_ok gw
    (Store.mk s.doctors s.users s.appointments
      (s.orders ++ [Order.mk orderId (chargeAmount A.amount) (strOr CURRENCY "INR") (some A._id)]))
    (signedPayload gw orderId paymentId)
    (Order.mk orderId (chargeAmount A.amount) (strOr CURRENCY "INR") (some A._id)) id
    ho hp hs rfl hfind (by rw [hAid])
  rw [hpay]
  refine ⟨⟨_, rfl, rfl⟩, rfl, ?_, l1, l2, hl, ?_⟩
  · rw [hver]
  · rw [hver, hupd]

/-- Witness of C18: the order "order_1" created for the appointment of
`storeBooked` and verified with payment "pay_1". -/
theorem razorpay_correlation_witness :
    (((payReq 1).authId <|> (payReq 1).bodyUserId) = some 7 ∧
      (payReq 1).appointmentId = some 1 ∧
      findById Appointment._id storeBooked.appointments 1 = some apptBooked ∧
      apptBooked.cancelled = false ∧ (∀ o ∈ storeBooked.orders, o.id ≠ "order_1") ∧
      ("order_1" : String) ≠ "" ∧ ("pay_1" : String) ≠ "" ∧
      gw0.hmacSha256Hex gw0.RAZORPAY_KEY_SECRET ("order_1" ++ "|" ++ "pay_1") ≠ "") ∧
    ((∃ options,
        (paymentRazorpay "" storeBooked (payReq 1) (Except.ok "order_1")).request =
          some options ∧ options.receipt = apptBooked._id) ∧
      (paymentRazorpay "" storeBooked (payReq 1) (Except.ok "order_1")).store.orders =
        storeBooked.orders ++
          [Order.mk "order_1" (chargeAmount apptBooked.amount) (strOr "" "INR")
            (some apptBooked._id)] ∧
      (verifyRazorpay gw0 (paymentRazorpay "" storeBooked (payReq 1)
          (Except.ok "order_1")).store (signedPayload gw0 "order_1" "pay_1")).1 =
        jsonOk "Payment successful" none ∧
      ∃ l1 l2, storeBooked.appointments = l1 ++ apptBooked :: l2 ∧
        (verifyRazorpay gw0 (paymentRazorpay "" storeBooked (payReq 1)
            (Except.ok "order_1")).store (signedPayload gw0 "order_1" "pay_1")).2 =
          Store.mk storeBooked.doctors storeBooked.users
            (l1 ++ { apptBooked with payment := true } :: l2)
            (paymentRazorpay "" storeBooked (payReq 1)
              (Except.ok "order_1")).store.orders) ∧
    (paymentRazorpay "" storeBooked (payReq 1) (Except.ok "order_1")).store = storeOrdered ∧
    (verifyRazorpay gw0 storeOrdered (signedPayload gw0 "order_1" "pay_1")).2.appointments =
      [apptPaid] :=
  ⟨by decide,
    razorpay_correlation gw0 "" storeBooked (payReq 1) 7 1 apptBooked "order_1" "pay_1"
      (by decide) (by decide) (by decide) (by decide) (by decide) (by decide) (by decide)
      (by decide),
    by decide, by decide⟩

/-- C21: for an existing appointment id, `verifyStripe` answers success and
sets `payment` to true exactly when `String(success)` is "true", as it is for
the boolean `true` and for the string "true", whatever the appointment and the
rest of the store are; for every other value it answers "Payment failed." with
status 400 and changes nothing. -/
theorem verifyStripe_trusts_flag (s : Store) (req : StripeVerifyReq) (id : Nat)
    (A : Appointment) (hid : req.appointmentId = some id)
    (hA : findById Appointment._id s.appointments id = some A) :
    (req.success.toJsString = "true" →
      (verifyStripe s req).1 = jsonOk "Payment successful" none ∧
      findById Appointment._id (verifyStripe s req).2.appointments id =
        some { A with payment := true }) ∧
    (req.success.toJsString ≠ "true" →
      verifyStripe s req = (jsonErr "Payment failed." 400, s)) ∧
    ((verifyStripe s req).1.success = true ↔ req.success.toJsString = "true") ∧
    (req.success = Flag.bool true ∨ req.success = Flag.str "true" →
      req.success.toJsString = "true") := by
  have hfail : req.success.toJsString ≠ "true" →
      verifyStripe s req = (jsonErr "Payment failed." 400, s) := by
    intro hs
    simp [verifyStripe, hid, hs]
  refine ⟨?_, hfail, ?_, ?_⟩
  · intro hs
    rw [verifyStripe_eq_ok s req id hid hs]
    exact ⟨rfl, by simp [findById_setPayment, hA]⟩
  · constructor
    · intro h
      by_contra hs
      rw [hfail hs] at h
      simp [jsonErr] at h
    · intro hs
      rw [verifyStripe_eq_ok s req id hid hs]
      rfl
  · rintro (h | h) <;> rw [h] <;> rfl

/-- Witness of C21: the redirect with `success` "true", and the one with
`success` "false", for the appointment of `storeBooked`. -/
theorem verifyStripe_trusts_flag_witness :
    ((stripeReq 1).appointmentId = some 1 ∧
      findById Appointment._id storeBooked.appointments 1 = some apptBooked ∧
      (stripeReq 1).success.toJsString = "true" ∧
      stripeReqFailed.appointmentId = some 1 ∧
      stripeReqFailed.success.toJsString ≠ "true") ∧
    ((verifyStripe storeBooked (stripeReq 1)).1 = jsonOk "Payment successful" none ∧
      findById Appointment._id (verifyStripe storeBooked (stripeReq 1)).2.appointments 1 =
        some { apptBooked with payment := true }) ∧
    verifyStripe storeBooked stripeReqFailed =
      (jsonErr "Payment failed." 400, storeBooked) :=
  ⟨by decide,
    (verifyStripe_trusts_flag storeBooked (stripeReq 1) 1 apptBooked (by decide)
      (by decide)).1 (by decide),
    (verifyStripe_trusts_flag storeBooked stripeReqFailed 1 apptBooked (by decide)
      (by decide)).2.1 (by decide)⟩

/-- C29: for an appointment id that no appointment of the authenticated doctor
carries (the appointment belongs to another doctor, or does not exist),
`appointmentCancel` and `appointmentComplete` answer 404 "Appointment not found"
and leave the store unchanged; for an appointment of that doctor,
`appointmentCancel` ends with `cancelled` true and `isCompleted` false, and
`appointmentComplete` with `isCompleted` true and `cancelled` false, whatever
the flags were. -/
theorem doctor_actions_ownership (s : Store) (req : DoctorReq) (docId id : Nat)
    (hd : req.docId = some docId) (hid : req.appointmentId = some id) :
    ((∀ a ∈ s.appointments, a._id = id → a.docId ≠ docId) →
      appointmentCancel s req = (jsonErr "Appointment not found" 404, s) ∧
      appointmentComplete s req = (jsonErr "Appointment not found" 404, s)) ∧
    (∀ A, s.appointments.find? (matchesAppt req) = some A →
      ((appointmentCancel s req).1 = jsonOk "Appointment cancelled successfully" none ∧
        ∃ A', (appointmentCancel s req).2.appointments.find? (matchesAppt req) = some A' ∧
          A'._id = id ∧ A'.docId = docId ∧ A'.cancelled = true ∧ A'.isCompleted = false) ∧
      ((appointmentComplete s req).1 = jsonOk "Appointment marked as completed" none ∧
        ∃ A', (appointmentComplete s req).2.appointments.find? (matchesAppt req) =
            some A' ∧
          A'._id = id ∧ A'.docId = docId ∧ A'.isCompleted = true ∧ A'.cancelled = false)) := by
  refine ⟨?_, ?_⟩
  · intro hno
    have hnone : s.appointments.find? (matchesAppt req) = none := by
      rw [List.find?_eq_none]
      intro a ha hm
      simp only [matchesAppt, hd, hid, Option.some.injEq, decide_eq_true_eq] at hm
      exact hno a ha hm.1 hm.2
    constructor
    · unfold appointmentCancel
      simp only [hnone]
    · unfold appointmentComplete
      simp only [hnone]
  · intro A hA
    have hm : matchesAppt req A = true := List.find?_some hA
    simp only [matchesAppt, hd, hid, Option.some.injEq, decide_eq_true_eq] at hm
    have hkeep : ∀ x : Appointment, matchesAppt req x = true →
        ∀ (c p : Bool) (st : Option String),
          matchesAppt req { x with cancelled := c, isCompleted := p, status := st } = true := by
      intro x hx c p st
      simpa [matchesAppt] using hx
    constructor
    · have hf := find?_updateFirst_self (matchesAppt req)
        (fun appt : Appointment => { appt with cancelled := true, isCompleted := false,
                                               status := some "Cancelled" })
        s.appointments (fun x hx => hkeep x hx _ _ _)
      rw [hA] at hf
      constructor
      · unfold appointmentCancel
        simp only [hA]
      · rw [appointmentCancel_store]
        exact ⟨_, hf, hm.1, hm.2, rfl, rfl⟩
    · have hf := find?_updateFirst_self (matchesAppt req)
        (fun appt : Appointment => { appt with isCompleted := true, cancelled := false,
                                               status := some "Completed" })
        s.appointments (fun x hx => hkeep x hx _ _ _)
      rw [hA] at hf
      constructor
      · unfold appointmentComplete
        simp only [hA]
      · rw [appointmentComplete_store]
        exact ⟨_, hf, hm.1, hm.2, rfl, rfl⟩

/-- Witness of C29: doctor 2 acts on appointment 1 of doctor 1 in
`storeBooked`, and doctor 1 acts on it. -/
theorem doctor_actions_ownership_witness :
    (doctorReqOther.docId = some 2 ∧ doctorReqOther.appointmentId = some 1 ∧
      (∀ a ∈ storeBooked.appointments, a._id = 1 → a.docId ≠ 2) ∧
      (doctorReq 1).docId = some 1 ∧ (doctorReq 1).appointmentId = some 1 ∧
      storeBooked.appointments.find? (matchesAppt (doctorReq 1)) = some apptBooked) ∧
    (appointmentCancel storeBooked doctorReqOther =
        (jsonErr "Appointment not found" 404, storeBooked) ∧
      appointmentComplete storeBooked doctorReqOther =
        (jsonErr "Appointment not found" 404, storeBooked)) ∧
    (((appointmentCancel storeBooked (doctorReq 1)).1 =
          jsonOk "Appointment cancelled successfully" none ∧
        ∃ A', (appointmentCancel storeBooked (doctorReq 1)).2.appointments.find?
            (matchesAppt (doctorReq 1)) = some A' ∧
          A'._id = 1 ∧ A'.docId = 1 ∧ A'.cancelled = true ∧ A'.isCompleted = false) ∧
      ((appointmentComplete storeBooked (doctorReq 1)).1 =
          jsonOk "Appointment marked as completed" none ∧
        ∃ A', (appointmentComplete storeBooked (doctorReq 1)).2.appointments.find?
            (matchesAppt (doctorReq 1)) = some A' ∧
          A'._id = 1 ∧ A'.docId = 1 ∧ A'.isCompleted = true ∧ A'.cancelled = false)) :=
  ⟨by decide,
    (doctor_actions_ownership storeBooked doctorReqOther 2 1 (by decide) (by decide)).1
      (by decide),
    (doctor_actions_ownership storeBooked (doctorReq 1) 1 1 (by decide) (by decide)).2
      apptBooked (by decide)⟩

/-- C28: a successful `bookAppointment` for doctor D, `date` and `time` leaves
the patient records as they are and rewrites, among the doctor records, the
record of D only, and in it `slots_booked` only: the list of `date` gets `time`
appended at its end and the entry of every other date is unchanged; so the fee
and the availability of D and every other doctor record are unchanged. The
hypotheses are the checks a successful booking has passed, the last of them
that `slots_booked[date]` is not an inherited member. -/
theorem bookAppointment_frame (s : Store) (req : BookReq) (now userId docId : Nat)
    (D : Doctor) (P : User)
    (hu : (req.authId <|> req.bodyUserId) = some userId)
    (hd : req.docId = some docId) (hdate : req.slotDate ≠ "") (htime : req.slotTime ≠ "")
    (hD : findById Doctor._id s.doctors docId = some D) (hav : D.available = true)
    (hP : findById User._id s.users userId = some P)
    (hfree : req.slotTime ∉ slotsOf s docId req.slotDate)
    (hkey : readsInherited D.slots_booked req.slotDate = false) :
    (bookAppointment s req now).2.users = s.users ∧
    (∃ l1 l2 m, s.doctors = l1 ++ D :: l2 ∧
      (bookAppointment s req now).2.doctors = l1 ++ { D with slots_booked := m } :: l2 ∧
      slotGet m req.slotDate =
        some ((slotGet D.slots_booked req.slotDate).getD [] ++ [req.slotTime]) ∧
      ∀ date, date ≠ req.slotDate → slotGet m date = slotGet D.slots_booked date) ∧
    (∀ docId', docId' ≠ docId →
      findById Doctor._id (bookAppointment s req now).2.doctors docId' =
        findById Doctor._id s.doctors docId') := by
  rw [bookAppointment_eq_ok s req now userId docId D P hu hd hdate htime hD hav hP hfree hkey]
  obtain ⟨l1, l2, hl, hupd⟩ := findById_split Doctor._id s.doctors docId D hD
  refine ⟨rfl, ⟨l1, l2, reserveSlot D.slots_booked req.slotDate req.slotTime, hl,
    hupd _, ?_, ?_⟩, ?_⟩
  · exact slotGet_slotSet_same _ _ _
  · intro date hne
    exact slotGet_slotSet_ne _ _ _ _ hne
  · intro docId' hne
    show findById Doctor._id (findByIdAndUpdate Doctor._id s.doctors docId _) docId' = _
    rw [findById_setSlots, if_neg hne]

/-- Witness of C28: the booking of "11:00" in `storeTwoDoctors`, where doctor 1
has "10:00" reserved and doctor 2 has a slot of its own. -/
theorem bookAppointment_frame_witness :
    ((req2.authId <|> req2.bodyUserId) = some 7 ∧ req2.docId = some 1 ∧
      req2.slotDate ≠ "" ∧ req2.slotTime ≠ "" ∧
      findById Doctor._id storeTwoDoctors.doctors 1 = some docBooked ∧
      docBooked.available = true ∧
      findById User._id storeTwoDoctors.users 7 = some pat1 ∧
      req2.slotTime ∉ slotsOf storeTwoDoctors 1 req2.slotDate ∧
      readsInherited docBooked.slots_booked req2.slotDate = false) ∧
    ((bookAppointment storeTwoDoctors req2 3).2.users = storeTwoDoctors.users ∧
      (∃ l1 l2 m, storeTwoDoctors.doctors = l1 ++ docBooked :: l2 ∧
        (bookAppointment storeTwoDoctors req2 3).2.doctors =
          l1 ++ { docBooked with slots_booked := m } :: l2 ∧
        slotGet m req2.slotDate =
          some ((slotGet docBooked.slots_booked req2.slotDate).getD [] ++ [req2.slotTime]) ∧
        ∀ date, date ≠ req2.slotDate → slotGet m date = slotGet docBooked.slots_booked date) ∧
      (∀ docId', docId' ≠ 1 →
        findById Doctor._id (bookAppointment storeTwoDoctors req2 3).2.doctors docId' =
          findById Doctor._id storeTwoDoctors.doctors docId')) ∧
    (bookAppointment storeTwoDoctors req2 3).2.doctors.map Doctor.slots_booked =
      [[("2024-06-01", ["10:00", "11:00"])], [("2024-06-02", ["09:00"])]] :=
  ⟨by decide,
    bookAppointment_frame storeTwoDoctors req2 3 7 1 docBooked pat1 (by decide) (by decide)
      (by decide) (by decide) (by decide) (by decide) (by decide) (by decide) (by decide),
    by decide⟩

/-- C26: for an appointment of the requester that is not cancelled and whose
doctor record is missing, `cancelAppointment` leaves the appointment with
`cancelled` true (the write is kept), changes no doctor record, and the failed
release does not escape the handler: it is answered by the `catch` branch with
status 500 and `success: false`. -/
theorem cancelAppointment_doctor_missing (s : Store) (req : CancelReq) (userId id : Nat)
    (A : Appointment)
    (hu : (req.authId <|> req.bodyUserId) = some userId)
    (hid : req.appointmentId = some id)
    (hA : findById Appointment._id s.appointments id = some A)
    (hown : A.userId = userId) (hnc : A.cancelled = false)
    (hD : ∀ d ∈ s.doctors, d._id ≠ A.docId) :
    (cancelAppointment s req).1.status = 500 ∧
    (cancelAppointment s req).1.success = false ∧
    findById Appointment._id (cancelAppointment s req).2.appointments id =
      some { A with cancelled := true } ∧
    (cancelAppointment s req).2.doctors = s.doctors := by
  have hnone : findById Doctor._id s.doctors A.docId = none := by
    unfold findById
    rw [List.find?_eq_none]
    intro d hd
    simpa using hD d hd
  rw [cancelAppointment_eq_throw s req userId id A hu hid hA hown hnc hnone]
  refine ⟨rfl, rfl, ?_, rfl⟩
  simp [findById_setCancelled, hA]

/-- Witness of C26: the patient cancels the appointment of `storeNoDoctor`. -/
theorem cancelAppointment_doctor_missing_witness :
    (((cancelReq 1).authId <|> (cancelReq 1).bodyUserId) = some 7 ∧
      (cancelReq 1).appointmentId = some 1 ∧
      findById Appointment._id storeNoDoctor.appointments 1 = some apptBooked ∧
      apptBooked.userId = 7 ∧ apptBooked.cancelled = false ∧
      (∀ d ∈ storeNoDoctor.doctors, d._id ≠ apptBooked.docId)) ∧
    (cancelAppointment storeNoDoctor (cancelReq 1)).1.status = 500 ∧
    (cancelAppointment storeNoDoctor (cancelReq 1)).1.success = false ∧
    findById Appointment._id (cancelAppointment storeNoDoctor (cancelReq 1)).2.appointments 1 =
      some { apptBooked with cancelled := true } ∧
    (cancelAppointment storeNoDoctor (cancelReq 1)).2.doctors = storeNoDoctor.doctors :=
  ⟨by decide,
    cancelAppointment_doctor_missing storeNoDoctor (cancelReq 1) 7 1 apptBooked
      (by decide) (by decide) (by decide) (by decide) (by decide) (by decide)⟩

/-! ## Frame of the ledger -/

theorem cancelAppointment_blind {β : Type} (key : Appointment → β) (hk : FlagBlind key)
    (s : Store) (req : CancelReq) :
    (cancelAppointment s req).2.appointments.map key = s.appointments.map key := by
  have hupd : ∀ id, (findByIdAndUpdate Appointment._id s.appointments id
      (fun a => { a with cancelled := true })).map key = s.appointments.map key := by
    intro id
    unfold findByIdAndUpdate
    exact updateFirst_map_key key _ _ (fun a => hk a true a.payment a.isCompleted a.status) _
  rcases cancelAppointment_cases s req with h0 | ⟨u, id, A, hu, hid, hA, hown, hnc⟩
  · rw [h0]
  · cases hD : findById Doctor._id s.doctors A.docId with
    | none =>
      rw [cancelAppointment_eq_throw s req u id A hu hid hA hown hnc hD]
      exact hupd id
    | some D =>
      rw [cancelAppointment_eq_ok s req u id A D hu hid hA hown hnc hD]
      exact hupd id

theorem appointmentCancel_blind {β : Type} (key : Appointment → β) (hk : FlagBlind key)
    (s : Store) (req : DoctorReq) :
    (appointmentCancel s req).2.appointments.map key = s.appointments.map key := by
  rw [appointmentCancel_store]
  exact updateFirst_map_key key _ _ (fun a => hk a true a.payment false (some "Cancelled")) _

theorem appointmentComplete_blind {β : Type} (key : Appointment → β) (hk : FlagBlind key)
    (s : Store) (req : DoctorReq) :
    (appointmentComplete s req).2.appointments.map key = s.appointments.map key := by
  rw [appointmentComplete_store]
  exact updateFirst_map_key key _ _ (fun a => hk a false a.payment true (some "Completed")) _

theorem setPayment_blind {β : Type} (key : Appointment → β) (hk : FlagBlind key)
    (l : List Appointment) (id : Nat) :
    (findByIdAndUpdate Appointment._id l id (fun a => { a with payment := true })).map key =
      l.map key := by
  unfold findByIdAndUpdate
  exact updateFirst_map_key key _ _ (fun a => hk a a.cancelled true a.isCompleted a.status) _

theorem verifyStripe_blind {β : Type} (key : Appointment → β) (hk : FlagBlind key)
    (s : Store) (req : StripeVerifyReq) :
    (verifyStripe s req).2.appointments.map key = s.appointments.map key := by
  rcases verifyStripe_cases s req with h0 | ⟨id, h0⟩
  · rw [h0]
  · rw [h0]; exact setPayment_blind key hk _ id

theorem verifyRazorpay_blind {β : Type} (key : Appointment → β) (hk : FlagBlind key)
    (gw : Gateway) (s : Store) (req : RazorpayVerifyReq) :
    (verifyRazorpay gw s req).2.appointments.map key = s.appointments.map key := by
  rcases verifyRazorpay_cases gw s req with h0 | ⟨id, h0⟩
  · rw [h0]
  · rw [h0]; exact setPayment_blind key hk _ id

theorem paymentRazorpay_appointments (CURRENCY : String) (s : Store) (req : PayReq)
    (reply : Except String String) :
    (paymentRazorpay CURRENCY s req reply).store.appointments = s.appointments := by
  unfold paymentRazorpay
  repeat' split
  all_goals rfl

theorem paymentStripe_store (CURRENCY : String) (s : Store) (req : PayReq)
    (reply : Except String String) :
    (paymentStripe CURRENCY s req reply).store = s := by
  unfold paymentStripe
  repeat' split
  all_goals rfl

theorem changeAvailablity_appointments (s : Store) (docId : Option Nat) :
    (changeAvailablity s docId).2.appointments = s.appointments := by
  unfold changeAvailablity
  split <;> rfl

theorem updateDoctorProfile_appointments (s : Store) (docId : Option Nat)
    (body : ProfileBody) :
    (updateDoctorProfile s docId body).2.appointments = s.appointments := by
  unfold updateDoctorProfile
  split <;> rfl

theorem bookAppointment_appends (s : Store) (req : BookReq) (now : Nat) :
    (bookAppointment s req now).2.appointments = s.appointments ∨
    ∃ a, (bookAppointment s req now).1.appointment = some a ∧
      (bookAppointment s req now).2.appointments = s.appointments ++ [a] ∧
      ∀ b ∈ s.appointments, b._id ≠ a._id := by
  rcases bookAppointment_cases s req now with
    ⟨h0, _⟩ | ⟨u, docId, D, P, hu, hd, h1, h2, hD, hav, hP, hfree, hkey⟩
  · left; rw [h0]
  · right
    rw [bookAppointment_eq_ok s req now u docId D P hu hd h1 h2 hD hav hP hfree hkey]
    refine ⟨_, rfl, rfl, ?_⟩
    intro b hb
    have := lt_freshId s.appointments b hb
    simp only [mkAppointment]
    omega

theorem ledgerRow_blind : FlagBlind ledgerRow := fun _ _ _ _ _ => rfl

/-- C24: patient cancel, doctor cancel, doctor complete, both verifications,
both order creations, `updateDoctorProfile` and `changeAvailablity` leave the
appointments of the ledger in place, each with its id, `userId`, `docId`,
`slotDate`, `slotTime` and `amount`; `bookAppointment` leaves the ledger as it
is or appends one appointment with a new id, changing no existing one. -/
theorem ledger_frame (gw : Gateway) (CURRENCY : String) (s : Store) :
    (∀ req, (cancelAppointment s req).2.appointments.map ledgerRow =
      s.appointments.map ledgerRow) ∧
    (∀ req, (appointmentCancel s req).2.appointments.map ledgerRow =
      s.appointments.map ledgerRow) ∧
    (∀ req, (appointmentComplete s req).2.appointments.map ledgerRow =
      s.appointments.map ledgerRow) ∧
    (∀ req, (verifyStripe s req).2.appointments.map ledgerRow =
      s.appointments.map ledgerRow) ∧
    (∀ req, (verifyRazorpay gw s req).2.appointments.map ledgerRow =
      s.appointments.map ledgerRow) ∧
    (∀ req reply, (paymentRazorpay CURRENCY s req reply).store.appointments =
      s.appointments) ∧
    (∀ req reply, (paymentStripe CURRENCY s req reply).store.appointments =
      s.appointments) ∧
    (∀ docId body, (updateDoctorProfile s docId body).2.appointments = s.appointments) ∧
    (∀ docId, (changeAvailablity s docId).2.appointments = s.appointments) ∧
    (∀ req now, (bookAppointment s req now).2.appointments = s.appointments ∨
      ∃ a, (bookAppointment s req now).1.appointment = some a ∧
        (bookAppointment s req now).2.appointments = s.appointments ++ [a] ∧
        ∀ b ∈ s.appointments, b._id ≠ a._id) :=
  ⟨fun req => cancelAppointment_blind ledgerRow ledgerRow_blind s req,
    fun req => appointmentCancel_blind ledgerRow ledgerRow_blind s req,
    fun req => appointmentComplete_blind ledgerRow ledgerRow_blind s req,
    fun req => verifyStripe_blind ledgerRow ledgerRow_blind s req,
    fun req => verifyRazorpay_blind ledgerRow ledgerRow_blind gw s req,
    fun req reply => paymentRazorpay_appointments CURRENCY s req reply,
    fun req reply => by rw [paymentStripe_store],
    fun docId body => updateDoctorProfile_appointments s docId body,
    fun docId => changeAvailablity_appointments s docId,
    fun req now => bookAppointment_appends s req now⟩

/-! ## Failing and interleaved bookings -/

/-- When `create` persists the document, `bookAppointmentCreate` is
`bookAppointment`. -/
theorem bookAppointmentCreate_none (s : Store) (req : BookReq) (now : Nat) :
    bookAppointmentCreate s req now none = bookAppointment s req now := by
  unfold bookAppointmentCreate bookAppointment
  rfl

/-- C25 (amended): when persisting the new appointment fails after the slot was
written, `bookAppointment` answers with status 500, creates no appointment, and
the slot stays reserved: `slots_booked[date]` of the doctor is its list before
the call with `time` appended. The hypotheses are the checks the call has
passed when it writes the slot, the last of them that `slots_booked[date]` is
not an inherited member. -/
theorem bookAppointment_create_fails (s : Store) (req : BookReq) (now userId docId : Nat)
    (D : Doctor) (P : User) (message : String)
    (hu : (req.authId <|> req.bodyUserId) = some userId)
    (hd : req.docId = some docId) (hdate : req.slotDate ≠ "") (htime : req.slotTime ≠ "")
    (hD : findById Doctor._id s.doctors docId = some D) (hav : D.available = true)
    (hP : findById User._id s.users userId = some P)
    (hfree : req.slotTime ∉ slotsOf s docId req.slotDate)
    (hkey : readsInherited D.slots_booked req.slotDate = false) :
    (bookAppointmentCreate s req now (some message)).1.status = 500 ∧
    (bookAppointmentCreate s req now (some message)).1.success = false ∧
    (bookAppointmentCreate s req now (some message)).2.appointments = s.appointments ∧
    slotsOf (bookAppointmentCreate s req now (some message)).2 docId req.slotDate =
      slotsOf s docId req.slotDate ++ [req.slotTime] ∧
    req.slotTime ∈
      slotsOf (bookAppointmentCreate s req now (some message)).2 docId req.slotDate := by
  have hfree' : req.slotTime ∉ (slotGet D.slots_booked req.slotDate).getD [] := by
    simpa [slotsOf, hD] using hfree
  have heq : bookAppointmentCreate s req now (some message) =
      (jsonErr (strOr message "Failed to book appointment.") 500,
        Store.mk
          (findByIdAndUpdate Doctor._id s.doctors docId (fun d =>
            { d with slots_booked := reserveSlot D.slots_booked req.slotDate req.slotTime }))
          s.users s.appointments s.orders) := by
    unfold bookAppointmentCreate
    simp only [hu, hd, hD, hP, hdate, htime, hav, hfree', hkey, false_or, if_false,
      Bool.false_eq_true]
    rfl
  have hslots := slotsOf_reserve s docId D req.slotDate req.slotTime hD s.appointments
    docId req.slotDate
  rw [heq]
  refine ⟨rfl, rfl, rfl, ?_, ?_⟩
  · rw [hslots]; simp
  · rw [hslots]; simp

/-- Witness of C25 (amended): the booking of the specification, with a write of
the appointment that fails. -/
theorem bookAppointment_create_fails_witness :
    ((req1.authId <|> req1.bodyUserId) = some 7 ∧ req1.docId = some 1 ∧
      req1.slotDate ≠ "" ∧ req1.slotTime ≠ "" ∧
      findById Doctor._id store0.doctors 1 = some doc1 ∧ doc1.available = true ∧
      findById User._id store0.users 7 = some pat1 ∧
      req1.slotTime ∉ slotsOf store0 1 req1.slotDate ∧
      readsInherited doc1.slots_booked req1.slotDate = false) ∧
    (bookAppointmentCreate store0 req1 0 (some "write failed")).1.status = 500 ∧
    (bookAppointmentCreate store0 req1 0 (some "write failed")).1.success = false ∧
    (bookAppointmentCreate store0 req1 0 (some "write failed")).2.appointments =
      store0.appointments ∧
    slotsOf (bookAppointmentCreate store0 req1 0 (some "write failed")).2 1 req1.slotDate =
      slotsOf store0 1 req1.slotDate ++ [req1.slotTime] ∧
    req1.slotTime ∈
      slotsOf (bookAppointmentCreate store0 req1 0 (some "write failed")).2 1 req1.slotDate :=
  ⟨by decide,
    bookAppointment_create_fails store0 req1 0 7 1 doc1 pat1 "write failed" (by decide)
      (by decide) (by decide) (by decide) (by decide) (by decide) (by decide) (by decide)
      (by decide)⟩

/-- C25 as stated fails: when the write of the appointment fails in `store0`,
no appointment is created but the slot map of the doctor is not its value
before the call: "10:00" stays reserved. -/
theorem bookAppointment_create_fails_slot_kept :
    store0.doctors.map Doctor.slots_booked = [[]] ∧
    (bookAppointmentCreate store0 req1 0 (some "write failed")).2.appointments = [] ∧
    (bookAppointmentCreate store0 req1 0 (some "write failed")).2.doctors.map
      Doctor.slots_booked = [[("2024-06-01", ["10:00"])]] ∧
    (bookAppointmentCreate store0 req1 0 (some "write failed")).2.doctors ≠ store0.doctors := by
  decide

/-- Served without interruption, the two steps are `bookAppointment`. -/
theorem bookSteps_self (s : Store) (req : BookReq) (now : Nat) :
    bookSteps s s req now = bookAppointment s req now := by
  cases hu : (req.authId <|> req.bodyUserId) with
  | none => simp [bookSteps, bookRead, bookAppointment, hu]
  | some userId =>
    cases hd : req.docId with
    | none => simp [bookSteps, bookRead, bookAppointment, hu, hd]
    | some docId =>
      by_cases hf : req.slotDate = "" ∨ req.slotTime = ""
      · simp [bookSteps, bookRead, bookAppointment, hu, hd, hf]
      · cases hD : findById Doctor._id s.doctors docId with
        | none => simp [bookSteps, bookRead, bookAppointment, hu, hd, hf, hD]
        | some D =>
          by_cases hav : D.available = false
          · simp [bookSteps, bookRead, bookAppointment, hu, hd, hf, hD, hav]
          · cases hP : findById User._id s.users userId with
            | none => simp [bookSteps, bookRead, bookAppointment, hu, hd, hf, hD, hav, hP]
            | some P =>
              cases hk : readsInherited D.slots_booked req.slotDate with
              | true => simp [bookSteps, bookRead, bookAppointment, hu, hd, hf, hD, hav, hP, hk]
              | false =>
                by_cases hin : req.slotTime ∈ (slotGet D.slots_booked req.slotDate).getD []
                · simp [bookSteps, bookRead, bookAppointment, hu, hd, hf, hD, hav, hP, hk, hin]
                · simp [bookSteps, bookRead, bookAppointment, bookWrite, hu, hd, hf, hD, hav,
                    hP, hk, hin]

/-- The read step succeeds exactly under the checks of `bookAppointment`. -/
theorem bookRead_eq_ok (s : Store) (req : BookReq) (userId docId : Nat)
    (D : Doctor) (P : User)
    (hu : (req.authId <|> req.bodyUserId) = some userId)
    (hd : req.docId = some docId) (hdate : req.slotDate ≠ "") (htime : req.slotTime ≠ "")
    (hD : findById Doctor._id s.doctors docId = some D) (hav : D.available = true)
    (hP : findById User._id s.users userId = some P)
    (hfree : req.slotTime ∉ slotsOf s docId req.slotDate)
    (hkey : readsInherited D.slots_booked req.slotDate = false) :
    bookRead s req =
      Except.ok (BookPending.mk userId docId req.slotDate req.slotTime D P) := by
  have hfree' : req.slotTime ∉ (slotGet D.slots_booked req.slotDate).getD [] := by
    simpa [slotsOf, hD] using hfree
  unfold bookRead
  simp only [hu, hd, hD, hP, hdate, htime, hav, hfree', hkey, false_or, if_false,
    Bool.false_eq_true]
  rfl

/-- C27 (amended): two `bookAppointment` calls for the same doctor, date and
time, the slot being free and both patients existing. Served one after the
other, the first succeeds and the second receives "Slot not available.", one
appointment is created and the slot appears once in the map. When the second
call reads the slot map before the first has written it, both calls succeed, two
appointments are created, and the slot appears once in the map. The slot being
free includes that `slots_booked[date]` is not an inherited member, on which
either call would throw. -/
theorem two_bookings_same_slot (s : Store) (reqA reqB : BookReq) (nowA nowB : Nat)
    (userA userB docId : Nat) (D : Doctor) (PA PB : User)
    (huA : (reqA.authId <|> reqA.bodyUserId) = some userA)
    (huB : (reqB.authId <|> reqB.bodyUserId) = some userB)
    (hdA : reqA.docId = some docId) (hdB : reqB.docId = some docId)
    (hdate : reqA.slotDate ≠ "") (htime : reqA.slotTime ≠ "")
    (hsd : reqB.slotDate = reqA.slotDate) (hst : reqB.slotTime = reqA.slotTime)
    (hD : findById Doctor._id s.doctors docId = some D) (hav : D.available = true)
    (hPA : findById User._id s.users userA = some PA)
    (hPB : findById User._id s.users userB = some PB)
    (hfree : reqA.slotTime ∉ slotsOf s docId reqA.slotDate)
    (hkey : readsInherited D.slots_booked reqA.slotDate = false) :
    ((bookAppointment s reqA nowA).1.success = true ∧
      bookAppointment (bookAppointment s reqA nowA).2 reqB nowB =
        (jsonErr "Slot not available." 400, (bookAppointment s reqA nowA).2) ∧
      (∃ a, (bookAppointment s reqA nowA).2.appointments = s.appointments ++ [a]) ∧
      (slotsOf (bookAppointment s reqA nowA).2 docId reqA.slotDate).count reqA.slotTime = 1) ∧
    ((bookSteps s s reqA nowA).1.success = true ∧
      (bookSteps s (bookSteps s s reqA nowA).2 reqB nowB).1.success = true ∧
      (∃ a b, (bookSteps s (bookSteps s s reqA nowA).2 reqB nowB).2.appointments =
          s.appointments ++ [a, b] ∧ a._id ≠ b._id ∧
        a.docId = docId ∧ b.docId = docId ∧ a.slotDate = reqA.slotDate ∧
        b.slotDate = reqA.slotDate ∧ a.slotTime = reqA.slotTime ∧
        b.slotTime = reqA.slotTime ∧ a.cancelled = false ∧ b.cancelled = false) ∧
      (slotsOf (bookSteps s (bookSteps s s reqA nowA).2 reqB nowB).2 docId
        reqA.slotDate).count reqA.slotTime = 1) := by
  have heq := bookAppointment_eq_ok s reqA nowA userA docId D PA huA hdA hdate htime hD hav
    hPA hfree hkey
  have hcount : (slotsOf s docId reqA.slotDate ++ [reqA.slotTime]).count reqA.slotTime = 1 := by
    rw [List.count_append, List.count_eq_zero_of_not_mem hfree]
    simp
  have hreadB : bookRead s reqB =
      Except.ok (BookPending.mk userB docId reqB.slotDate reqB.slotTime D PB) :=
    bookRead_eq_ok s reqB userB docId D PB huB hdB (hsd ▸ hdate) (hst ▸ htime) hD hav hPB
      (by rw [hsd, hst]; exact hfree) (by rw [hsd]; exact hkey)
  have hD1 : findById Doctor._id
      (findByIdAndUpdate Doctor._id s.doctors docId (fun d =>
        { d with slots_booked := reserveSlot D.slots_booked reqA.slotDate reqA.slotTime }))
      docId =
      some { D with slots_booked := reserveSlot D.slots_booked reqA.slotDate reqA.slotTime } := by
    simp [findById_setSlots, hD]
  constructor
  · rw [heq]
    refine ⟨rfl, ?_, ⟨_, rfl⟩, ?_⟩
    · have hin : reqB.slotTime ∈
          (slotGet (reserveSlot D.slots_booked reqA.slotDate reqA.slotTime)
            reqB.slotDate).getD [] := by
        rw [hsd, hst, reserveSlot, slotGet_slotSet_same]
        simp
      have hk := readsInherited_of_mem _ _ _ hin
      unfold bookAppointment
      simp only [huB, hdB, hsd, hst, hdate, htime, hD1, hav, hPB, false_or, if_false]
      rw [hsd, hst] at hin
      rw [hsd] at hk
      simp [hin, hk]
    · show (slotsOf (Store.mk _ s.users _ s.orders) docId reqA.slotDate).count _ = 1
      rw [slotsOf_reserve s docId D reqA.slotDate reqA.slotTime hD]
      simpa using hcount
  · rw [bookSteps_self, heq]
    have hstep : bookSteps s
        (Store.mk
          (findByIdAndUpdate Doctor._id s.doctors docId (fun d =>
            { d with slots_booked := reserveSlot D.slots_booked reqA.slotDate reqA.slotTime }))
          s.users
          (s.appointments ++ [mkAppointment (freshId s.appointments) userA docId
            reqA.slotDate reqA.slotTime nowA D PA])
          s.orders) reqB nowB =
        bookWrite
          (Store.mk
            (findByIdAndUpdate Doctor._id s.doctors docId (fun d =>
              { d with slots_booked := reserveSlot D.slots_booked reqA.slotDate reqA.slotTime }))
            s.users
            (s.appointments ++ [mkAppointment (freshId s.appointments) userA docId
              reqA.slotDate reqA.slotTime nowA D PA])
            s.orders)
          (BookPending.mk userB docId reqB.slotDate reqB.slotTime D PB) nowB := by
      unfold bookSteps
      rw [hreadB]
    refine ⟨rfl, ?_, ?_, ?_⟩
    · rw [hstep]; rfl
    · rw [hstep]
      refine ⟨mkAppointment (freshId s.appointments) userA docId reqA.slotDate
          reqA.slotTime nowA D PA,
        mkAppointment (freshId (s.appointments ++ [mkAppointment (freshId s.appointments)
          userA docId reqA.slotDate reqA.slotTime nowA D PA])) userB docId reqB.slotDate
          reqB.slotTime nowB D PB,
        by simp [bookWrite], ?_, rfl, rfl, rfl, hsd, rfl, hst, rfl, rfl⟩
      have hmem : mkAppointment (freshId s.appointments) userA docId reqA.slotDate
          reqA.slotTime nowA D PA ∈ s.appointments ++
            [mkAppointment (freshId s.appointments) userA docId reqA.slotDate
              reqA.slotTime nowA D PA] := by simp
      have := lt_freshId _ _ hmem
      simp only [mkAppointment] at this ⊢
      omega
    · rw [hstep]
      show (slotsOf (Store.mk (findByIdAndUpdate Doctor._id
        (findByIdAndUpdate Doctor._id s.doctors docId _) docId _) s.users _ s.orders)
        docId reqA.slotDate).count _ = 1
      unfold slotsOf
      simp only [findById_setSlots, if_true, hD, Option.map_some']
      rw [hsd, hst, reserveSlot, slotGet_slotSet_same]
      simpa [slotsOf, hD] using hcount

/-- Witness of C27 (amended): both patients of `storeTwoPatients` book "10:00"
with `doc1`. -/
theorem two_bookings_same_slot_witness :
    ((req1.authId <|> req1.bodyUserId) = some 7 ∧
      (req1By2.authId <|> req1By2.bodyUserId) = some 9 ∧
      req1.docId = some 1 ∧ req1By2.docId = some 1 ∧
      req1.slotDate ≠ "" ∧ req1.slotTime ≠ "" ∧
      req1By2.slotDate = req1.slotDate ∧ req1By2.slotTime = req1.slotTime ∧
      findById Doctor._id storeTwoPatients.doctors 1 = some doc1 ∧ doc1.available = true ∧
      findById User._id storeTwoPatients.users 7 = some pat1 ∧
      findById User._id storeTwoPatients.users 9 = some pat2 ∧
      req1.slotTime ∉ slotsOf storeTwoPatients 1 req1.slotDate ∧
      readsInherited doc1.slots_booked req1.slotDate = false) ∧
    ((bookAppointment storeTwoPatients req1 0).1.success = true ∧
      bookAppointment (bookAppointment storeTwoPatients req1 0).2 req1By2 1 =
        (jsonErr "Slot not available." 400, (bookAppointment storeTwoPatients req1 0).2) ∧
      (∃ a, (bookAppointment storeTwoPatients req1 0).2.appointments =
        storeTwoPatients.appointments ++ [a]) ∧
      (slotsOf (bookAppointment storeTwoPatients req1 0).2 1 req1.slotDate).count
        req1.slotTime = 1) ∧
    ((bookSteps storeTwoPatients storeTwoPatients req1 0).1.success = true ∧
      (bookSteps storeTwoPatients (bookSteps storeTwoPatients storeTwoPatients req1 0).2
        req1By2 1).1.success = true ∧
      (∃ a b, (bookSteps storeTwoPatients
          (bookSteps storeTwoPatients storeTwoPatients req1 0).2 req1By2 1).2.appointments =
          storeTwoPatients.appointments ++ [a, b] ∧ a._id ≠ b._id ∧
        a.docId = 1 ∧ b.docId = 1 ∧ a.slotDate = req1.slotDate ∧
        b.slotDate = req1.slotDate ∧ a.slotTime = req1.slotTime ∧
        b.slotTime = req1.slotTime ∧ a.cancelled = false ∧ b.cancelled = false) ∧
      (slotsOf (bookSteps storeTwoPatients
        (bookSteps storeTwoPatients storeTwoPatients req1 0).2 req1By2 1).2 1
        req1.slotDate).count req1.slotTime = 1) :=
  ⟨by decide,
    two_bookings_same_slot storeTwoPatients req1 req1By2 0 1 7 9 1 doc1 pat1 pat2
      (by decide) (by decide) (by decide) (by decide) (by decide) (by decide) (by decide)
      (by decide) (by decide) (by decide) (by decide) (by decide) (by decide) (by decide)⟩

/-- C27 as stated fails: when both patients of `storeTwoPatients` read the slot
map before either writes it, both calls succeed, neither receives
"Slot not available.", and two appointments are created for "10:00". -/
theorem two_bookings_interleaved_both_succeed :
    (bookSteps storeTwoPatients storeTwoPatients req1 0).1.success = true ∧
    (bookSteps storeTwoPatients (bookSteps storeTwoPatients storeTwoPatients req1 0).2
      req1By2 1).1.success = true ∧
    (bookSteps storeTwoPatients (bookSteps storeTwoPatients storeTwoPatients req1 0).2
      req1By2 1).2.appointments.map
        (fun a => (a._id, a.userId, a.docId, a.slotDate, a.slotTime, a.cancelled)) =
      [(1, 7, 1, "2024-06-01", "10:00", false), (2, 9, 1, "2024-06-01", "10:00", false)] ∧
    (bookSteps storeTwoPatients (bookSteps storeTwoPatients storeTwoPatients req1 0).2
      req1By2 1).2.doctors.map Doctor.slots_booked = [[("2024-06-01", ["10:00"])]] := by
  decide

/-! ## Listings and dashboard: lemmas -/

theorem insertByDate_perm (a : Appointment) (l : List Appointment) :
    (insertByDate a l).Perm (a :: l) := by
  induction l with
  | nil => exact List.Perm.refl _
  | cons b bs ih =>
    unfold insertByDate
    split
    · exact List.Perm.refl _
    · exact (List.Perm.cons b ih).trans (List.Perm.swap a b bs)

theorem sortByDateDesc_perm (l : List Appointment) : (sortByDateDesc l).Perm l := by
  unfold sortByDateDesc
  induction l with
  | nil => exact List.Perm.refl _
  | cons a as ih =>
    rw [List.foldr_cons]
    exact (insertByDate_perm a _).trans (List.Perm.cons a ih)

theorem foldl_addEarning_some (D : Doctor) (l : List Appointment) (n : Nat) :
    l.foldl (addEarning (some D)) (some n) =
      some (n + (l.map (fun a => numOr a.amount (numOr D.fees 0))).sum) := by
  induction l generalizing n with
  | nil => simp
  | cons a as ih =>
    rw [List.foldl_cons]
    by_cases h : a.amount = 0
    · simp only [addEarning, h, ne_eq, not_true_eq_false, if_false]
      rw [ih]
      simp [numOr, h, Nat.add_assoc]
    · simp only [addEarning, h, ne_eq, not_false_eq_true, if_true]
      rw [ih]
      simp [numOr, h, Nat.add_assoc]

theorem foldl_addEarning_pos (doctor : Option Doctor) (l : List Appointment) (n : Nat)
    (hl : ∀ a ∈ l, a.amount ≠ 0) :
    l.foldl (addEarning doctor) (some n) = some (n + (l.map Appointment.amount).sum) := by
  induction l generalizing n with
  | nil => simp
  | cons a as ih =>
    rw [List.foldl_cons]
    have h := hl a (List.mem_cons_self _ _)
    simp only [addEarning, h, ne_eq, not_false_eq_true, if_true]
    rw [ih _ (fun b hb => hl b (List.mem_cons_of_mem _ hb))]
    simp [Nat.add_assoc]

theorem earned_filter_perm (l : List Appointment) (docId : Nat) :
    ((sortByDateDesc (l.filter (fun a => decide (a.docId = docId)))).filter isEarned).Perm
      (l.filter (fun a => decide (a.docId = docId) && isEarned a)) := by
  have h := (sortByDateDesc_perm (l.filter (fun a => decide (a.docId = docId)))).filter isEarned
  rw [List.filter_filter] at h
  have hfun : (fun a => isEarned a && decide (a.docId = docId)) =
      (fun a => decide (a.docId = docId) && isEarned a) := by
    funext a; exact Bool.and_comm _ _
  rw [hfun] at h
  exact h

/-- C22 (amended): the earnings of the doctor dashboard are the sum, over
exactly the appointments of the doctor with `isCompleted` true, `cancelled`
false and `payment` true, of `amount`, where an appointment whose amount is 0
counts with the current fee of the doctor instead; they are the sum of `amount`
in every ledger in which none of these appointments has amount 0, for every
current fee. -/
theorem dashboard_earnings (s : Store) (docId : Nat) :
    (∀ D, findById Doctor._id s.doctors docId = some D →
      ∃ dash, doctorDashboard s docId = (jsonOk "" none, some dash) ∧
        dash.earnings =
          ((s.appointments.filter (fun a => decide (a.docId = docId) && isEarned a)).map
            (fun a => numOr a.amount (numOr D.fees 0))).sum) ∧
    ((∀ a ∈ s.appointments, a.docId = docId → isEarned a = true → a.amount ≠ 0) →
      ∃ dash, doctorDashboard s docId = (jsonOk "" none, some dash) ∧
        dash.earnings =
          ((s.appointments.filter (fun a => decide (a.docId = docId) && isEarned a)).map
            Appointment.amount).sum) := by
  have hperm := earned_filter_perm s.appointments docId
  refine ⟨?_, ?_⟩
  · intro D hD
    have hfold := foldl_addEarning_some D
      ((sortByDateDesc (s.appointments.filter (fun a => decide (a.docId = docId)))).filter
        isEarned) 0
    rw [Nat.zero_add, (hperm.map _).sum_eq] at hfold
    unfold doctorDashboard
    simp only [hD, hfold]
    exact ⟨_, rfl, rfl⟩
  · intro hpos
    have hfold := foldl_addEarning_pos (findById Doctor._id s.doctors docId)
      ((sortByDateDesc (s.appointments.filter (fun a => decide (a.docId = docId)))).filter
        isEarned) 0 (by
          intro a ha
          have ha' := hperm.subset ha
          rw [List.mem_filter] at ha'
          simp only [Bool.and_eq_true, decide_eq_true_eq] at ha'
          exact hpos a ha'.1 ha'.2.1 ha'.2.2)
    rw [Nat.zero_add, (hperm.map _).sum_eq] at hfold
    unfold doctorDashboard
    simp only [hfold]
    exact ⟨_, rfl, rfl⟩

/-- Witness of C22 (amended): in `storeFeeRaised` the appointment of amount 0
counts with the fee 500; in `storeEarned` the amount is 500. -/
theorem dashboard_earnings_witness :
    (findById Doctor._id storeFeeRaised.doctors 1 = some docRaised ∧
      (∀ a ∈ storeEarned.appointments, a.docId = 1 → isEarned a = true → a.amount ≠ 0)) ∧
    (∃ dash, doctorDashboard storeFeeRaised 1 = (jsonOk "" none, some dash) ∧
      dash.earnings =
        ((storeFeeRaised.appointments.filter
          (fun a => decide (a.docId = 1) && isEarned a)).map
            (fun a => numOr a.amount (numOr docRaised.fees 0))).sum) ∧
    (∃ dash, doctorDashboard storeEarned 1 = (jsonOk "" none, some dash) ∧
      dash.earnings =
        ((storeEarned.appointments.filter
          (fun a => decide (a.docId = 1) && isEarned a)).map Appointment.amount).sum) ∧
    (doctorDashboard storeEarned 1).2.map DashData.earnings = some 500 :=
  ⟨by decide,
    (dashboard_earnings storeFeeRaised 1).1 docRaised (by decide),
    (dashboard_earnings storeEarned 1).2 (by decide),
    by decide⟩

/-- C22 as stated fails: in `storeFeeRaised` the only appointment of the doctor
is completed, paid and not cancelled and has amount 0, so the sum of `amount` is
0, while the dashboard reports the current fee 500 as earnings. -/
theorem dashboard_earnings_uses_fee :
    storeFeeRaised.appointments.map
      (fun a => (a.docId, a.amount, a.isCompleted, a.cancelled, a.payment)) =
      [(1, 0, true, false, true)] ∧
    ((storeFeeRaised.appointments.filter
      (fun a => decide (a.docId = 1) && isEarned a)).map Appointment.amount).sum = 0 ∧
    (doctorDashboard storeFeeRaised 1).2.map DashData.earnings = some 500 := by
  decide

theorem snapshotOf_blind : FlagBlind snapshotOf := fun _ _ _ _ _ => rfl

theorem bookAppointment_payload_none (s : Store) (req : BookReq) (now : Nat)
    (h : (bookAppointment s req now).1.success = false) :
    (bookAppointment s req now).1.appointment = none := by
  cases hu : (req.authId <|> req.bodyUserId) with
  | none => simp [bookAppointment, hu, jsonErr]
  | some userId =>
    cases hd : req.docId with
    | none => simp [bookAppointment, hu, hd, jsonErr]
    | some docId =>
      by_cases hf : req.slotDate = "" ∨ req.slotTime = ""
      · simp [bookAppointment, hu, hd, hf, jsonErr]
      · cases hD : findById Doctor._id s.doctors docId with
        | none => simp [bookAppointment, hu, hd, hf, hD, jsonErr]
        | some D =>
          by_cases hav : D.available = false
          · simp [bookAppointment, hu, hd, hf, hD, hav, jsonErr]
          · cases hP : findById User._id s.users userId with
            | none => simp [bookAppointment, hu, hd, hf, hD, hav, hP, jsonErr]
            | some P =>
              cases hk : readsInherited D.slots_booked req.slotDate with
              | true => simp [bookAppointment, hu, hd, hf, hD, hav, hP, hk, jsonErr]
              | false =>
                by_cases hin : req.slotTime ∈ (slotGet D.slots_booked req.slotDate).getD []
                · simp [bookAppointment, hu, hd, hf, hD, hav, hP, hk, hin, jsonErr]
                · exfalso
                  simp [bookAppointment, hu, hd, hf, hD, hav, hP, hk, hin, jsonOk] at h

/-- C23 (amended): the snapshots `docData` and `userData` stored at booking are
those of the records as they are then, and no handler rewrites them. For every
later state of the Patient and Doctor records, `listAppointment` reports the
stored documents, and `appointmentsDoctor` and `doctorDashboard` report the
stored documents with `userData` replaced by the current record of the patient
found by `userId`: the doctor listings show `docData` as captured and the
patient as edited. -/
theorem snapshot_listing (gw : Gateway) (s : Store) (doctors : List Doctor)
    (users : List User) :
    (∀ req now a, (bookAppointment s req now).1.appointment = some a →
      ∃ D P, findById Doctor._id s.doctors a.docId = some D ∧
        findById User._id s.users a.userId = some P ∧
        a.docData = mkDocInfo D ∧ a.userData = mkUserInfo P) ∧
    ((∀ req, (cancelAppointment s req).2.appointments.map snapshotOf =
        s.appointments.map snapshotOf) ∧
      (∀ req, (appointmentCancel s req).2.appointments.map snapshotOf =
        s.appointments.map snapshotOf) ∧
      (∀ req, (appointmentComplete s req).2.appointments.map snapshotOf =
        s.appointments.map snapshotOf) ∧
      (∀ req, (verifyStripe s req).2.appointments.map snapshotOf =
        s.appointments.map snapshotOf) ∧
      (∀ req, (verifyRazorpay gw s req).2.appointments.map snapshotOf =
        s.appointments.map snapshotOf)) ∧
    ((∀ userId, listAppointment (Store.mk doctors users s.appointments s.orders) userId =
        listAppointment s userId) ∧
      (∀ userId, ∀ a ∈ (listAppointment s userId).2, a ∈ s.appointments)) ∧
    (∀ docId,
      (appointmentsDoctor (Store.mk doctors users s.appointments s.orders) docId).2.map
          DoctorView.doc = (appointmentsDoctor s docId).2.map DoctorView.doc ∧
      ∀ v ∈ (appointmentsDoctor (Store.mk doctors users s.appointments s.orders) docId).2,
        v.doc ∈ s.appointments ∧ v.userData = findById User._id users v.doc.userId) ∧
    (∀ docId dash,
      (doctorDashboard (Store.mk doctors users s.appointments s.orders) docId).2 =
        some dash →
      ∀ v ∈ dash.latestAppointments,
        v.doc ∈ s.appointments ∧
          v.userData = (findById User._id users v.doc.userId).map selectNameImage) := by
  refine ⟨?_, ⟨fun req => cancelAppointment_blind snapshotOf snapshotOf_blind s req,
    fun req => appointmentCancel_blind snapshotOf snapshotOf_blind s req,
    fun req => appointmentComplete_blind snapshotOf snapshotOf_blind s req,
    fun req => verifyStripe_blind snapshotOf snapshotOf_blind s req,
    fun req => verifyRazorpay_blind snapshotOf snapshotOf_blind gw s req⟩,
    ⟨fun userId => rfl, ?_⟩, ?_, ?_⟩
  · intro req now a ha
    rcases bookAppointment_cases s req now with
      ⟨_, hf⟩ | ⟨u, docId, D, P, hu, hd, h1, h2, hD, hav, hP, hfree, hkey⟩
    · rw [bookAppointment_payload_none s req now hf] at ha
      cases ha
    · rw [bookAppointment_eq_ok s req now u docId D P hu hd h1 h2 hD hav hP hfree hkey] at ha
      simp only [jsonOk, Option.some.injEq] at ha
      subst ha
      exact ⟨D, P, hD, hP, rfl, rfl⟩
  · intro userId a ha
    cases userId with
    | none => simp [listAppointment] at ha
    | some u =>
      have := (sortByDateDesc_perm _).subset ha
      exact (List.mem_filter.mp this).1
  · intro docId
    cases docId with
    | none => exact ⟨rfl, fun v hv => by simp [appointmentsDoctor] at hv⟩
    | some d =>
      refine ⟨by simp [appointmentsDoctor, List.map_map, Function.comp_def], ?_⟩
      intro v hv
      simp only [appointmentsDoctor, List.mem_map, List.mem_filter] at hv
      obtain ⟨a, ⟨ha, _⟩, rfl⟩ := hv
      exact ⟨ha, rfl⟩
  · intro docId dash hdash v hv
    unfold doctorDashboard at hdash
    simp only at hdash
    split at hdash
    · cases hdash
    · simp only [Option.some.injEq] at hdash
      subst hdash
      simp only [List.mem_map] at hv
      obtain ⟨a, ha, rfl⟩ := hv
      have h1 := List.mem_of_mem_take ha
      have h2 := (sortByDateDesc_perm _).subset h1
      exact ⟨(List.mem_filter.mp h2).1, rfl⟩

/-- Witness of C23 (amended): the booking of `store0` and the listings of
`storeBooked` once the patient is renamed. -/
theorem snapshot_listing_witness :
    (bookAppointment store0 req1 0).1.appointment = some apptBooked ∧
    (∃ D P, findById Doctor._id store0.doctors apptBooked.docId = some D ∧
      findById User._id store0.users apptBooked.userId = some P ∧
      apptBooked.docData = mkDocInfo D ∧ apptBooked.userData = mkUserInfo P) ∧
    listAppointment
        (Store.mk storeBooked.doctors storeRenamed.users storeBooked.appointments
          storeBooked.orders) (some 7) =
      listAppointment storeBooked (some 7) ∧
    (appointmentsDoctor
        (Store.mk storeBooked.doctors storeRenamed.users storeBooked.appointments
          storeBooked.orders) (some 1)).2.map DoctorView.doc =
      (appointmentsDoctor storeBooked (some 1)).2.map DoctorView.doc :=
  ⟨by decide,
    (snapshot_listing gw0 store0 store0.doctors store0.users).1 req1 0 apptBooked
      (by decide),
    (snapshot_listing gw0 storeBooked storeBooked.doctors storeRenamed.users).2.2.1.1
      (some 7),
    ((snapshot_listing gw0 storeBooked storeBooked.doctors storeRenamed.users).2.2.2.1
      (some 1)).1⟩

/-- C23 as stated fails: the appointment of `storeBooked` captured the name
"P1"; once the patient is renamed, `appointmentsDoctor` and `doctorDashboard`
report the name "Renamed" as `userData`, while `listAppointment` still reports
"P1". -/
theorem doctor_listing_shows_edited_patient :
    storeRenamed.appointments = storeBooked.appointments ∧
    storeBooked.appointments.map (fun a => a.userData.name) = ["P1"] ∧
    (appointmentsDoctor storeRenamed (some 1)).2.map
      (fun v => v.userData.map User.name) = [some "Renamed"] ∧
    (doctorDashboard storeRenamed 1).2.map
      (fun d => d.latestAppointments.map (fun v => v.userData.map User.name)) =
        some [some "Renamed"] ∧
    (listAppointment storeRenamed (some 7)).2.map (fun a => a.userData.name) = ["P1"] := by
  decide

theorem splitChar_of_not_mem (c : Char) (p : List Char) (h : c ∉ p) :
    splitChar c p = [p] := by
  induction p with
  | nil => rfl
  | cons x xs ih =>
    have hx : x ≠ c := fun e => h (e ▸ List.mem_cons_self _ _)
    have hxs : c ∉ xs := fun e => h (List.mem_cons_of_mem _ e)
    simp [splitChar, hx, ih hxs]

theorem splitChar_append_sep (c : Char) (p rest : List Char) (h : c ∉ p) :
    splitChar c (p ++ c :: rest) = p :: splitChar c rest := by
  induction p with
  | nil => simp [splitChar]
  | cons x xs ih =>
    have hx : x ≠ c := fun e => h (e ▸ List.mem_cons_self _ _)
    have hxs : c ∉ xs := fun e => h (List.mem_cons_of_mem _ e)
    simp [splitChar, hx, ih hxs]

theorem splitChar_three (c : Char) (d m y : List Char) (hd : c ∉ d) (hm : c ∉ m)
    (hy : c ∉ y) : splitChar c (d ++ c :: (m ++ c :: y)) = [d, m, y] := by
  rw [splitChar_append_sep c d _ hd, splitChar_append_sep c m _ hm,
    splitChar_of_not_mem c y hy]

theorem monthAt_eq (m : Nat) (h1 : 1 ≤ m) (h12 : m ≤ 12) :
    monthAt (some m) = some (threeLetterMonth m) := by
  interval_cases m <;> rfl

theorem digit_ne_sep (cs : List Char) (h : cs.all Char.isDigit = true) :
    '_' ∉ cs ∧ '-' ∉ cs := by
  rw [List.all_eq_true] at h
  exact ⟨fun e => absurd (h _ e) (by decide), fun e => absurd (h _ e) (by decide)⟩

/-- The decimal numeral of a month number is a string of digits with that
value. -/
theorem toString_month (m : Nat) (h1 : 1 ≤ m) (h12 : m ≤ 12) :
    (toString m).toList.all Char.isDigit = true ∧ digitsValue (toString m).toList = m := by
  interval_cases m <;> decide

theorem slotDateFormat_three (sd : String) (dl ml yl : List Char) (m : Nat)
    (hne : sd ≠ "")
    (hparts : (if '_' ∈ sd.toList then splitChar '_' sd.toList
      else splitChar '-' sd.toList) = [dl, ml, yl])
    (hdig : ml.all Char.isDigit = true) (hval : digitsValue ml = m)
    (h1 : 1 ≤ m) (h12 : m ≤ 12) :
    slotDateFormat (some sd) =
      some (String.mk dl ++ " " ++ threeLetterMonth m ++ " " ++ String.mk yl) := by
  have hnum : jsNumber (some ml) = some (some m) := by
    show (if ml.all Char.isDigit = true then some (some (digitsValue ml)) else none) = _
    rw [if_pos hdig, hval]
  unfold slotDateFormat
  simp only [hne, if_false]
  rw [hparts]
  show (jsNumber (some ml)).map _ = _
  rw [hnum]
  show some (String.mk dl ++ " " ++ interpolate (monthAt (some m)) ++ " " ++ String.mk yl) = _
  rw [monthAt_eq m h1 h12]
  rfl

theorem toList_three (d ms y : String) (c : Char) :
    (d ++ String.mk [c] ++ ms ++ String.mk [c] ++ y).toList =
      d.toList ++ c :: (ms.toList ++ c :: y.toList) := by
  simp [String.toList]

theorem three_ne_empty (d ms y : String) (c : Char) :
    d ++ String.mk [c] ++ ms ++ String.mk [c] ++ y ≠ "" := by
  intro e
  have h := congrArg String.toList e
  rw [toList_three] at h
  have h2 := congrArg List.length h
  simp at h2

theorem mem_three (a c : Char) (d ms y : List Char)
    (h : a ∈ d ++ c :: (ms ++ c :: y)) : a ∈ d ∨ a ∈ ms ∨ a ∈ y ∨ a = c := by
  simp only [List.mem_append, List.mem_cons] at h
  tauto

/-- Claim C30: `slotDateFormat` is delimiter-agnostic. For a day `d` and a year
`y` that contain neither "_" nor "-", and a month written as a string of
decimal digits `ms` of value `m` with `1 ≤ m ≤ 12`, the strings `d_ms_y` and
`d-ms-y` are both formatted as `d`, the three-letter name of month `m` and `y`
separated by blanks; a missing argument and the empty string give the empty
string. -/
theorem slotDateFormat_delimiter_agnostic (d ms y : String) (m : Nat)
    (hd : '_' ∉ d.toList ∧ '-' ∉ d.toList) (hy : '_' ∉ y.toList ∧ '-' ∉ y.toList)
    (hdig : ms.toList.all Char.isDigit = true) (hval : digitsValue ms.toList = m)
    (h1 : 1 ≤ m) (h12 : m ≤ 12) :
    slotDateFormat (some (d ++ "_" ++ ms ++ "_" ++ y)) =
        some (d ++ " " ++ threeLetterMonth m ++ " " ++ y) ∧
      slotDateFormat (some (d ++ "-" ++ ms ++ "-" ++ y)) =
        some (d ++ " " ++ threeLetterMonth m ++ " " ++ y) ∧
      slotDateFormat none = some "" ∧ slotDateFormat (some "") = some "" := by
  obtain ⟨hmu, hmd⟩ := digit_ne_sep _ hdig
  refine ⟨?_, ?_, rfl, rfl⟩
  · have hin : '_' ∈ (d ++ "_" ++ ms ++ "_" ++ y).toList := by
      rw [toList_three d ms y '_']
      exact List.mem_append_right _ (List.mem_cons_self _ _)
    exact slotDateFormat_three _ d.toList ms.toList y.toList m
      (three_ne_empty d ms y '_')
      (by rw [if_pos hin, toList_three d ms y '_',
            splitChar_three '_' _ _ _ hd.1 hmu hy.1])
      hdig hval h1 h12
  · have hnin : '_' ∉ (d ++ "-" ++ ms ++ "-" ++ y).toList := by
      intro h
      rw [toList_three d ms y '-'] at h
      rcases mem_three _ _ _ _ _ h with h | h | h | h
      · exact hd.1 h
      · exact hmu h
      · exact hy.1 h
      · exact absurd h (by decide)
    exact slotDateFormat_three _ d.toList ms.toList y.toList m
      (three_ne_empty d ms y '-')
      (by rw [if_neg hnin, toList_three d ms y '-',
            splitChar_three '-' _ _ _ hd.2 hmd hy.2])
      hdig hval h1 h12

/-- Witness of C30: the first of June 2024, with the month written "6". -/
theorem slotDateFormat_delimiter_agnostic_witness :
    slotDateFormat (some "1_6_2024") = some "1 Jun 2024" ∧
      slotDateFormat (some "1-6-2024") = some "1 Jun 2024" ∧
      slotDateFormat none = some "" ∧ slotDateFormat (some "") = some "" :=
  slotDateFormat_delimiter_agnostic "1" "6" "2024" 6 (by decide) (by decide) (by decide)
    (by decide) (by decide) (by decide)

end HMS
